import Mathlib

/-!
Verification of the report-query compiler (`api/query_builder.py` over the
registry in `api/entities.py`).

Modelling conventions:
* Python strings are Lean `String`s; query text is built with `++` and an
  explicit `pyJoin` modelling `str.join`.
* Python `datetime` values are modelled as integer hours since an arbitrary
  epoch; `timedelta(hours=h) = h`, `timedelta(days=d) = 24*d`,
  `timedelta(weeks=w) = 168*w`.  `datetime.isoformat` is modelled as the
  decimal rendering of that integer and `datetime.fromisoformat` as decimal
  parsing; the claims under study depend only on these being injective,
  deterministic renderings free of the placeholder marker.
* `datetime.utcnow()` is modelled as an explicit `now : Int` argument.
* Python exceptions (`ValueError`) are modelled with `Except String`.
* The module-level registry `ENTITIES` is a parameter `reg : Registry` of the
  embedded functions; the shipped registry is the concrete `ENTITIES` below.
  A Python `dict` in insertion order is modelled as an association list.
* Entity/field attributes that `query_builder.py` never reads
  (display names, field types, flags, categories, …) are omitted from the
  embedded records.
-/

/-- Decimal digit character, `digitChar 3 = '3'`. -/
def digitChar (n : Nat) : Char := Char.ofNat (48 + n)

/-- Fuel-driven decimal digit rendering (structural so that the kernel can
evaluate it; `natDigits` supplies always-sufficient fuel). -/
def natDigitsF : Nat → Nat → List Char
  | 0, _ => []
  | fuel + 1, n =>
    if n < 10 then [digitChar n]
    else natDigitsF fuel (n / 10) ++ [digitChar (n % 10)]

/-- Decimal digits of a natural number, most significant first
(the rendering Python `str` / f-strings produce for a nonnegative int). -/
def natDigits (n : Nat) : List Char := natDigitsF (n + 1) n

/-- Decimal rendering of a natural number. -/
def natRepr (n : Nat) : String := ⟨natDigits n⟩

/-- Decimal rendering of an integer (Python `str` on an int). -/
def intRepr (i : Int) : String :=
  if i < 0 then "-" ++ natRepr i.natAbs else natRepr i.toNat

/-- Numeric value of a digit run (how a decimal digit string is read). -/
def parseNat (ds : List Char) : Nat :=
  ds.foldl (fun a c => 10 * a + (c.toNat - 48)) 0

/-- Model of integer parsing, used by the `datetime.fromisoformat` model:
an optional sign followed by a non-empty digit run. -/
def parseIntM (s : String) : Option Int :=
  match s.data with
  | '-' :: rest =>
      if rest ≠ [] && rest.all Char.isDigit then some (-(parseNat rest : Int))
      else none
  | l =>
      if l ≠ [] && l.all Char.isDigit then some ((parseNat l : Nat) : Int)
      else none

/-- Model of a Python runtime value that can appear as a filter value /
query parameter (`Any` in the source). -/
inductive PyVal where
  | vStr (s : String)
  | vInt (n : Int)
  | vBool (b : Bool)
  | vNone
  | vList (elems : List PyVal)
deriving Inhabited

/-- Model of Python `repr` on a `PyVal` (used by `str` on lists). -/
def pyRepr : PyVal → String
  | .vStr s => "\x27" ++ s ++ "\x27"
  | .vInt n => intRepr n
  | .vBool b => if b then "True" else "False"
  | .vNone => "None"
  | .vList xs => "[" ++ String.intercalate ", " (xs.attach.map (fun x => pyRepr x.1)) ++ "]"
decreasing_by have := List.sizeOf_lt_of_mem x.2; simp only [PyVal.vList.sizeOf_spec]; omega

/-- Model of Python `str` on a `PyVal` (f-string interpolation). -/
def pyStr : PyVal → String
  | .vStr s => s
  | v => pyRepr v

/-- Model of Python `str.join`: `pyJoin sep [a, b, c] = a ++ sep ++ b ++ sep ++ c`. -/
def pyJoin (sep : String) : List String → String
  | [] => ""
  | [p] => p
  | p :: q :: rest => p ++ sep ++ pyJoin sep (q :: rest)

/-- Python `x or default` on an optional string (`None` and `""` are falsy). -/
def pyOrStr (a : Option String) (b : String) : String :=
  match a with
  | some s => if s = "" then b else s
  | none => b

/-- Python `x or default` on an optional int (`None` and `0` are falsy). -/
def pyOrInt (a : Option Int) (b : Int) : Int :=
  match a with
  | some n => if n = 0 then b else n
  | none => b

/-- Model of Python `str.upper` (ASCII uppercase; the join kinds it is
applied to are ASCII). -/
def pyUpper (s : String) : String := ⟨s.data.map Char.toUpper⟩

/-- Model of Python `str.lower` (ASCII lowercase). -/
def pyLower (s : String) : String := ⟨s.data.map Char.toLower⟩

/-- First character admitted by the identifier regex: `[a-zA-Z_]`. -/
def isIdentStart (c : Char) : Bool := c.isAlpha || c = '_'

/-- Subsequent characters admitted by the identifier regex: `[a-zA-Z0-9_]`. -/
def isIdentChar (c : Char) : Bool := c.isAlphanum || c = '_'

/-- Character-list core of the identifier pattern `[a-zA-Z_][a-zA-Z0-9_]*`
matched against the whole list. -/
def validIdentCore (l : List Char) : Bool :=
  match l with
  | [] => false
  | c :: cs => isIdentStart c && cs.all isIdentChar

/-- Spec-side strict identifier predicate, read off the spec wording:
letters/digits/underscore only, non-empty, must not start with a digit. -/
def validIdent (s : String) : Bool := validIdentCore s.data

/-- Model of Python `re.match(r'^[a-zA-Z_][a-zA-Z0-9_]*$', s)` being truthy.
Python `$` also matches just before a single trailing newline, so a string
whose core is valid but that carries one final `'\n'` is accepted as well. -/
def regexIdentMatch (s : String) : Bool :=
  validIdentCore s.data ||
    (match s.data.getLast? with
     | some c => c = '\n' && validIdentCore s.data.dropLast
     | none => false)

/-- Embeds `EntityField` (attributes `query_builder.py` never reads are omitted). -/
structure EntityField where
  id : String
  name : String
deriving DecidableEq

/-- Embeds `EntityRelationship`. -/
structure EntityRelationship where
  target_entity : String
  type : String
  source_field : String
  target_field : String
  join_type : String
deriving DecidableEq

/-- Embeds `Entity` (presentation-only attributes omitted). -/
structure Entity where
  id : String
  schema_name : String
  table_name : String
  fields : List EntityField
  relationships : List EntityRelationship
deriving DecidableEq

/-- The registry type: `ENTITIES : Dict[str, Entity]` in insertion order. -/
abbrev Registry := List (String × Entity)

/-- Embeds `get_entity` (`ENTITIES.get(entity_id)`), over an explicit registry. -/
def get_entity_r (reg : Registry) (entity_id : String) : Option Entity :=
  (reg.find? (fun p => p.1 = entity_id)).map (·.2)

/-- Shorthand for a registry field whose `id` and `name` coincide
(every field in `entities.py` is declared that way). -/
def EF (i : String) : EntityField := ⟨i, i⟩

/-- Embeds the helper `_timestamp_field()` of `entities.py`. -/
def timestamp_field : EntityField := EF "record_added_at"

/-- Embeds the `objects` entity. -/
def objectsEntity : Entity :=
  { id := "objects"
    schema_name := "raw_business_data"
    table_name := "objects"
    fields := [EF "object_id", EF "object_label", EF "device_id", EF "client_id",
               EF "group_id", EF "model", EF "create_datetime", EF "is_deleted",
               EF "is_clone", timestamp_field]
    relationships :=
      [⟨"devices", "many-to-one", "device_id", "device_id", "left"⟩,
       ⟨"groups", "many-to-one", "group_id", "group_id", "left"⟩,
       ⟨"vehicles", "one-to-one", "object_id", "object_id", "left"⟩,
       ⟨"employees", "one-to-many", "object_id", "object_id", "left"⟩] }

/-- Embeds the `vehicles` entity. -/
def vehiclesEntity : Entity :=
  { id := "vehicles"
    schema_name := "raw_business_data"
    table_name := "vehicles"
    fields := [EF "vehicle_id", EF "vehicle_label", EF "registration_number",
               EF "vin", EF "model", EF "manufacture_year", EF "vehicle_type",
               EF "fuel_type", EF "fuel_tank_volume", EF "standard_fuel_consumption",
               EF "max_speed", EF "object_id", EF "user_id", EF "garage_id",
               timestamp_field]
    relationships :=
      [⟨"objects", "one-to-one", "object_id", "object_id", "left"⟩,
       ⟨"users", "many-to-one", "user_id", "user_id", "left"⟩] }

/-- Embeds the `employees` entity. -/
def employeesEntity : Entity :=
  { id := "employees"
    schema_name := "raw_business_data"
    table_name := "employees"
    fields := [EF "employee_id", EF "first_name", EF "last_name", EF "middle_name",
               EF "email", EF "phone_number", EF "personnel_number",
               EF "department_id", EF "object_id", EF "hardware_key",
               EF "driver_license_number", EF "is_deleted", timestamp_field]
    relationships :=
      [⟨"departments", "many-to-one", "department_id", "department_id", "left"⟩,
       ⟨"objects", "many-to-one", "object_id", "object_id", "left"⟩] }

/-- Embeds the `departments` entity. -/
def departmentsEntity : Entity :=
  { id := "departments"
    schema_name := "raw_business_data"
    table_name := "departments"
    fields := [EF "department_id", EF "department_label", EF "user_id",
               EF "address", EF "latitude", EF "longitude", timestamp_field]
    relationships :=
      [⟨"employees", "one-to-many", "department_id", "department_id", "left"⟩] }

/-- Embeds the `groups` entity. -/
def groupsEntity : Entity :=
  { id := "groups"
    schema_name := "raw_business_data"
    table_name := "groups"
    fields := [EF "group_id", EF "group_label", EF "group_color", EF "client_id",
               timestamp_field]
    relationships :=
      [⟨"objects", "one-to-many", "group_id", "group_id", "left"⟩] }

/-- Embeds the `devices` entity. -/
def devicesEntity : Entity :=
  { id := "devices"
    schema_name := "raw_business_data"
    table_name := "devices"
    fields := [EF "device_id", EF "device_imei", EF "phone", EF "network_label",
               EF "signal_level", EF "has_roaming", EF "is_sim_blocked",
               EF "created_at", timestamp_field]
    relationships :=
      [⟨"objects", "one-to-many", "device_id", "device_id", "left"⟩,
       ⟨"sensor_description", "one-to-many", "device_id", "device_id", "left"⟩] }

/-- Embeds the `sensor_description` entity. -/
def sensorDescriptionEntity : Entity :=
  { id := "sensor_description"
    schema_name := "raw_business_data"
    table_name := "sensor_description"
    fields := [EF "sensor_id", EF "device_id", EF "sensor_label", EF "sensor_type",
               EF "input_label", EF "sensor_units", EF "multiplier", EF "divider",
               timestamp_field]
    relationships :=
      [⟨"devices", "many-to-one", "device_id", "device_id", "inner"⟩] }

/-- Embeds the `tags` entity. -/
def tagsEntity : Entity :=
  { id := "tags"
    schema_name := "raw_business_data"
    table_name := "tags"
    fields := [EF "tag_id", EF "tag_label", EF "color", EF "user_id",
               timestamp_field]
    relationships := [] }

/-- Embeds the `geofences` entity. -/
def geofencesEntity : Entity :=
  { id := "geofences"
    schema_name := "raw_business_data"
    table_name := "zones"
    fields := [EF "zone_id", EF "zone_label", EF "zone_type", EF "address",
               EF "latitude", EF "longitude", EF "radius", EF "color",
               timestamp_field]
    relationships := [] }

/-- Embeds the `pois` entity. -/
def poisEntity : Entity :=
  { id := "pois"
    schema_name := "raw_business_data"
    table_name := "places"
    fields := [EF "place_id", EF "place_label", EF "address", EF "latitude",
               EF "longitude", EF "radius", EF "description", EF "external_id",
               EF "user_id", timestamp_field]
    relationships := [] }

/-- Embeds the `tracking_data_core` entity. -/
def trackingDataCoreEntity : Entity :=
  { id := "tracking_data_core"
    schema_name := "raw_telematics_data"
    table_name := "tracking_data_core"
    fields := [EF "device_id", EF "device_time", EF "platform_time",
               EF "latitude", EF "longitude", EF "speed", EF "altitude",
               EF "satellites", EF "event_id", timestamp_field]
    relationships :=
      [⟨"devices", "many-to-one", "device_id", "device_id", "inner"⟩] }

/-- Embeds the `inputs` entity. -/
def inputsEntity : Entity :=
  { id := "inputs"
    schema_name := "raw_telematics_data"
    table_name := "inputs"
    fields := [EF "device_id", EF "device_time", EF "sensor_name", EF "value",
               EF "event_id", timestamp_field]
    relationships :=
      [⟨"devices", "many-to-one", "device_id", "device_id", "inner"⟩] }

/-- Embeds the `states` entity. -/
def statesEntity : Entity :=
  { id := "states"
    schema_name := "raw_telematics_data"
    table_name := "states"
    fields := [EF "device_id", EF "device_time", EF "state_name", EF "value",
               EF "status", EF "event_id", timestamp_field]
    relationships :=
      [⟨"devices", "many-to-one", "device_id", "device_id", "inner"⟩] }

/-- Embeds the shipped registry `ENTITIES` in declaration order. -/
def ENTITIES : Registry :=
  [("objects", objectsEntity),
   ("vehicles", vehiclesEntity),
   ("employees", employeesEntity),
   ("departments", departmentsEntity),
   ("groups", groupsEntity),
   ("devices", devicesEntity),
   ("sensor_description", sensorDescriptionEntity),
   ("tags", tagsEntity),
   ("geofences", geofencesEntity),
   ("pois", poisEntity),
   ("tracking_data_core", trackingDataCoreEntity),
   ("inputs", inputsEntity),
   ("states", statesEntity)]

/-- Embeds the `FilterOperator` enum. -/
inductive FilterOperator where
  | EQUALS | NOT_EQUALS | CONTAINS | NOT_CONTAINS | STARTS_WITH | ENDS_WITH
  | GREATER_THAN | GREATER_EQUAL | LESS_THAN | LESS_EQUAL | BETWEEN
  | IN | NOT_IN | IS_NULL | IS_NOT_NULL
deriving DecidableEq

/-- Embeds the `AggregationType` enum. -/
inductive AggregationType where
  | COUNT | SUM | AVG | MIN | MAX | COUNT_DISTINCT
deriving DecidableEq

/-- String value of an `AggregationType` member (its Python enum `.value`). -/
def aggValue : AggregationType → String
  | .COUNT => "count"
  | .SUM => "sum"
  | .AVG => "avg"
  | .MIN => "min"
  | .MAX => "max"
  | .COUNT_DISTINCT => "count_distinct"

/-- Embeds the `SelectedField` model (`display_alias` is the source attribute
`alias`, renamed because `alias` is a Lean keyword; the builder never reads it). -/
structure SelectedField where
  entity_id : String
  field_id : String
  display_alias : Option String := none
  aggregation : Option AggregationType := none

/-- Embeds the `FilterCondition` model (`value`/`value2` default to `None`). -/
structure FilterCondition where
  id : String
  entity_id : String
  field_id : String
  operator : FilterOperator
  value : PyVal := .vNone
  value2 : PyVal := .vNone

/-- Embeds the `SortConfig` model. -/
structure SortConfig where
  entity_id : String
  field_id : String
  direction : String := "asc"

/-- Embeds the `TimeRange` model. -/
structure TimeRange where
  type : String
  relative_value : Option Int := none
  relative_unit : Option String := none
  start_date : Option String := none
  end_date : Option String := none

/-- Embeds the `ReportConfig` model (fields unread by the builder omitted:
`name`, `description`). -/
structure ReportConfig where
  primary_entity : String
  selected_fields : List SelectedField
  filters : List FilterCondition := []
  sorting : List SortConfig := []
  time_range : Option TimeRange := none
  time_field : Option String := none
  time_field_entity : Option String := none
  group_by : Option (List SelectedField) := none
  limit : Int := 1000

/-- Embeds `_sanitize_identifier`: raise `ValueError` unless the name matches
the identifier regex, otherwise return the name unchanged. -/
def sanitize_identifier (name : String) : Except String String :=
  if regexIdentMatch name then .ok name
  else .error ("Invalid identifier: " ++ name)

/-- Embeds `_get_qualified_field_name` (the raised `ValueError` of a failing
check propagates; written as explicit propagation matches). -/
def get_qualified_field_name (entity : Entity) (field : EntityField)
    (table_alias : String) : Except String String :=
  match sanitize_identifier table_alias with
  | .error e => .error e
  | .ok alias_ =>
    match sanitize_identifier field.name with
    | .error e => .error e
    | .ok field_name => .ok (alias_ ++ "." ++ field_name)

/-- Embeds `_get_field_alias`. -/
def get_field_alias (entity_id : String) (field_id : String)
    (aggregation : Option AggregationType) : String :=
  match aggregation with
  | some agg => aggValue agg ++ "_" ++ entity_id ++ "_" ++ field_id
  | none => entity_id ++ "_" ++ field_id

/-- Embeds `_build_aggregation` (the `agg_map.get` default arm is unreachable:
every enum member is a key of `agg_map`). -/
def build_aggregation (field_name : String) : AggregationType → String
  | .COUNT => "COUNT(" ++ field_name ++ ")"
  | .SUM => "SUM(" ++ field_name ++ ")"
  | .AVG => "AVG(" ++ field_name ++ ")"
  | .MIN => "MIN(" ++ field_name ++ ")"
  | .MAX => "MAX(" ++ field_name ++ ")"
  | .COUNT_DISTINCT => "COUNT(DISTINCT " ++ field_name ++ ")"

/-- Placeholder texts `$start, $start+1, …` for `n` consecutive parameters,
as produced by repeated calls of the local `param` closure. -/
def placeholder_texts (start : Nat) (n : Nat) : List String :=
  (List.range n).map (fun j => "$" ++ natRepr (start + j))

/-- Embeds `_build_filter_condition`.  The Python function mutates `params`
and returns `(condition, param_idx)`; here the updated parameter list is
returned alongside.  Each call of the local closure `param(val)` appends
`val` and yields the text `"$" ++ param_idx` before incrementing. -/
def build_filter_condition (entity : Entity) (field : EntityField)
    (table_alias : String) (filter_ : FilterCondition)
    (params : List PyVal) (param_idx : Nat) :
    Except String (String × List PyVal × Nat) :=
  match get_qualified_field_name entity field table_alias with
  | .error e => .error e
  | .ok field_name =>
    match filter_.operator with
    | .IS_NULL => .ok (field_name ++ " IS NULL", params, param_idx)
    | .IS_NOT_NULL => .ok (field_name ++ " IS NOT NULL", params, param_idx)
    | .EQUALS =>
        .ok (field_name ++ " = $" ++ natRepr param_idx,
             params ++ [filter_.value], param_idx + 1)
    | .NOT_EQUALS =>
        .ok (field_name ++ " != $" ++ natRepr param_idx,
             params ++ [filter_.value], param_idx + 1)
    | .CONTAINS =>
        .ok (field_name ++ " ILIKE $" ++ natRepr param_idx,
             params ++ [.vStr ("%" ++ pyStr filter_.value ++ "%")], param_idx + 1)
    | .NOT_CONTAINS =>
        .ok (field_name ++ " NOT ILIKE $" ++ natRepr param_idx,
             params ++ [.vStr ("%" ++ pyStr filter_.value ++ "%")], param_idx + 1)
    | .STARTS_WITH =>
        .ok (field_name ++ " ILIKE $" ++ natRepr param_idx,
             params ++ [.vStr (pyStr filter_.value ++ "%")], param_idx + 1)
    | .ENDS_WITH =>
        .ok (field_name ++ " ILIKE $" ++ natRepr param_idx,
             params ++ [.vStr ("%" ++ pyStr filter_.value)], param_idx + 1)
    | .GREATER_THAN =>
        .ok (field_name ++ " > $" ++ natRepr param_idx,
             params ++ [filter_.value], param_idx + 1)
    | .GREATER_EQUAL =>
        .ok (field_name ++ " >= $" ++ natRepr param_idx,
             params ++ [filter_.value], param_idx + 1)
    | .LESS_THAN =>
        .ok (field_name ++ " < $" ++ natRepr param_idx,
             params ++ [filter_.value], param_idx + 1)
    | .LESS_EQUAL =>
        .ok (field_name ++ " <= $" ++ natRepr param_idx,
             params ++ [filter_.value], param_idx + 1)
    | .BETWEEN =>
        .ok (field_name ++ " BETWEEN $" ++ natRepr param_idx ++
               " AND $" ++ natRepr (param_idx + 1),
             params ++ [filter_.value, filter_.value2], param_idx + 2)
    | .IN =>
        match filter_.value with
        | .vList elems =>
            .ok (field_name ++ " IN (" ++
                   pyJoin ", " (placeholder_texts param_idx elems.length) ++ ")",
                 params ++ elems, param_idx + elems.length)
        | v =>
            .ok (field_name ++ " = $" ++ natRepr param_idx,
                 params ++ [v], param_idx + 1)
    | .NOT_IN =>
        match filter_.value with
        | .vList elems =>
            .ok (field_name ++ " NOT IN (" ++
                   pyJoin ", " (placeholder_texts param_idx elems.length) ++ ")",
                 params ++ elems, param_idx + elems.length)
        | v =>
            .ok (field_name ++ " != $" ++ natRepr param_idx,
                 params ++ [v], param_idx + 1)

/-- Model of `datetime.fromisoformat` under the integer-hours datetime model:
decimal parse, raising `ValueError` on unparsable input. -/
def datetime_fromisoformat (s : String) : Except String Int :=
  match parseIntM s with
  | some n => .ok n
  | none => .error ("Invalid isoformat string: " ++ s)

/-- Model of `datetime.isoformat` under the integer-hours datetime model. -/
def datetime_isoformat (t : Int) : String := intRepr t

/-- Embeds `_calculate_time_range`; `now` models `datetime.utcnow()`.
Durations are in hours: `timedelta(days=7)` is `168`. -/
def calculate_time_range (time_range : TimeRange) (now : Int) :
    Except String (Option Int × Option Int) :=
  if time_range.type = "absolute" then
    match time_range.start_date with
    | some d =>
      (match datetime_fromisoformat d with
       | .error e => .error e
       | .ok sv =>
         match time_range.end_date with
         | some d2 =>
           (match datetime_fromisoformat d2 with
            | .error e => .error e
            | .ok ev => .ok (some sv, some ev))
         | none => .ok (some sv, none))
    | none =>
      match time_range.end_date with
      | some d2 =>
        (match datetime_fromisoformat d2 with
         | .error e => .error e
         | .ok ev => .ok (none, some ev))
      | none => .ok (none, none)
  else
    let v := pyOrInt time_range.relative_value 0
    let delta : Int :=
      match pyOrStr time_range.relative_unit "days" with
      | "hours" => v
      | "days" => 24 * v
      | "weeks" => 168 * v
      | "months" => 24 * (v * 30)
      | "years" => 24 * (v * 365)
      | _ => 24 * 7
    .ok (some (now - delta), some now)

/-- Join step `(from_entity, to_entity, from_field, to_field, join_type)`. -/
structure JoinStep where
  from_entity : String
  to_entity : String
  from_field : String
  to_field : String
  join_type : String
deriving DecidableEq

/-- Order-insensitive duplicate removal (keeps the last occurrence);
structural so that the kernel can evaluate it. -/
def dedupKeys : List String → List String
  | [] => []
  | x :: xs => if xs.contains x then dedupKeys xs else x :: dedupKeys xs

/-- Number of registered entity ids not yet in the visited set; the
recursion depth bound of `_find_join_path`. -/
def numUnvisited (reg : Registry) (visited : List String) : Nat :=
  ((dedupKeys (reg.map Prod.fst)).filter (fun i => !visited.contains i)).length

/-- Embeds `_find_join_path`, with explicit recursion fuel (the Python
function recurses on a strictly growing visited set; fuel beyond
`numUnvisited` is never consumed, see the termination theorem).  The four
candidate blocks are generated in the source order: direct forward edge,
direct reverse edge, multi-hop over forward edges, multi-hop over reverse
edges; within each block the first success is returned. -/
def find_join_path_fuel (reg : Registry) :
    Nat → String → String → List String → Option (List JoinStep)
  | 0, _, _, _ => none
  | fuel + 1, from_entity_id, to_entity_id, visited =>
    if from_entity_id = to_entity_id then some []
    else if visited.contains from_entity_id then none
    else match get_entity_r reg from_entity_id with
      | none => none
      | some from_entity =>
        let visited' := from_entity_id :: visited
        let direct_forward := from_entity.relationships.findSome? (fun rel =>
          if rel.target_entity = to_entity_id then
            some [⟨from_entity_id, to_entity_id, rel.source_field,
                   rel.target_field, rel.join_type⟩]
          else none)
        let direct_reverse := reg.findSome? (fun p =>
          if visited'.contains p.1 then none
          else p.2.relationships.findSome? (fun rel =>
            if rel.target_entity = from_entity_id && p.1 = to_entity_id then
              some [⟨from_entity_id, to_entity_id, rel.target_field,
                     rel.source_field, rel.join_type⟩]
            else none))
        let multi_forward :=
          from_entity.relationships.findSome? (fun rel =>
            if visited'.contains rel.target_entity then none
            else (find_join_path_fuel reg fuel rel.target_entity to_entity_id
                    visited').map (fun sub =>
              ⟨from_entity_id, rel.target_entity, rel.source_field,
               rel.target_field, rel.join_type⟩ :: sub))
        let multi_reverse :=
          reg.findSome? (fun p =>
            if visited'.contains p.1 then none
            else p.2.relationships.findSome? (fun rel =>
              if rel.target_entity = from_entity_id then
                (find_join_path_fuel reg fuel p.1 to_entity_id visited').map
                  (fun sub =>
                    ⟨from_entity_id, p.1, rel.target_field, rel.source_field,
                     rel.join_type⟩ :: sub)
              else none))
        match direct_forward with
        | some p => some p
        | none =>
          match direct_reverse with
          | some p => some p
          | none =>
            match multi_forward with
            | some p => some p
            | none => multi_reverse

/-- Embeds `_find_join_path` called with a given visited set (`None` at the
call sites becomes the empty set); the fuel `numUnvisited reg visited + 1`
is an upper bound on the recursion depth actually reached. -/
def find_join_path (reg : Registry) (from_entity_id to_entity_id : String)
    (visited : List String) : Option (List JoinStep) :=
  find_join_path_fuel reg (numUnvisited reg visited + 1)
    from_entity_id to_entity_id visited

/-- Lookup in an insertion-ordered dict modelled as an association list
(`d.get(k)` / `k in d`). -/
def dict_get {α : Type} (d : List (String × α)) (k : String) : Option α :=
  (d.find? (fun p => p.1 = k)).map (·.2)

/-- One step of the `used_entities` collection loops: insert `eid` unless it
is already a key, and only if it resolves in the registry. -/
def insert_used (reg : Registry) (used : List (String × Entity))
    (eid : String) : List (String × Entity) :=
  if (dict_get used eid).isSome then used
  else match get_entity_r reg eid with
    | some e => used ++ [(eid, e)]
    | none => used

/-- Embeds the `used_entities` collection of `build_query` (lines 287-305):
primary entity first, then entities of selected fields, filters and sorting,
in first-reference order, silently skipping unknown ids. -/
def collect_used_entities (reg : Registry) (config : ReportConfig)
    (primary_entity : Entity) : List (String × Entity) :=
  let u0 := [(config.primary_entity, primary_entity)]
  let u1 := config.selected_fields.foldl (fun acc f => insert_used reg acc f.entity_id) u0
  let u2 := config.filters.foldl (fun acc f => insert_used reg acc f.entity_id) u1
  config.sorting.foldl (fun acc s => insert_used reg acc s.entity_id) u2

/-- Embeds the SELECT loop of `build_query` (lines 318-344), returning
`(select_parts, group_by_fields)`.  Unresolvable references are skipped by
`continue`.  `table_aliases[eid]` always equals the entity's `table_name`
(line 311), so the alias lookup is inlined as `entity.table_name`. -/
def build_select_parts (used : List (String × Entity)) (has_aggregation : Bool)
    (group_by : Option (List SelectedField)) :
    List SelectedField → Except String (List String × List String)
  | [] => .ok ([], [])
  | sel_field :: rest =>
    match dict_get used sel_field.entity_id with
    | none => build_select_parts used has_aggregation group_by rest
    | some entity =>
      match entity.fields.find? (fun f => f.id = sel_field.field_id) with
      | none => build_select_parts used has_aggregation group_by rest
      | some field =>
        match get_qualified_field_name entity field entity.table_name with
        | .error e => .error e
        | .ok field_name =>
          let alias_ := get_field_alias sel_field.entity_id sel_field.field_id
            sel_field.aggregation
          let exprGb : String × List String :=
            match sel_field.aggregation with
            | some agg => (build_aggregation field_name agg, [])
            | none =>
              let in_group_by :=
                match group_by with
                | some gbs =>
                    has_aggregation && !gbs.isEmpty &&
                      gbs.any (fun g => g.entity_id = sel_field.entity_id &&
                                        g.field_id = sel_field.field_id)
                | none => false
              (field_name, if in_group_by then [field_name] else [])
          match build_select_parts used has_aggregation group_by rest with
          | .error e => .error e
          | .ok (parts, gb_fields) =>
            .ok ((exprGb.1 ++ " AS " ++ alias_) :: parts, exprGb.2 ++ gb_fields)

/-- Embeds the inner JOIN-clause loop of `build_query` (lines 373-394):
walk a join path, skipping steps whose target is already joined, and
accumulate clauses plus the updated joined set. -/
def build_join_steps (reg : Registry) :
    List JoinStep → List String → Except String (List String × List String)
  | [], joined => .ok ([], joined)
  | step :: rest, joined =>
    if joined.contains step.to_entity then build_join_steps reg rest joined
    else match get_entity_r reg step.to_entity with
    | none => build_join_steps reg rest joined
    | some to_entity =>
      match get_entity_r reg step.from_entity with
      | none => build_join_steps reg rest joined
      | some from_entity =>
        let upper := pyUpper step.join_type
        let join_type_sql :=
          if upper = "INNER" || upper = "LEFT" || upper = "RIGHT" then upper
          else "LEFT"
        match sanitize_identifier to_entity.schema_name with
        | .error e => .error e
        | .ok target_schema =>
          match sanitize_identifier to_entity.table_name with
          | .error e => .error e
          | .ok target_table =>
            match sanitize_identifier from_entity.table_name with
            | .error e => .error e
            | .ok source_table =>
              match sanitize_identifier step.from_field with
              | .error e => .error e
              | .ok source_field =>
                match sanitize_identifier step.to_field with
                | .error e => .error e
                | .ok target_field =>
                  let condition := source_table ++ "." ++ source_field ++ " = " ++
                    target_table ++ "." ++ target_field
                  let clause := join_type_sql ++ " JOIN " ++ target_schema ++ "." ++
                    target_table ++ " ON " ++ condition
                  match build_join_steps reg rest (joined ++ [step.to_entity]) with
                  | .error e => .error e
                  | .ok (clauses, joined2) => .ok (clause :: clauses, joined2)

/-- Embeds the outer join loop of `build_query` (lines 357-394): for every
used entity other than the primary, resolve a join path from the primary
entity (raising when none exists) and emit its clauses. -/
def build_joins (reg : Registry) (primary_id : String) :
    List String → List String → Except String (List String × List String)
  | [], joined => .ok ([], joined)
  | eid :: rest, joined =>
    if eid = primary_id then build_joins reg primary_id rest joined
    else match find_join_path reg primary_id eid [] with
      | none => .error ("Cannot join entity " ++ eid ++ " to primary entity " ++
          primary_id ++ ". No relationship path found. " ++
          "Please select fields from related entities only.")
      | some join_path =>
        match build_join_steps reg join_path joined with
        | .error e => .error e
        | .ok (clauses, joined2) =>
          match build_joins reg primary_id rest joined2 with
          | .error e => .error e
          | .ok (clauses2, joined3) => .ok (clauses ++ clauses2, joined3)

/-- Embeds the filter loop of `build_query` (lines 399-410): unresolvable
references are skipped by `continue`; resolved ones call
`_build_filter_condition`, threading the parameter list and index. -/
def build_where_filters (used : List (String × Entity)) :
    List FilterCondition → List PyVal → Nat →
    Except String (List String × List PyVal × Nat)
  | [], params, param_idx => .ok ([], params, param_idx)
  | filter_ :: rest, params, param_idx =>
    match dict_get used filter_.entity_id with
    | none => build_where_filters used rest params param_idx
    | some entity =>
      match entity.fields.find? (fun f => f.id = filter_.field_id) with
      | none => build_where_filters used rest params param_idx
      | some field =>
        match build_filter_condition entity field entity.table_name filter_
            params param_idx with
        | .error e => .error e
        | .ok (condition, params2, param_idx2) =>
          match build_where_filters used rest params2 param_idx2 with
          | .error e => .error e
          | .ok (conds, params3, param_idx3) =>
            .ok (condition :: conds, params3, param_idx3)

/-- Embeds the time-range block of `build_query` (lines 413-437).  Note the
block only consults `table_aliases` for the scope entity (adding the entry if
missing, always the entity's `table_name`), it does not add the entity to
`used_entities`, so no JOIN is ever produced for it. -/
def build_time_conditions (reg : Registry) (config : ReportConfig) (now : Int)
    (params : List PyVal) (param_idx : Nat) :
    Except String (List String × List PyVal × Nat) :=
  match config.time_range, config.time_field with
  | some time_range, some time_field_id =>
    if time_field_id = "" then .ok ([], params, param_idx)
    else
      let time_entity_id := pyOrStr config.time_field_entity config.primary_entity
      match get_entity_r reg time_entity_id with
      | none => .ok ([], params, param_idx)
      | some time_entity =>
        match time_entity.fields.find? (fun f => f.id = time_field_id) with
        | none => .ok ([], params, param_idx)
        | some time_field =>
          match calculate_time_range time_range now with
          | .error e => .error e
          | .ok (start_time, end_time) =>
            match get_qualified_field_name time_entity time_field
                time_entity.table_name with
            | .error e => .error e
            | .ok time_field_name =>
              let step1 : List String × List PyVal × Nat :=
                match start_time with
                | some st =>
                    ([time_field_name ++ " >= $" ++ natRepr param_idx],
                     params ++ [PyVal.vStr (datetime_isoformat st)], param_idx + 1)
                | none => ([], params, param_idx)
              let step2 : List String × List PyVal × Nat :=
                match end_time with
                | some et =>
                    ([time_field_name ++ " <= $" ++ natRepr step1.2.2],
                     step1.2.1 ++ [PyVal.vStr (datetime_isoformat et)], step1.2.2 + 1)
                | none => ([], step1.2.1, step1.2.2)
              .ok (step1.1 ++ step2.1, step2.2.1, step2.2.2)
  | _, _ => .ok ([], params, param_idx)

/-- Embeds the ORDER BY loop of `build_query` (lines 441-453). -/
def build_order_parts (used : List (String × Entity)) :
    List SortConfig → Except String (List String)
  | [] => .ok []
  | sort :: rest =>
    match dict_get used sort.entity_id with
    | none => build_order_parts used rest
    | some entity =>
      match entity.fields.find? (fun f => f.id = sort.field_id) with
      | none => build_order_parts used rest
      | some field =>
        match get_qualified_field_name entity field entity.table_name with
        | .error e => .error e
        | .ok field_name =>
          let direction := if pyLower sort.direction = "desc" then "DESC" else "ASC"
          match build_order_parts used rest with
          | .error e => .error e
          | .ok parts => .ok ((field_name ++ " " ++ direction) :: parts)

/-- Embeds the final assembly of `build_query` (lines 455-473). -/
def assemble_sql_parts (select_parts : List String) (from_clause : String)
    (join_clauses : List String) (where_conditions : List String)
    (group_by_fields : List String) (order_parts : List String)
    (limit : Int) : List String :=
  ["SELECT " ++ pyJoin ", " select_parts, "FROM " ++ from_clause] ++
    join_clauses ++
    (if where_conditions.isEmpty then []
     else ["WHERE " ++ pyJoin " AND " where_conditions]) ++
    (if group_by_fields.isEmpty then []
     else ["GROUP BY " ++ pyJoin ", " group_by_fields]) ++
    (if order_parts.isEmpty then []
     else ["ORDER BY " ++ pyJoin ", " order_parts]) ++
    ["LIMIT " ++ intRepr (min limit 10000)]

/-- Embeds `build_query`: compile a report configuration against a registry
into `(sql, params)`; `now` models `datetime.utcnow()`. -/
def build_query (reg : Registry) (config : ReportConfig) (now : Int) :
    Except String (String × List PyVal) :=
  match get_entity_r reg config.primary_entity with
  | none => .error ("Unknown entity: " ++ config.primary_entity)
  | some primary_entity =>
    let used_entities := collect_used_entities reg config primary_entity
    let has_aggregation := config.selected_fields.any (fun f => f.aggregation.isSome)
    match build_select_parts used_entities has_aggregation config.group_by
        config.selected_fields with
    | .error e => .error e
    | .ok (select_parts, group_by_fields) =>
      if select_parts.isEmpty then .error "No valid fields selected"
      else
        match sanitize_identifier primary_entity.schema_name with
        | .error e => .error e
        | .ok schema_name =>
          match sanitize_identifier primary_entity.table_name with
          | .error e => .error e
          | .ok table_name =>
            let from_clause := schema_name ++ "." ++ table_name
            match build_joins reg config.primary_entity
                (used_entities.map Prod.fst) [config.primary_entity] with
            | .error e => .error e
            | .ok (join_clauses, _) =>
              match build_where_filters used_entities config.filters [] 1 with
              | .error e => .error e
              | .ok (filter_conds, params1, idx1) =>
                match build_time_conditions reg config now params1 idx1 with
                | .error e => .error e
                | .ok (time_conds, params2, _) =>
                  let where_conditions := filter_conds ++ time_conds
                  match build_order_parts used_entities config.sorting with
                  | .error e => .error e
                  | .ok order_parts =>
                    let sql_parts := assemble_sql_parts select_parts from_clause
                      join_clauses where_conditions group_by_fields order_parts
                      config.limit
                    .ok (pyJoin "\n" sql_parts, params2)

/-- Fuel-driven core of `replaceAllL` (structural so that the kernel can
evaluate it; each step consumes at least one character when the pattern is
non-empty, so `s.length + 1` fuel always suffices). -/
def replaceAllF : Nat → List Char → List Char → List Char → List Char
  | 0, s, _, _ => s
  | fuel + 1, s, pat, rep =>
    match s with
    | [] => []
    | c :: cs =>
      if pat ≠ [] && pat.isPrefixOf (c :: cs) then
        rep ++ replaceAllF fuel ((c :: cs).drop pat.length) pat rep
      else c :: replaceAllF fuel cs pat rep

/-- Model of Python `str.replace(pat, rep)` on character lists: replace all
non-overlapping occurrences of `pat`, scanning left to right (identity when
`pat` is empty, which never arises below). -/
def replaceAllL (s : List Char) (pat : List Char) (rep : List Char) : List Char :=
  replaceAllF (s.length + 1) s pat rep

/-- Rendering of one parameter for preview display (lines 485-488):
strings single-quoted, anything else via Python `str`. -/
def render_preview_param : PyVal → String
  | .vStr s => "\x27" ++ s ++ "\x27"
  | v => pyStr v

/-- Embeds the replacement loop of `generate_preview_sql` (lines 484-488):
for `i, param` in `enumerate(params, 1)`, replace every occurrence of `$i`
by the rendered value (strings single-quoted, anything else via `str`). -/
def replace_params (sql : String) : List PyVal → Nat → String
  | [], _ => sql
  | p :: rest, i =>
    replace_params
      ⟨replaceAllL sql.data ("$" ++ natRepr i).data
        (render_preview_param p).data⟩ rest (i + 1)

/-- Embeds `generate_preview_sql`. -/
def generate_preview_sql (reg : Registry) (config : ReportConfig) (now : Int) :
    Except String String :=
  match build_query reg config now with
  | .error e => .error e
  | .ok (sql, params) => .ok (replace_params sql params 1)

/-- True when the text contains no placeholder marker character. -/
def noDollarB (l : List Char) : Bool := l.all (fun c => c ≠ '$')

/-- True when the text does not start with a digit (so it cannot extend a
preceding placeholder's digit run). -/
def headNondigit (l : List Char) : Bool :=
  match l with
  | [] => true
  | c :: _ => !c.isDigit

/-- All positional placeholders `$k` occurring in a text, in order of
occurrence: each maximal digit run directly following a `$` contributes its
numeric value. -/
def scanPlaceholders : List Char → List Nat
  | [] => []
  | c :: rest =>
    if c = '$' then
      let ds := rest.takeWhile Char.isDigit
      if ds.isEmpty then scanPlaceholders rest
      else parseNat ds :: scanPlaceholders (rest.dropWhile Char.isDigit)
    else scanPlaceholders rest
termination_by l => l.length
decreasing_by
  all_goals simp only [List.length_cons]
  all_goals first
    | exact Nat.lt_succ_of_le (List.Sublist.length_le
        (List.dropWhile_sublist Char.isDigit))
    | omega

/-- A query text seen as fragments: literal segments and placeholders. -/
inductive Frag where
  | lit (s : List Char)
  | ph (k : Nat)

/-- Text of a fragment list. -/
def fragsText : List Frag → List Char
  | [] => []
  | .lit s :: fs => s ++ fragsText fs
  | .ph k :: fs => '$' :: (natDigits k ++ fragsText fs)

/-- Placeholder indices of a fragment list, in order. -/
def phs : List Frag → List Nat
  | [] => []
  | .lit _ :: fs => phs fs
  | .ph k :: fs => k :: phs fs

/-- Wellformedness: literal segments contain no `$`, and the text following
each placeholder does not start with a digit. -/
def fragsWF : List Frag → Bool
  | [] => true
  | .lit s :: fs => noDollarB s && fragsWF fs
  | .ph _ :: fs => headNondigit (fragsText fs) && fragsWF fs

/-- The text decomposes into wellformed fragments whose placeholders are
exactly `$lo, $(lo+1), …, $(lo+n-1)` in order. -/
def HasFragsL (l : List Char) (lo n : Nat) : Prop :=
  ∃ fs, fragsText fs = l ∧ fragsWF fs = true ∧ phs fs = List.range' lo n

/-- Replace every placeholder fragment by a literal via `f`. -/
def substFrags (f : Nat → List Char) : List Frag → List Frag
  | [] => []
  | .lit s :: fs => .lit s :: substFrags f fs
  | .ph k :: fs => .lit (f k) :: substFrags f fs

/-- Replace only the placeholder `k` by the literal `r`. -/
def substOneFrag (k : Nat) (r : List Char) : List Frag → List Frag
  | [] => []
  | .lit s :: fs => .lit s :: substOneFrag k r fs
  | .ph j :: fs =>
      (if j = k then .lit r else .ph j) :: substOneFrag k r fs

/-- Spec-side simultaneous substitution: each placeholder `$k` with
`1 ≤ k ≤ params.length` is replaced in place by the display rendering of
parameter `k` (0-based array index `k - 1`); everything else is kept. -/
def subst_spec (params : List PyVal) : List Char → List Char
  | [] => []
  | c :: rest =>
    if c = '$' then
      let ds := rest.takeWhile Char.isDigit
      if ds.isEmpty then c :: subst_spec params rest
      else
        let k := parseNat ds
        if 1 ≤ k ∧ k ≤ params.length then
          (render_preview_param (params.getD (k - 1) .vNone)).data ++
            subst_spec params (rest.dropWhile Char.isDigit)
        else c :: (ds ++ subst_spec params (rest.dropWhile Char.isDigit))
    else c :: subst_spec params rest
termination_by l => l.length
decreasing_by
  all_goals simp only [List.length_cons]
  all_goals first
    | exact Nat.lt_succ_of_le (List.Sublist.length_le
        (List.dropWhile_sublist Char.isDigit))
    | omega

/-- Naive substring test on character lists. -/
def listInfix (pat : List Char) : List Char → Bool
  | [] => pat.isEmpty
  | c :: rest => pat.isPrefixOf (c :: rest) || listInfix pat rest

/-- Substring test on strings. -/
def strInfix (pat s : String) : Bool := listInfix pat.data s.data

/-- An entity id present in the registry. -/
def Registered (reg : Registry) (u : String) : Prop :=
  (get_entity_r reg u).isSome = true

/-- A declared relationship edge from `u` to `v`. -/
def hasFwdEdgeB (reg : Registry) (u v : String) : Bool :=
  match get_entity_r reg u with
  | some e => e.relationships.any (fun rel => rel.target_entity = v)
  | none => false

/-- Adjacency in the bidirectional relationship graph: a declared edge in
either direction. -/
def adjacentB (reg : Registry) (u v : String) : Bool :=
  hasFwdEdgeB reg u v || hasFwdEdgeB reg v u

/-- Spec-side GROUP BY contribution of one selected field, read off the
claim: a resolvable non-aggregated selected field contributes its qualified
field name exactly when the explicit group-by list has an entry with the
same `(entity_id, field_id)` identity (and some selected field is
aggregated). -/
def group_by_term_spec (used : List (String × Entity)) (has_aggregation : Bool)
    (group_by : Option (List SelectedField)) (sel : SelectedField) :
    Option String :=
  match dict_get used sel.entity_id with
  | none => none
  | some entity =>
    match entity.fields.find? (fun f => f.id = sel.field_id) with
    | none => none
    | some field =>
      match sel.aggregation with
      | some _ => none
      | none =>
        if has_aggregation &&
            (match group_by with
             | some gbs => gbs.any (fun g => g.entity_id = sel.entity_id &&
                 g.field_id = sel.field_id)
             | none => false) then
          some (entity.table_name ++ "." ++ field.name)
        else none

/-- Registry cleanliness: entity ids and field ids contain no placeholder
marker (true of the shipped registry; unlike table/schema/field names these
ids are interpolated into column aliases without passing the identifier
check). -/
def regNoDollar (reg : Registry) : Bool :=
  reg.all (fun p => noDollarB p.1.data &&
    p.2.fields.all (fun f => noDollarB f.id.data))

/-- Cleanliness of a collected `used_entities` dict: keys and the field ids
of stored entities contain no placeholder marker. -/
def usedClean (used : List (String × Entity)) : Bool :=
  used.all (fun p => noDollarB p.1.data &&
    p.2.fields.all (fun f => noDollarB f.id.data))

/-- Chained fragment decompositions for a list of WHERE conditions: the
`i`-th condition's placeholders continue where the previous one stopped. -/
def CondsChain : List String → Nat → Nat → Prop
  | [], _, n => n = 0
  | c :: rest, lo, n =>
      ∃ m k, HasFragsL c.data lo m ∧ CondsChain rest (lo + m) k ∧ n = m + k

/-- Concrete configuration exercising filter and time parameters (used to
instantiate the placeholder-alignment theorem). -/
def configC2 : ReportConfig :=
  { primary_entity := "objects"
    selected_fields := [⟨"objects", "object_id", none, none⟩]
    filters := [⟨"f1", "objects", "is_deleted", .EQUALS, .vBool false, .vNone⟩]
    time_range := some ⟨"relative", some 7, some "days", none, none⟩
    time_field := some "create_datetime" }

/-- An entity whose declared table name carries a trailing newline: the
identifier regex still accepts it. -/
def entityC1 : Entity := ⟨"e", "s", "bad\n", [⟨"f", "f"⟩], []⟩

/-- One-entity registry exercising the trailing-newline identifier. -/
def regC1 : Registry := [("e", entityC1)]

/-- Minimal configuration selecting the single field of `regC1`. -/
def configC1 : ReportConfig :=
  { primary_entity := "e", selected_fields := [⟨"e", "f", none, none⟩] }

/-- Concrete configuration with a filter whose entity id resolves to nothing:
the compiler silently drops it. -/
def configC3 : ReportConfig :=
  { primary_entity := "objects"
    selected_fields := [⟨"objects", "object_id", none, none⟩]
    filters := [⟨"f1", "nowhere", "x", .EQUALS, .vInt 2, .vNone⟩] }

/-- Spec §8 scenario: aggregated selection with no explicit group-by list. -/
def configC6 : ReportConfig :=
  { primary_entity := "vehicles"
    selected_fields := [⟨"vehicles", "model", none, none⟩,
                        ⟨"vehicles", "max_speed", none, some .MAX⟩] }

/-- Same selection with an explicit group-by list naming `(vehicles, model)`. -/
def configC6gb : ReportConfig :=
  { primary_entity := "vehicles"
    selected_fields := [⟨"vehicles", "model", none, none⟩,
                        ⟨"vehicles", "max_speed", none, some .MAX⟩]
    group_by := some [⟨"vehicles", "model", none, none⟩] }

/-- Concrete configuration with a relative time range (its compiled
parameters depend on the clock reading). -/
def configC7 : ReportConfig :=
  { primary_entity := "objects"
    selected_fields := [⟨"objects", "object_id", none, none⟩]
    time_range := some ⟨"relative", some 1, some "hours", none, none⟩
    time_field := some "create_datetime" }

/-- Concrete configuration whose time-scope entity (`devices`) is not
referenced by any selected field, filter or sort spec. -/
def configC8 : ReportConfig :=
  { primary_entity := "objects"
    selected_fields := [⟨"objects", "object_id", none, none⟩]
    time_range := some ⟨"absolute", none, none, some "100", some "200"⟩
    time_field := some "created_at"
    time_field_entity := some "devices" }

/-- Concrete configuration compiling to ten parameters `$1 … $10`. -/
def configC9 : ReportConfig :=
  { primary_entity := "objects"
    selected_fields := [⟨"objects", "object_id", none, none⟩]
    filters := [⟨"f1", "objects", "object_label", .IN,
      .vList [.vStr "a1", .vStr "a2", .vStr "a3", .vStr "a4", .vStr "a5",
              .vStr "a6", .vStr "a7", .vStr "a8", .vStr "a9", .vStr "b"], .vNone⟩] }

/-- Concrete configuration with two string parameters (within the regime
where the preview substitution is faithful). -/
def configC9ok : ReportConfig :=
  { primary_entity := "objects"
    selected_fields := [⟨"objects", "object_id", none, none⟩]
    filters := [⟨"f1", "objects", "object_label", .EQUALS, .vStr "truck", .vNone⟩,
                ⟨"f2", "objects", "model", .CONTAINS, .vStr "GT", .vNone⟩] }

/-! Basic properties of the decimal rendering. -/

theorem natDigitsF_stable (n : Nat) : ∀ f1 f2 : Nat, n < f1 → n < f2 →
    natDigitsF f1 n = natDigitsF f2 n := by
  induction n using Nat.strong_induction_on with
  | _ n ih =>
    intro f1 f2 h1 h2
    cases f1 with
    | zero => omega
    | succ g1 =>
      cases f2 with
      | zero => omega
      | succ g2 =>
        simp only [natDigitsF]
        by_cases hlt : n < 10
        · simp [hlt]
        · simp only [hlt, if_false]
          have hdiv : n / 10 < n := Nat.div_lt_self (by omega) (by omega)
          rw [ih (n / 10) hdiv g1 g2 (by omega) (by omega)]

theorem natDigits_eq (n : Nat) : natDigits n =
    if n < 10 then [digitChar n]
    else natDigits (n / 10) ++ [digitChar (n % 10)] := by
  show natDigitsF (n + 1) n = _
  simp only [natDigitsF]
  by_cases hlt : n < 10
  · simp [hlt]
  · simp only [hlt, if_false]
    have hdiv : n / 10 < n := Nat.div_lt_self (by omega) (by omega)
    rw [natDigitsF_stable (n / 10) n (n / 10 + 1) (by omega) (by omega)]
    rfl

theorem digitChar_toNat (d : Nat) (h : d < 10) : (digitChar d).toNat = 48 + d := by
  interval_cases d <;> decide

theorem digitChar_isDigit (d : Nat) (h : d < 10) : (digitChar d).isDigit = true := by
  interval_cases d <;> decide

theorem digitChar_ne_dollar (d : Nat) (h : d < 10) : digitChar d ≠ '$' := by
  interval_cases d <;> decide

theorem natDigits_ne_nil (n : Nat) : natDigits n ≠ [] := by
  rw [natDigits_eq]
  by_cases h : n < 10 <;> simp [h]

theorem natDigits_all_digit (n : Nat) : ∀ c ∈ natDigits n, c.isDigit = true := by
  induction n using Nat.strong_induction_on with
  | _ n ih =>
    rw [natDigits_eq]
    by_cases h : n < 10
    · simp only [h, if_true, List.mem_singleton]
      rintro c rfl
      exact digitChar_isDigit n h
    · simp only [h, if_false, List.mem_append, List.mem_singleton]
      rintro c (hc | rfl)
      · exact ih (n / 10) (Nat.div_lt_self (by omega) (by omega)) c hc
      · exact digitChar_isDigit (n % 10) (Nat.mod_lt _ (by omega))

theorem natDigits_all_ne_dollar (n : Nat) : ∀ c ∈ natDigits n, c ≠ '$' := by
  intro c hc
  intro hEq
  have := natDigits_all_digit n c hc
  rw [hEq] at this
  exact absurd this (by decide)

theorem parseNat_append (ds es : List Char) :
    parseNat (ds ++ es) = es.foldl (fun a c => 10 * a + (c.toNat - 48)) (parseNat ds) := by
  simp [parseNat, List.foldl_append]

theorem parseNat_natDigits (n : Nat) : parseNat (natDigits n) = n := by
  induction n using Nat.strong_induction_on with
  | _ n ih =>
    rw [natDigits_eq]
    by_cases h : n < 10
    · simp only [h, if_true]
      simp [parseNat, List.foldl, digitChar_toNat n h]
    · simp only [h, if_false]
      rw [parseNat_append]
      simp only [List.foldl]
      rw [show parseNat (natDigits (n / 10)) = n / 10 from
        ih (n / 10) (Nat.div_lt_self (by omega) (by omega))]
      rw [digitChar_toNat (n % 10) (Nat.mod_lt _ (by omega))]
      omega

/-! Properties of the placeholder scanner and the fragment view. -/

theorem range'_append_nat (s m n : Nat) :
    List.range' s m ++ List.range' (s + m) n = List.range' s (m + n) := by
  have := List.range'_append s m n 1
  simp only [Nat.one_mul, Nat.mul_one] at this
  simpa [Nat.add_comm] using this

theorem noDollarB_iff (l : List Char) : noDollarB l = true ↔ ∀ c ∈ l, c ≠ '$' := by
  simp [noDollarB, List.all_eq_true]

theorem noDollarB_append (l1 l2 : List Char) :
    noDollarB (l1 ++ l2) = (noDollarB l1 && noDollarB l2) := by
  simp [noDollarB]

theorem takeWhile_nil_of_headNondigit (l : List Char)
    (h : headNondigit l = true) : l.takeWhile Char.isDigit = [] := by
  cases l with
  | nil => rfl
  | cons c cs =>
    simp only [headNondigit, Bool.not_eq_true'] at h
    simp [List.takeWhile_cons, h]

theorem dropWhile_self_of_headNondigit (l : List Char)
    (h : headNondigit l = true) : l.dropWhile Char.isDigit = l := by
  cases l with
  | nil => rfl
  | cons c cs =>
    simp only [headNondigit, Bool.not_eq_true'] at h
    simp [List.dropWhile_cons, h]

theorem takeWhile_append_headNondigit (l1 l2 : List Char)
    (h : headNondigit l2 = true) :
    (l1 ++ l2).takeWhile Char.isDigit = l1.takeWhile Char.isDigit := by
  induction l1 with
  | nil => simpa using takeWhile_nil_of_headNondigit l2 h
  | cons c cs ih =>
    by_cases hc : c.isDigit <;> simp [List.takeWhile_cons, hc, ih]

theorem dropWhile_append_headNondigit (l1 l2 : List Char)
    (h : headNondigit l2 = true) :
    (l1 ++ l2).dropWhile Char.isDigit = l1.dropWhile Char.isDigit ++ l2 := by
  induction l1 with
  | nil => simpa using dropWhile_self_of_headNondigit l2 h
  | cons c cs ih =>
    by_cases hc : c.isDigit <;> simp [List.dropWhile_cons, hc, ih]

theorem scan_noDollar_append (l1 l2 : List Char) (h : ∀ c ∈ l1, c ≠ '$') :
    scanPlaceholders (l1 ++ l2) = scanPlaceholders l2 := by
  induction l1 with
  | nil => rfl
  | cons c cs ih =>
    have hc : c ≠ '$' := h c (by simp)
    rw [List.cons_append, scanPlaceholders]
    simp only [hc, if_false]
    exact ih (fun c hm => h c (by simp [hm]))

theorem scan_nil_of_noDollar (l : List Char) (h : ∀ c ∈ l, c ≠ '$') :
    scanPlaceholders l = [] := by
  have h0 : scanPlaceholders ([] : List Char) = [] := by simp [scanPlaceholders]
  have h1 := scan_noDollar_append l [] h
  rw [List.append_nil] at h1
  rw [h1, h0]

theorem fragsText_append (a b : List Frag) :
    fragsText (a ++ b) = fragsText a ++ fragsText b := by
  induction a with
  | nil => rfl
  | cons f fs ih => cases f <;> simp [fragsText, ih]

theorem phs_append (a b : List Frag) : phs (a ++ b) = phs a ++ phs b := by
  induction a with
  | nil => rfl
  | cons f fs ih => cases f <;> simp [phs, ih]

theorem headNondigit_append (a b : List Char) (ha : headNondigit a = true)
    (hb : headNondigit b = true) : headNondigit (a ++ b) = true := by
  cases a with
  | nil => simpa using hb
  | cons c cs => simpa [headNondigit] using ha

theorem fragsWF_append (a b : List Frag) (ha : fragsWF a = true)
    (hb : fragsWF b = true) (hhead : headNondigit (fragsText b) = true) :
    fragsWF (a ++ b) = true := by
  induction a with
  | nil => simpa using hb
  | cons f fs ih =>
    cases f with
    | lit s =>
      simp only [fragsWF, Bool.and_eq_true] at ha ⊢
      exact ⟨ha.1, ih ha.2⟩
    | ph k =>
      simp only [fragsWF, Bool.and_eq_true] at ha ⊢
      refine ⟨?_, ih ha.2⟩
      rw [show fs.append b = fs ++ b from rfl, fragsText_append]
      exact headNondigit_append _ _ ha.1 hhead

theorem scan_dollar_digits (k : Nat) (rest : List Char)
    (hh : headNondigit rest = true) :
    scanPlaceholders ('$' :: (natDigits k ++ rest)) = k :: scanPlaceholders rest := by
  have hTake : (natDigits k ++ rest).takeWhile Char.isDigit = natDigits k := by
    rw [takeWhile_append_headNondigit _ _ hh]
    exact List.takeWhile_eq_self_iff.mpr (natDigits_all_digit k)
  have hDrop : (natDigits k ++ rest).dropWhile Char.isDigit = rest := by
    rw [dropWhile_append_headNondigit _ _ hh,
      List.dropWhile_eq_nil_iff.mpr (natDigits_all_digit k), List.nil_append]
  have hne : (natDigits k).isEmpty = false := by
    cases hnd : natDigits k with
    | nil => exact absurd hnd (natDigits_ne_nil k)
    | cons a l => rfl
  rw [scanPlaceholders]
  simp only [hTake, hDrop, hne, if_true, Bool.false_eq_true, if_false]
  rw [parseNat_natDigits]

theorem scan_fragsText (fs : List Frag) (h : fragsWF fs = true) :
    scanPlaceholders (fragsText fs) = phs fs := by
  induction fs with
  | nil => simp [fragsText, phs, scanPlaceholders]
  | cons f fs ih =>
    cases f with
    | lit s =>
      simp only [fragsWF, Bool.and_eq_true] at h
      rw [fragsText, phs, scan_noDollar_append s _ ((noDollarB_iff s).mp h.1)]
      exact ih h.2
    | ph k =>
      simp only [fragsWF, Bool.and_eq_true] at h
      rw [fragsText, phs, scan_dollar_digits k _ h.1, ih h.2]

theorem hasFragsL_lit (l : List Char) (lo : Nat) (h : noDollarB l = true) :
    HasFragsL l lo 0 := by
  refine ⟨[.lit l], by simp [fragsText], by simp [fragsWF, h], by simp [phs]⟩

theorem hasFragsL_ph (k : Nat) : HasFragsL ('$' :: natDigits k) k 1 := by
  refine ⟨[.ph k], by simp [fragsText], by simp [fragsWF, headNondigit, fragsText],
    by simp [phs, List.range'_one]⟩

theorem hasFragsL_append (l1 l2 : List Char) (lo m n : Nat)
    (h1 : HasFragsL l1 lo m) (h2 : HasFragsL l2 (lo + m) n)
    (hh : headNondigit l2 = true) : HasFragsL (l1 ++ l2) lo (m + n) := by
  obtain ⟨fs1, ht1, hw1, hp1⟩ := h1
  obtain ⟨fs2, ht2, hw2, hp2⟩ := h2
  refine ⟨fs1 ++ fs2, ?_, ?_, ?_⟩
  · rw [fragsText_append, ht1, ht2]
  · exact fragsWF_append _ _ hw1 hw2 (by rw [ht2]; exact hh)
  · rw [phs_append, hp1, hp2, range'_append_nat]

theorem hasFragsL_zero_append (l1 l2 : List Char) (lo n : Nat)
    (h1 : noDollarB l1 = true) (h2 : HasFragsL l2 lo n)
    (hh : headNondigit l2 = true) : HasFragsL (l1 ++ l2) lo n := by
  have := hasFragsL_append l1 l2 lo 0 n (hasFragsL_lit l1 lo h1) (by simpa using h2) hh
  simpa using this

theorem hasFragsL_append_zero (l1 l2 : List Char) (lo n : Nat)
    (h1 : HasFragsL l1 lo n) (h2 : noDollarB l2 = true)
    (hh : headNondigit l2 = true) : HasFragsL (l1 ++ l2) lo n :=
  hasFragsL_append l1 l2 lo n 0 h1 (hasFragsL_lit l2 (lo + n) h2) hh

/-! Properties of the identifier check. -/

theorem sanitize_ok_iff (s t : String) :
    sanitize_identifier s = .ok t ↔ (regexIdentMatch s = true ∧ t = s) := by
  unfold sanitize_identifier
  by_cases h : regexIdentMatch s <;> simp [h, eq_comm]

theorem sanitize_error_of_not_match (s : String) (h : regexIdentMatch s = false) :
    sanitize_identifier s = .error ("Invalid identifier: " ++ s) := by
  unfold sanitize_identifier
  simp [h]

theorem isIdentStart_isIdentChar (c : Char) (h : isIdentStart c = true) :
    isIdentChar c = true := by
  simp only [isIdentStart, Bool.or_eq_true] at h
  rcases h with h | h
  · simp [isIdentChar, Char.isAlphanum, h]
  · simp [isIdentChar, h]

theorem isIdentChar_ne_dollar (c : Char) (h : isIdentChar c = true) : c ≠ '$' := by
  intro hEq
  rw [hEq] at h
  exact absurd h (by decide)

theorem validIdentCore_all (l : List Char) (h : validIdentCore l = true) :
    ∀ c ∈ l, isIdentChar c = true := by
  cases l with
  | nil => simp
  | cons c cs =>
    simp only [validIdentCore, Bool.and_eq_true, List.all_eq_true] at h
    intro d hd
    rcases List.mem_cons.mp hd with rfl | hd
    · exact isIdentStart_isIdentChar d h.1
    · exact h.2 d hd

theorem regexMatch_noDollar (s : String) (h : regexIdentMatch s = true) :
    noDollarB s.data = true := by
  rw [noDollarB_iff]
  unfold regexIdentMatch at h
  rw [Bool.or_eq_true] at h
  rcases h with h | h
  · intro c hc
    exact isIdentChar_ne_dollar c (validIdentCore_all _ h c hc)
  · cases hlast : s.data.getLast? with
    | none => simp only [hlast] at h; exact absurd h (by decide)
    | some d =>
      simp only [hlast, Bool.and_eq_true] at h
      intro c hc
      have hsplit : s.data = s.data.dropLast ++ [d] :=
        (List.dropLast_append_getLast? d hlast).symm
      rw [hsplit] at hc
      rcases List.mem_append.mp hc with hc | hc
      · exact isIdentChar_ne_dollar c (validIdentCore_all _ h.2 c hc)
      · have hcd : c = d := List.mem_singleton.mp hc
        have hd : d = '\n' := by simpa using h.1
        rw [hcd, hd]; decide

theorem bindE_ok {α β : Type} (a : α) (f : α → Except String β) :
    (Except.ok a >>= f) = f a := rfl

theorem bindE_error {α β : Type} (e : String) (f : α → Except String β) :
    ((Except.error e : Except String α) >>= f) = Except.error e := rfl

theorem get_qualified_ok (entity : Entity) (field : EntityField)
    (table_alias : String) (s : String)
    (h : get_qualified_field_name entity field table_alias = .ok s) :
    regexIdentMatch table_alias = true ∧ regexIdentMatch field.name = true ∧
      s = table_alias ++ "." ++ field.name := by
  unfold get_qualified_field_name at h
  cases h1 : sanitize_identifier table_alias with
  | error e => rw [h1] at h; exact Except.noConfusion h
  | ok a =>
    rw [h1] at h
    replace h : (match sanitize_identifier field.name with
      | Except.error e => Except.error e
      | Except.ok field_name => Except.ok (a ++ "." ++ field_name)) =
        Except.ok s := h
    cases h2 : sanitize_identifier field.name with
    | error e => rw [h2] at h; exact Except.noConfusion h
    | ok f =>
      rw [h2] at h
      obtain ⟨hm1, heq1⟩ := (sanitize_ok_iff _ _).mp h1
      obtain ⟨hm2, heq2⟩ := (sanitize_ok_iff _ _).mp h2
      rw [heq1, heq2] at h
      refine ⟨hm1, hm2, ?_⟩
      have h' : (Except.ok (table_alias ++ "." ++ field.name) :
          Except String String) = Except.ok s := h
      cases h'
      rfl

theorem get_qualified_noDollar (entity : Entity) (field : EntityField)
    (table_alias : String) (s : String)
    (h : get_qualified_field_name entity field table_alias = .ok s) :
    noDollarB s.data = true := by
  obtain ⟨h1, h2, rfl⟩ := get_qualified_ok entity field table_alias s h
  rw [String.data_append, String.data_append, noDollarB_append, noDollarB_append]
  simp only [Bool.and_eq_true]
  exact ⟨⟨regexMatch_noDollar _ h1, by decide⟩, regexMatch_noDollar _ h2⟩

/-! String-level fragment combinators. -/

theorem hasFragsS_append (s1 s2 : String) (lo m n : Nat)
    (h1 : HasFragsL s1.data lo m) (h2 : HasFragsL s2.data (lo + m) n)
    (hh : headNondigit s2.data = true) : HasFragsL (s1 ++ s2).data lo (m + n) := by
  rw [String.data_append]
  exact hasFragsL_append _ _ lo m n h1 h2 hh

theorem headNondigit_data_append (s t : String) (h : headNondigit s.data = true)
    (hne : s.data ≠ []) : headNondigit (s ++ t).data = true := by
  rw [String.data_append]
  cases hd : s.data with
  | nil => exact absurd hd hne
  | cons c l =>
    rw [hd] at h
    simpa [headNondigit] using h

theorem hasFragsS_op1 (fname lit : String) (k : Nat)
    (hf : noDollarB fname.data = true) (hl : noDollarB lit.data = true) :
    HasFragsL ((fname ++ (lit ++ "$")) ++ natRepr k).data k 1 := by
  have hd : ((fname ++ (lit ++ "$")) ++ natRepr k).data
      = (fname.data ++ lit.data) ++ ('$' :: natDigits k) := by
    simp only [String.data_append, List.append_assoc]
    rfl
  rw [hd]
  refine hasFragsL_zero_append _ _ k 1 ?_ (hasFragsL_ph k) (by rfl)
  rw [noDollarB_append, hf, hl]
  rfl

theorem hasFrags_placeholder_single (k : Nat) :
    HasFragsL ("$" ++ natRepr k).data k 1 := by
  have hd : ("$" ++ natRepr k).data = '$' :: natDigits k := by
    rw [String.data_append]; rfl
  rw [hd]
  exact hasFragsL_ph k

theorem placeholder_texts_succ (start n : Nat) :
    placeholder_texts start (n + 1) =
      ("$" ++ natRepr start) :: placeholder_texts (start + 1) n := by
  unfold placeholder_texts
  rw [List.range_succ_eq_map]
  simp only [List.map_cons, List.map_map, Nat.add_zero]
  congr 1
  apply List.map_congr_left
  intro j _
  simp only [Function.comp]
  have harith : start + (j + 1) = start + 1 + j := by omega
  rw [harith]

theorem headNondigit_placeholder_join (start n : Nat) (h : 1 ≤ n) :
    headNondigit (pyJoin ", " (placeholder_texts start n)).data = true := by
  cases n with
  | zero => omega
  | succ m =>
    rw [placeholder_texts_succ]
    have hx : ("$" ++ natRepr start).data = '$' :: natDigits start := by
      rw [String.data_append]; rfl
    cases hm : placeholder_texts (start + 1) m with
    | nil =>
      rw [pyJoin, hx]
      rfl
    | cons q rest =>
      rw [pyJoin]
      refine headNondigit_data_append _ _ ?_ ?_
      · refine headNondigit_data_append _ _ ?_ ?_
        · rw [hx]; rfl
        · rw [hx]; exact List.cons_ne_nil _ _
      · rw [String.data_append, hx]
        simp

theorem placeholder_texts_length (start n : Nat) :
    (placeholder_texts start n).length = n := by
  simp [placeholder_texts]

theorem hasFrags_placeholder_join (n : Nat) : ∀ start : Nat,
    HasFragsL (pyJoin ", " (placeholder_texts start n)).data start n := by
  induction n with
  | zero =>
    intro start
    have h0 : placeholder_texts start 0 = [] := by simp [placeholder_texts]
    rw [h0, pyJoin]
    exact hasFragsL_lit [] start rfl
  | succ m ih =>
    intro start
    rw [placeholder_texts_succ]
    cases hm : placeholder_texts (start + 1) m with
    | nil =>
      have hm0 : m = 0 := by
        have := placeholder_texts_length (start + 1) m
        rw [hm] at this
        simpa using this.symm
      subst hm0
      rw [pyJoin]
      exact hasFrags_placeholder_single start
    | cons q rest =>
      have hm1 : 1 ≤ m := by
        have := placeholder_texts_length (start + 1) m
        rw [hm] at this
        simp only [List.length_cons] at this
        omega
      rw [pyJoin, ← hm]
      have h1 : HasFragsL (("$" ++ natRepr start) ++ ", ").data start 1 := by
        rw [String.data_append]
        exact hasFragsL_append_zero _ _ start 1 (hasFrags_placeholder_single start)
          (by rfl) (by rfl)
      have h2 := ih (start + 1)
      have h3 := hasFragsS_append _ _ start 1 m h1 h2
        (headNondigit_placeholder_join (start + 1) m hm1)
      simpa [Nat.add_comm] using h3

theorem hasFragsS_op0 (fname lit : String) (lo : Nat)
    (hf : noDollarB fname.data = true) (hl : noDollarB lit.data = true) :
    HasFragsL (fname ++ lit).data lo 0 := by
  rw [String.data_append]
  apply hasFragsL_lit
  rw [noDollarB_append, hf, hl]
  rfl

theorem hasFragsS_close (s lit : String) (lo n : Nat)
    (h : HasFragsL s.data lo n) (hl : noDollarB lit.data = true)
    (hh : headNondigit lit.data = true) : HasFragsL (s ++ lit).data lo n := by
  rw [String.data_append]
  exact hasFragsL_append_zero _ _ lo n h hl hh

theorem build_filter_condition_spec (entity : Entity) (field : EntityField)
    (table_alias : String) (filter_ : FilterCondition) (params : List PyVal)
    (param_idx : Nat) (cond : String) (params' : List PyVal) (param_idx' : Nat)
    (h : build_filter_condition entity field table_alias filter_ params param_idx
      = .ok (cond, params', param_idx')) :
    ∃ new : List PyVal, params' = params ++ new ∧
      param_idx' = param_idx + new.length ∧
      HasFragsL cond.data param_idx new.length := by
  unfold build_filter_condition at h
  cases hq : get_qualified_field_name entity field table_alias with
  | error e => rw [hq] at h; exact Except.noConfusion h
  | ok fname =>
    rw [hq] at h
    have hf : noDollarB fname.data = true := get_qualified_noDollar _ _ _ _ hq
    cases hop : filter_.operator
    case IS_NULL =>
      simp only [hop] at h
      rw [Except.ok.injEq, Prod.mk.injEq, Prod.mk.injEq] at h
      obtain ⟨hc, hp, hi⟩ := h
      subst hc; subst hp; subst hi
      exact ⟨[], by simp, rfl, hasFragsS_op0 fname " IS NULL" param_idx hf (by rfl)⟩
    case IS_NOT_NULL =>
      simp only [hop] at h
      rw [Except.ok.injEq, Prod.mk.injEq, Prod.mk.injEq] at h
      obtain ⟨hc, hp, hi⟩ := h
      subst hc; subst hp; subst hi
      exact ⟨[], by simp, rfl, hasFragsS_op0 fname " IS NOT NULL" param_idx hf (by rfl)⟩
    case EQUALS =>
      simp only [hop] at h
      rw [Except.ok.injEq, Prod.mk.injEq, Prod.mk.injEq] at h
      obtain ⟨hc, hp, hi⟩ := h
      subst hc; subst hp; subst hi
      refine ⟨[filter_.value], rfl, rfl, ?_⟩
      show HasFragsL ((fname ++ (" = " ++ "$")) ++ natRepr param_idx).data param_idx 1
      exact hasFragsS_op1 fname " = " param_idx hf (by rfl)
    case NOT_EQUALS =>
      simp only [hop] at h
      rw [Except.ok.injEq, Prod.mk.injEq, Prod.mk.injEq] at h
      obtain ⟨hc, hp, hi⟩ := h
      subst hc; subst hp; subst hi
      refine ⟨[filter_.value], rfl, rfl, ?_⟩
      show HasFragsL ((fname ++ (" != " ++ "$")) ++ natRepr param_idx).data param_idx 1
      exact hasFragsS_op1 fname " != " param_idx hf (by rfl)
    case CONTAINS =>
      simp only [hop] at h
      rw [Except.ok.injEq, Prod.mk.injEq, Prod.mk.injEq] at h
      obtain ⟨hc, hp, hi⟩ := h
      subst hc; subst hp; subst hi
      refine ⟨[.vStr ("%" ++ pyStr filter_.value ++ "%")], rfl, rfl, ?_⟩
      show HasFragsL ((fname ++ (" ILIKE " ++ "$")) ++ natRepr param_idx).data param_idx 1
      exact hasFragsS_op1 fname " ILIKE " param_idx hf (by rfl)
    case NOT_CONTAINS =>
      simp only [hop] at h
      rw [Except.ok.injEq, Prod.mk.injEq, Prod.mk.injEq] at h
      obtain ⟨hc, hp, hi⟩ := h
      subst hc; subst hp; subst hi
      refine ⟨[.vStr ("%" ++ pyStr filter_.value ++ "%")], rfl, rfl, ?_⟩
      show HasFragsL ((fname ++ (" NOT ILIKE " ++ "$")) ++ natRepr param_idx).data param_idx 1
      exact hasFragsS_op1 fname " NOT ILIKE " param_idx hf (by rfl)
    case STARTS_WITH =>
      simp only [hop] at h
      rw [Except.ok.injEq, Prod.mk.injEq, Prod.mk.injEq] at h
      obtain ⟨hc, hp, hi⟩ := h
      subst hc; subst hp; subst hi
      refine ⟨[.vStr (pyStr filter_.value ++ "%")], rfl, rfl, ?_⟩
      show HasFragsL ((fname ++ (" ILIKE " ++ "$")) ++ natRepr param_idx).data param_idx 1
      exact hasFragsS_op1 fname " ILIKE " param_idx hf (by rfl)
    case ENDS_WITH =>
      simp only [hop] at h
      rw [Except.ok.injEq, Prod.mk.injEq, Prod.mk.injEq] at h
      obtain ⟨hc, hp, hi⟩ := h
      subst hc; subst hp; subst hi
      refine ⟨[.vStr ("%" ++ pyStr filter_.value)], rfl, rfl, ?_⟩
      show HasFragsL ((fname ++ (" ILIKE " ++ "$")) ++ natRepr param_idx).data param_idx 1
      exact hasFragsS_op1 fname " ILIKE " param_idx hf (by rfl)
    case GREATER_THAN =>
      simp only [hop] at h
      rw [Except.ok.injEq, Prod.mk.injEq, Prod.mk.injEq] at h
      obtain ⟨hc, hp, hi⟩ := h
      subst hc; subst hp; subst hi
      refine ⟨[filter_.value], rfl, rfl, ?_⟩
      show HasFragsL ((fname ++ (" > " ++ "$")) ++ natRepr param_idx).data param_idx 1
      exact hasFragsS_op1 fname " > " param_idx hf (by rfl)
    case GREATER_EQUAL =>
      simp only [hop] at h
      rw [Except.ok.injEq, Prod.mk.injEq, Prod.mk.injEq] at h
      obtain ⟨hc, hp, hi⟩ := h
      subst hc; subst hp; subst hi
      refine ⟨[filter_.value], rfl, rfl, ?_⟩
      show HasFragsL ((fname ++ (" >= " ++ "$")) ++ natRepr param_idx).data param_idx 1
      exact hasFragsS_op1 fname " >= " param_idx hf (by rfl)
    case LESS_THAN =>
      simp only [hop] at h
      rw [Except.ok.injEq, Prod.mk.injEq, Prod.mk.injEq] at h
      obtain ⟨hc, hp, hi⟩ := h
      subst hc; subst hp; subst hi
      refine ⟨[filter_.value], rfl, rfl, ?_⟩
      show HasFragsL ((fname ++ (" < " ++ "$")) ++ natRepr param_idx).data param_idx 1
      exact hasFragsS_op1 fname " < " param_idx hf (by rfl)
    case LESS_EQUAL =>
      simp only [hop] at h
      rw [Except.ok.injEq, Prod.mk.injEq, Prod.mk.injEq] at h
      obtain ⟨hc, hp, hi⟩ := h
      subst hc; subst hp; subst hi
      refine ⟨[filter_.value], rfl, rfl, ?_⟩
      show HasFragsL ((fname ++ (" <= " ++ "$")) ++ natRepr param_idx).data param_idx 1
      exact hasFragsS_op1 fname " <= " param_idx hf (by rfl)
    case BETWEEN =>
      simp only [hop] at h
      rw [Except.ok.injEq, Prod.mk.injEq, Prod.mk.injEq] at h
      obtain ⟨hc, hp, hi⟩ := h
      subst hc; subst hp; subst hi
      refine ⟨[filter_.value, filter_.value2], rfl, rfl, ?_⟩
      rw [String.append_assoc ((fname ++ " BETWEEN $") ++ natRepr param_idx)
        " AND $" (natRepr (param_idx + 1))]
      have hA : HasFragsL ((fname ++ (" BETWEEN " ++ "$")) ++
          natRepr param_idx).data param_idx 1 :=
        hasFragsS_op1 fname " BETWEEN " param_idx hf (by rfl)
      have hB : HasFragsL (("" ++ (" AND " ++ "$")) ++
          natRepr (param_idx + 1)).data (param_idx + 1) 1 :=
        hasFragsS_op1 "" " AND " (param_idx + 1) (by rfl) (by rfl)
      have hh : headNondigit (" AND $" ++ natRepr (param_idx + 1)).data = true :=
        headNondigit_data_append " AND $" _ (by rfl) (by simp)
      exact hasFragsS_append _ _ param_idx 1 1 hA hB hh
    case IN =>
      simp only [hop] at h
      cases hv : filter_.value with
      | vList elems =>
        simp only [hv] at h
        rw [Except.ok.injEq, Prod.mk.injEq, Prod.mk.injEq] at h
        obtain ⟨hc, hp, hi⟩ := h
        subst hc; subst hp; subst hi
        refine ⟨elems, rfl, rfl, ?_⟩
        refine hasFragsS_close _ ")" param_idx elems.length ?_ (by rfl) (by rfl)
        have h0 : HasFragsL (fname ++ " IN (").data param_idx 0 :=
          hasFragsS_op0 fname " IN (" param_idx hf (by rfl)
        have hj := hasFrags_placeholder_join elems.length param_idx
        have hh : headNondigit
            (pyJoin ", " (placeholder_texts param_idx elems.length)).data = true := by
          cases Nat.eq_zero_or_pos elems.length with
          | inl hz =>
            rw [hz, show placeholder_texts param_idx 0 = [] from by
              simp [placeholder_texts], pyJoin]
            rfl
          | inr hpos => exact headNondigit_placeholder_join _ _ hpos
        have hres := hasFragsS_append (fname ++ " IN (") _ param_idx 0
          elems.length h0 (by simpa using hj) hh
        simpa using hres
      | vStr s2 =>
        simp only [hv] at h
        rw [Except.ok.injEq, Prod.mk.injEq, Prod.mk.injEq] at h
        obtain ⟨hc, hp, hi⟩ := h
        subst hc; subst hp; subst hi
        refine ⟨[.vStr s2], rfl, rfl, ?_⟩
        show HasFragsL ((fname ++ (" = " ++ "$")) ++ natRepr param_idx).data param_idx 1
        exact hasFragsS_op1 fname " = " param_idx hf (by rfl)
      | vInt n2 =>
        simp only [hv] at h
        rw [Except.ok.injEq, Prod.mk.injEq, Prod.mk.injEq] at h
        obtain ⟨hc, hp, hi⟩ := h
        subst hc; subst hp; subst hi
        refine ⟨[.vInt n2], rfl, rfl, ?_⟩
        show HasFragsL ((fname ++ (" = " ++ "$")) ++ natRepr param_idx).data param_idx 1
        exact hasFragsS_op1 fname " = " param_idx hf (by rfl)
      | vBool b2 =>
        simp only [hv] at h
        rw [Except.ok.injEq, Prod.mk.injEq, Prod.mk.injEq] at h
        obtain ⟨hc, hp, hi⟩ := h
        subst hc; subst hp; subst hi
        refine ⟨[.vBool b2], rfl, rfl, ?_⟩
        show HasFragsL ((fname ++ (" = " ++ "$")) ++ natRepr param_idx).data param_idx 1
        exact hasFragsS_op1 fname " = " param_idx hf (by rfl)
      | vNone =>
        simp only [hv] at h
        rw [Except.ok.injEq, Prod.mk.injEq, Prod.mk.injEq] at h
        obtain ⟨hc, hp, hi⟩ := h
        subst hc; subst hp; subst hi
        refine ⟨[.vNone], rfl, rfl, ?_⟩
        show HasFragsL ((fname ++ (" = " ++ "$")) ++ natRepr param_idx).data param_idx 1
        exact hasFragsS_op1 fname " = " param_idx hf (by rfl)
    case NOT_IN =>
      simp only [hop] at h
      cases hv : filter_.value with
      | vList elems =>
        simp only [hv] at h
        rw [Except.ok.injEq, Prod.mk.injEq, Prod.mk.injEq] at h
        obtain ⟨hc, hp, hi⟩ := h
        subst hc; subst hp; subst hi
        refine ⟨elems, rfl, rfl, ?_⟩
        refine hasFragsS_close _ ")" param_idx elems.length ?_ (by rfl) (by rfl)
        have h0 : HasFragsL (fname ++ " NOT IN (").data param_idx 0 :=
          hasFragsS_op0 fname " NOT IN (" param_idx hf (by rfl)
        have hj := hasFrags_placeholder_join elems.length param_idx
        have hh : headNondigit
            (pyJoin ", " (placeholder_texts param_idx elems.length)).data = true := by
          cases Nat.eq_zero_or_pos elems.length with
          | inl hz =>
            rw [hz, show placeholder_texts param_idx 0 = [] from by
              simp [placeholder_texts], pyJoin]
            rfl
          | inr hpos => exact headNondigit_placeholder_join _ _ hpos
        have hres := hasFragsS_append (fname ++ " NOT IN (") _ param_idx 0
          elems.length h0 (by simpa using hj) hh
        simpa using hres
      | vStr s2 =>
        simp only [hv] at h
        rw [Except.ok.injEq, Prod.mk.injEq, Prod.mk.injEq] at h
        obtain ⟨hc, hp, hi⟩ := h
        subst hc; subst hp; subst hi
        refine ⟨[.vStr s2], rfl, rfl, ?_⟩
        show HasFragsL ((fname ++ (" != " ++ "$")) ++ natRepr param_idx).data param_idx 1
        exact hasFragsS_op1 fname " != " param_idx hf (by rfl)
      | vInt n2 =>
        simp only [hv] at h
        rw [Except.ok.injEq, Prod.mk.injEq, Prod.mk.injEq] at h
        obtain ⟨hc, hp, hi⟩ := h
        subst hc; subst hp; subst hi
        refine ⟨[.vInt n2], rfl, rfl, ?_⟩
        show HasFragsL ((fname ++ (" != " ++ "$")) ++ natRepr param_idx).data param_idx 1
        exact hasFragsS_op1 fname " != " param_idx hf (by rfl)
      | vBool b2 =>
        simp only [hv] at h
        rw [Except.ok.injEq, Prod.mk.injEq, Prod.mk.injEq] at h
        obtain ⟨hc, hp, hi⟩ := h
        subst hc; subst hp; subst hi
        refine ⟨[.vBool b2], rfl, rfl, ?_⟩
        show HasFragsL ((fname ++ (" != " ++ "$")) ++ natRepr param_idx).data param_idx 1
        exact hasFragsS_op1 fname " != " param_idx hf (by rfl)
      | vNone =>
        simp only [hv] at h
        rw [Except.ok.injEq, Prod.mk.injEq, Prod.mk.injEq] at h
        obtain ⟨hc, hp, hi⟩ := h
        subst hc; subst hp; subst hi
        refine ⟨[.vNone], rfl, rfl, ?_⟩
        show HasFragsL ((fname ++ (" != " ++ "$")) ++ natRepr param_idx).data param_idx 1
        exact hasFragsS_op1 fname " != " param_idx hf (by rfl)

theorem hasFragsL_cons_lit (l1 l2 : List Char) (lo n : Nat)
    (h1 : noDollarB l1 = true) (h2 : HasFragsL l2 lo n) :
    HasFragsL (l1 ++ l2) lo n := by
  obtain ⟨fs, ht, hw, hp⟩ := h2
  refine ⟨.lit l1 :: fs, ?_, ?_, ?_⟩
  · rw [fragsText, ht]
  · rw [fragsWF, h1, hw]; rfl
  · rw [phs, hp]

theorem hasFragsS_cons_lit (s1 s2 : String) (lo n : Nat)
    (h1 : noDollarB s1.data = true) (h2 : HasFragsL s2.data lo n) :
    HasFragsL (s1 ++ s2).data lo n := by
  rw [String.data_append]
  exact hasFragsL_cons_lit _ _ lo n h1 h2

theorem hasFrags_pyJoin_and (conds : List String) : ∀ lo n : Nat,
    CondsChain conds lo n → HasFragsL (pyJoin " AND " conds).data lo n := by
  induction conds with
  | nil =>
    intro lo n h
    rw [show (CondsChain [] lo n) = (n = 0) from rfl] at h
    subst h
    rw [pyJoin]
    exact hasFragsL_lit [] lo rfl
  | cons c rest ih =>
    intro lo n h
    obtain ⟨m, k, hc, hchain, rfl⟩ := h
    cases rest with
    | nil =>
      rw [show (CondsChain [] (lo + m) k) = (k = 0) from rfl] at hchain
      subst hchain
      rw [pyJoin]
      simpa using hc
    | cons q qs =>
      rw [pyJoin, String.append_assoc]
      have hrest := ih (lo + m) k hchain
      have h2 : HasFragsL (" AND " ++ pyJoin " AND " (q :: qs)).data (lo + m) k :=
        hasFragsS_cons_lit _ _ (lo + m) k (by rfl) hrest
      refine hasFragsS_append _ _ lo m k hc h2 ?_
      exact headNondigit_data_append " AND " _ (by rfl) (by simp)

theorem noDollar_pyJoin (sep : String) (parts : List String)
    (hs : noDollarB sep.data = true) (hp : ∀ p ∈ parts, noDollarB p.data = true) :
    noDollarB (pyJoin sep parts).data = true := by
  induction parts with
  | nil => rfl
  | cons p rest ih =>
    cases rest with
    | nil => rw [pyJoin]; exact hp p (by simp)
    | cons q qs =>
      rw [pyJoin, String.data_append, String.data_append, noDollarB_append,
        noDollarB_append]
      rw [hp p (by simp), hs, ih (fun r hr => hp r (by simp [hr]))]
      rfl

theorem hasFrags_join_where (pre post : List String) (w : String) (lo n : Nat)
    (hpre : ∀ p ∈ pre, noDollarB p.data = true)
    (hpost : ∀ p ∈ post, noDollarB p.data = true)
    (hw : HasFragsL w.data lo n) :
    HasFragsL (pyJoin "\n" (pre ++ w :: post)).data lo n := by
  induction pre with
  | nil =>
    cases post with
    | nil => simpa using hw
    | cons q qs =>
      rw [List.nil_append, pyJoin, String.append_assoc]
      refine hasFragsS_close _ _ lo n hw ?_ ?_
      · rw [String.data_append, noDollarB_append]
        rw [show noDollarB ("\n" : String).data = true from rfl,
          noDollar_pyJoin "\n" (q :: qs) (by rfl) hpost]
        rfl
      · exact headNondigit_data_append "\n" _ (by rfl) (by simp)
  | cons p ps ih =>
    have hne : ps ++ w :: post ≠ [] := by simp
    cases hcase : ps ++ w :: post with
    | nil => exact absurd hcase hne
    | cons r rs =>
      rw [List.cons_append, hcase, pyJoin, ← hcase, String.append_assoc]
      refine hasFragsS_cons_lit _ _ lo n (hpre p (by simp)) ?_
      exact hasFragsS_cons_lit _ _ lo n (by rfl)
        (ih (fun r hr => hpre r (by simp [hr])))

theorem condsChain_append (c1 c2 : List String) : ∀ lo n1 n2 : Nat,
    CondsChain c1 lo n1 → CondsChain c2 (lo + n1) n2 →
    CondsChain (c1 ++ c2) lo (n1 + n2) := by
  induction c1 with
  | nil =>
    intro lo n1 n2 h1 h2
    rw [show (CondsChain [] lo n1) = (n1 = 0) from rfl] at h1
    subst h1
    simpa using h2
  | cons c rest ih =>
    intro lo n1 n2 h1 h2
    obtain ⟨m, k, hc, hchain, rfl⟩ := h1
    rw [List.cons_append]
    refine ⟨m, k + n2, hc, ?_, by omega⟩
    have := ih (lo + m) k n2 hchain (by rw [show lo + m + k = lo + (m + k) by omega]; exact h2)
    exact this

theorem build_where_filters_spec (used : List (String × Entity)) :
    ∀ (filters : List FilterCondition) (params : List PyVal) (param_idx : Nat)
      (conds : List String) (params' : List PyVal) (param_idx' : Nat),
    build_where_filters used filters params param_idx =
      .ok (conds, params', param_idx') →
    ∃ new : List PyVal, params' = params ++ new ∧
      param_idx' = param_idx + new.length ∧ CondsChain conds param_idx new.length := by
  intro filters
  induction filters with
  | nil =>
    intro params param_idx conds params' param_idx' h
    rw [build_where_filters, Except.ok.injEq, Prod.mk.injEq, Prod.mk.injEq] at h
    obtain ⟨hc, hp, hi⟩ := h
    subst hc; subst hp; subst hi
    exact ⟨[], by simp, rfl, rfl⟩
  | cons filter_ rest ih =>
    intro params param_idx conds params' param_idx' h
    rw [build_where_filters] at h
    cases hd : dict_get used filter_.entity_id with
    | none => simp only [hd] at h; exact ih params param_idx conds params' param_idx' h
    | some entity =>
      simp only [hd] at h
      cases hfind : entity.fields.find? (fun f => f.id = filter_.field_id) with
      | none => simp only [hfind] at h; exact ih params param_idx conds params' param_idx' h
      | some field =>
        simp only [hfind] at h
        cases hbfc : build_filter_condition entity field entity.table_name filter_
            params param_idx with
        | error e => simp only [hbfc] at h; exact Except.noConfusion h
        | ok triple =>
          obtain ⟨condition, params2, param_idx2⟩ := triple
          simp only [hbfc] at h
          cases hrest : build_where_filters used rest params2 param_idx2 with
          | error e => simp only [hrest] at h; exact Except.noConfusion h
          | ok triple2 =>
            obtain ⟨conds3, params3, param_idx3⟩ := triple2
            simp only [hrest] at h
            rw [Except.ok.injEq, Prod.mk.injEq, Prod.mk.injEq] at h
            obtain ⟨hc, hp, hi⟩ := h
            subst hc; subst hp; subst hi
            obtain ⟨new1, hp1, hi1, hfrags⟩ :=
              build_filter_condition_spec entity field entity.table_name filter_
                params param_idx condition params2 param_idx2 hbfc
            obtain ⟨new2, hp2, hi2, hchain⟩ :=
              ih params2 param_idx2 conds3 params3 param_idx3 hrest
            refine ⟨new1 ++ new2, ?_, ?_, ?_⟩
            · rw [hp2, hp1, List.append_assoc]
            · rw [hi2, hi1]; simp [List.length_append]; omega
            · refine ⟨new1.length, new2.length, hfrags, ?_, by simp⟩
              rw [← hi1]
              exact hchain

theorem build_time_conditions_spec (reg : Registry) (config : ReportConfig)
    (now : Int) (params : List PyVal) (param_idx : Nat) (conds : List String)
    (params' : List PyVal) (param_idx' : Nat)
    (h : build_time_conditions reg config now params param_idx =
      .ok (conds, params', param_idx')) :
    ∃ new : List PyVal, params' = params ++ new ∧
      param_idx' = param_idx + new.length ∧
      CondsChain conds param_idx new.length := by
  unfold build_time_conditions at h
  cases htr : config.time_range with
  | none =>
    simp only [htr] at h
    rw [Except.ok.injEq, Prod.mk.injEq, Prod.mk.injEq] at h
    obtain ⟨hc, hp, hi⟩ := h
    subst hc; subst hp; subst hi
    exact ⟨[], by simp, rfl, rfl⟩
  | some time_range =>
    cases htf : config.time_field with
    | none =>
      simp only [htr, htf] at h
      rw [Except.ok.injEq, Prod.mk.injEq, Prod.mk.injEq] at h
      obtain ⟨hc, hp, hi⟩ := h
      subst hc; subst hp; subst hi
      exact ⟨[], by simp, rfl, rfl⟩
    | some time_field_id =>
      simp only [htr, htf] at h
      by_cases hemp : time_field_id = ""
      · rw [if_pos hemp] at h
        rw [Except.ok.injEq, Prod.mk.injEq, Prod.mk.injEq] at h
        obtain ⟨hc, hp, hi⟩ := h
        subst hc; subst hp; subst hi
        exact ⟨[], by simp, rfl, rfl⟩
      · rw [if_neg hemp] at h
        cases hge : get_entity_r reg
            (pyOrStr config.time_field_entity config.primary_entity) with
        | none =>
          simp only [hge] at h
          rw [Except.ok.injEq, Prod.mk.injEq, Prod.mk.injEq] at h
          obtain ⟨hc, hp, hi⟩ := h
          subst hc; subst hp; subst hi
          exact ⟨[], by simp, rfl, rfl⟩
        | some time_entity =>
          simp only [hge] at h
          cases hfind : time_entity.fields.find? (fun f => f.id = time_field_id) with
          | none =>
            simp only [hfind] at h
            rw [Except.ok.injEq, Prod.mk.injEq, Prod.mk.injEq] at h
            obtain ⟨hc, hp, hi⟩ := h
            subst hc; subst hp; subst hi
            exact ⟨[], by simp, rfl, rfl⟩
          | some time_field =>
            simp only [hfind] at h
            cases hctr : calculate_time_range time_range now with
            | error e => simp only [hctr] at h; exact Except.noConfusion h
            | ok se =>
              obtain ⟨start_time, end_time⟩ := se
              simp only [hctr] at h
              cases hq : get_qualified_field_name time_entity time_field
                  time_entity.table_name with
              | error e => simp only [hq] at h; exact Except.noConfusion h
              | ok time_field_name =>
                simp only [hq] at h
                have hf : noDollarB time_field_name.data = true :=
                  get_qualified_noDollar _ _ _ _ hq
                cases hst : start_time with
                | some st =>
                  cases hen : end_time with
                  | some et =>
                    simp only [hst, hen] at h
                    rw [Except.ok.injEq, Prod.mk.injEq, Prod.mk.injEq] at h
                    obtain ⟨hc, hp, hi⟩ := h
                    subst hc; subst hp; subst hi
                    refine ⟨[.vStr (datetime_isoformat st),
                             .vStr (datetime_isoformat et)], by simp, rfl, ?_⟩
                    refine ⟨1, 1, ?_, ⟨1, 0, ?_, rfl, rfl⟩, rfl⟩
                    · show HasFragsL ((time_field_name ++ (" >= " ++ "$")) ++
                        natRepr param_idx).data param_idx 1
                      exact hasFragsS_op1 time_field_name " >= " param_idx hf (by rfl)
                    · show HasFragsL ((time_field_name ++ (" <= " ++ "$")) ++
                        natRepr (param_idx + 1)).data (param_idx + 1) 1
                      exact hasFragsS_op1 time_field_name " <= " (param_idx + 1)
                        hf (by rfl)
                  | none =>
                    simp only [hst, hen] at h
                    rw [Except.ok.injEq, Prod.mk.injEq, Prod.mk.injEq] at h
                    obtain ⟨hc, hp, hi⟩ := h
                    subst hc; subst hp; subst hi
                    refine ⟨[.vStr (datetime_isoformat st)], by simp, rfl, ?_⟩
                    refine ⟨1, 0, ?_, rfl, rfl⟩
                    show HasFragsL ((time_field_name ++ (" >= " ++ "$")) ++
                      natRepr param_idx).data param_idx 1
                    exact hasFragsS_op1 time_field_name " >= " param_idx hf (by rfl)
                | none =>
                  cases hen : end_time with
                  | some et =>
                    simp only [hst, hen] at h
                    rw [Except.ok.injEq, Prod.mk.injEq, Prod.mk.injEq] at h
                    obtain ⟨hc, hp, hi⟩ := h
                    subst hc; subst hp; subst hi
                    refine ⟨[.vStr (datetime_isoformat et)], by simp, rfl, ?_⟩
                    refine ⟨1, 0, ?_, rfl, rfl⟩
                    show HasFragsL ((time_field_name ++ (" <= " ++ "$")) ++
                      natRepr param_idx).data param_idx 1
                    exact hasFragsS_op1 time_field_name " <= " param_idx hf (by rfl)
                  | none =>
                    simp only [hst, hen] at h
                    rw [Except.ok.injEq, Prod.mk.injEq, Prod.mk.injEq] at h
                    obtain ⟨hc, hp, hi⟩ := h
                    subst hc; subst hp; subst hi
                    exact ⟨[], by simp, rfl, rfl⟩

theorem natRepr_noDollar (n : Nat) : noDollarB (natRepr n).data = true :=
  (noDollarB_iff _).mpr (natDigits_all_ne_dollar n)

theorem intRepr_noDollar (i : Int) : noDollarB (intRepr i).data = true := by
  unfold intRepr
  by_cases h : i < 0
  · rw [if_pos h, String.data_append, noDollarB_append, natRepr_noDollar]
    rfl
  · rw [if_neg h]
    exact natRepr_noDollar _

theorem build_aggregation_noDollar (f : String) (agg : AggregationType)
    (hf : noDollarB f.data = true) :
    noDollarB (build_aggregation f agg).data = true := by
  cases agg <;>
    simp only [build_aggregation, String.data_append, noDollarB_append, hf,
      Bool.and_true, Bool.true_and, Bool.and_eq_true] <;>
    exact ⟨by decide, by decide⟩

theorem get_field_alias_noDollar (eid fid : String)
    (agg : Option AggregationType) (he : noDollarB eid.data = true)
    (hf : noDollarB fid.data = true) :
    noDollarB (get_field_alias eid fid agg).data = true := by
  cases agg with
  | none =>
    simp only [get_field_alias, String.data_append, noDollarB_append, he, hf,
      Bool.and_true, Bool.true_and]
    decide
  | some a =>
    cases a <;>
      simp only [get_field_alias, aggValue, String.data_append, noDollarB_append,
        he, hf, Bool.and_true, Bool.true_and, Bool.and_eq_true] <;>
      exact ⟨by decide, by decide⟩

theorem usedClean_lookup (used : List (String × Entity)) (k : String) (e : Entity)
    (hclean : usedClean used = true) (h : dict_get used k = some e) :
    noDollarB k.data = true ∧ ∀ f ∈ e.fields, noDollarB f.id.data = true := by
  unfold dict_get at h
  cases hf : used.find? (fun p => p.1 = k) with
  | none => rw [hf] at h; exact Option.noConfusion h
  | some pe =>
    rw [hf] at h
    have hmem : pe ∈ used := List.mem_of_find?_eq_some hf
    have hkey : pe.1 = k := by
      have := List.find?_some hf
      simpa using this
    have hval : pe.2 = e := by
      simp only [Option.map_some'] at h
      exact Option.some.inj h
    unfold usedClean at hclean
    rw [List.all_eq_true] at hclean
    have := hclean pe hmem
    rw [Bool.and_eq_true, List.all_eq_true] at this
    subst hkey
    subst hval
    exact ⟨this.1, fun f hfm => this.2 f hfm⟩

theorem insert_used_clean (reg : Registry) (used : List (String × Entity))
    (eid : String) (hreg : regNoDollar reg = true)
    (hused : usedClean used = true) :
    usedClean (insert_used reg used eid) = true := by
  unfold insert_used
  by_cases hmem : (dict_get used eid).isSome
  · rw [if_pos hmem]; exact hused
  · rw [if_neg hmem]
    cases hg : get_entity_r reg eid with
    | none => exact hused
    | some e =>
      unfold usedClean at hused ⊢
      rw [List.all_eq_true] at hused ⊢
      intro p hp
      rcases List.mem_append.mp hp with hp | hp
      · exact hused p hp
      · rcases List.mem_singleton.mp hp with rfl
        unfold get_entity_r at hg
        cases hfind : reg.find? (fun p => p.1 = eid) with
        | none => rw [hfind] at hg; exact Option.noConfusion hg
        | some pe =>
          rw [hfind] at hg
          have hmem2 : pe ∈ reg := List.mem_of_find?_eq_some hfind
          have hkey : pe.1 = eid := by
            have := List.find?_some hfind
            simpa using this
          have hval : pe.2 = e := by
            simp only [Option.map_some'] at hg
            exact Option.some.inj hg
          unfold regNoDollar at hreg
          rw [List.all_eq_true] at hreg
          have := hreg pe hmem2
          rw [← hkey, ← hval]
          exact this

theorem collect_used_entities_clean (reg : Registry) (config : ReportConfig)
    (pe : Entity) (hreg : regNoDollar reg = true)
    (hpe : get_entity_r reg config.primary_entity = some pe) :
    usedClean (collect_used_entities reg config pe) = true := by
  have hbase : usedClean [(config.primary_entity, pe)] = true := by
    unfold get_entity_r at hpe
    cases hfind : reg.find? (fun p => p.1 = config.primary_entity) with
    | none => rw [hfind] at hpe; exact Option.noConfusion hpe
    | some pr =>
      rw [hfind] at hpe
      have hmem2 : pr ∈ reg := List.mem_of_find?_eq_some hfind
      have hkey : pr.1 = config.primary_entity := by
        have := List.find?_some hfind
        simpa using this
      have hval : pr.2 = pe := by
        simp only [Option.map_some'] at hpe
        exact Option.some.inj hpe
      unfold regNoDollar at hreg
      rw [List.all_eq_true] at hreg
      have hpr := hreg pr hmem2
      unfold usedClean
      rw [List.all_eq_true]
      intro p hp
      rcases List.mem_singleton.mp hp with rfl
      rw [← hkey, ← hval]
      exact hpr
  unfold collect_used_entities
  have step : ∀ (l : List SelectedField) (acc : List (String × Entity)),
      usedClean acc = true →
      usedClean (l.foldl (fun acc f => insert_used reg acc f.entity_id) acc) = true := by
    intro l
    induction l with
    | nil => intro acc h; exact h
    | cons x xs ih =>
      intro acc h
      exact ih _ (insert_used_clean reg acc x.entity_id hreg h)
  have step2 : ∀ (l : List FilterCondition) (acc : List (String × Entity)),
      usedClean acc = true →
      usedClean (l.foldl (fun acc f => insert_used reg acc f.entity_id) acc) = true := by
    intro l
    induction l with
    | nil => intro acc h; exact h
    | cons x xs ih =>
      intro acc h
      exact ih _ (insert_used_clean reg acc x.entity_id hreg h)
  have step3 : ∀ (l : List SortConfig) (acc : List (String × Entity)),
      usedClean acc = true →
      usedClean (l.foldl (fun acc f => insert_used reg acc f.entity_id) acc) = true := by
    intro l
    induction l with
    | nil => intro acc h; exact h
    | cons x xs ih =>
      intro acc h
      exact ih _ (insert_used_clean reg acc x.entity_id hreg h)
  exact step3 _ _ (step2 _ _ (step _ _ hbase))

theorem mem_ite_singleton {α : Type} (c : Prop) [Decidable c] (x g : α)
    (h : g ∈ (if c then [x] else [])) : g = x := by
  by_cases hc : c
  · rw [if_pos hc] at h; simpa using h
  · rw [if_neg hc] at h; exact absurd h (by simp)

theorem build_select_parts_cons (used : List (String × Entity))
    (has_aggregation : Bool) (group_by : Option (List SelectedField))
    (sel_field : SelectedField) (rest : List SelectedField) :
    build_select_parts used has_aggregation group_by (sel_field :: rest) =
      match dict_get used sel_field.entity_id with
      | none => build_select_parts used has_aggregation group_by rest
      | some entity =>
        match entity.fields.find? (fun f => f.id = sel_field.field_id) with
        | none => build_select_parts used has_aggregation group_by rest
        | some field =>
          match get_qualified_field_name entity field entity.table_name with
          | .error e => .error e
          | .ok field_name =>
            let alias_ := get_field_alias sel_field.entity_id sel_field.field_id
              sel_field.aggregation
            let exprGb : String × List String :=
              match sel_field.aggregation with
              | some agg => (build_aggregation field_name agg, [])
              | none =>
                let in_group_by :=
                  match group_by with
                  | some gbs =>
                      has_aggregation && !gbs.isEmpty &&
                        gbs.any (fun g => g.entity_id = sel_field.entity_id &&
                                          g.field_id = sel_field.field_id)
                  | none => false
                (field_name, if in_group_by then [field_name] else [])
            match build_select_parts used has_aggregation group_by rest with
            | .error e => .error e
            | .ok (parts, gb_fields) =>
              .ok ((exprGb.1 ++ " AS " ++ alias_) :: parts, exprGb.2 ++ gb_fields) := rfl

theorem build_select_parts_noDollar (used : List (String × Entity))
    (has_aggregation : Bool) (group_by : Option (List SelectedField))
    (hclean : usedClean used = true) :
    ∀ (sels : List SelectedField) (parts gbs : List String),
    build_select_parts used has_aggregation group_by sels = .ok (parts, gbs) →
    (∀ p ∈ parts, noDollarB p.data = true) ∧
    (∀ g ∈ gbs, noDollarB g.data = true) := by
  intro sels
  induction sels with
  | nil =>
    intro parts gbs h
    rw [show build_select_parts used has_aggregation group_by [] = .ok ([], []) from rfl, Except.ok.injEq, Prod.mk.injEq] at h
    obtain ⟨hp, hg⟩ := h
    subst hp; subst hg
    exact ⟨by simp, by simp⟩
  | cons sel rest ih =>
    intro parts gbs h
    rw [build_select_parts_cons] at h
    cases hd : dict_get used sel.entity_id with
    | none => simp only [hd] at h; exact ih parts gbs h
    | some entity =>
      simp only [hd] at h
      cases hfind : entity.fields.find? (fun f => f.id = sel.field_id) with
      | none => simp only [hfind] at h; exact ih parts gbs h
      | some field =>
        simp only [hfind] at h
        cases hq : get_qualified_field_name entity field entity.table_name with
        | error e => simp only [hq] at h; exact Except.noConfusion h
        | ok field_name =>
          simp only [hq] at h
          cases hrest : build_select_parts used has_aggregation group_by rest with
          | error e => simp only [hrest] at h; exact Except.noConfusion h
          | ok pg =>
            obtain ⟨parts2, gbs2⟩ := pg
            simp only [hrest] at h
            rw [Except.ok.injEq, Prod.mk.injEq] at h
            obtain ⟨hp, hg⟩ := h
            subst hp; subst hg
            obtain ⟨ihp, ihg⟩ := ih parts2 gbs2 hrest
            have hfn : noDollarB field_name.data = true :=
              get_qualified_noDollar _ _ _ _ hq
            obtain ⟨hkey, hfields⟩ := usedClean_lookup used sel.entity_id entity
              hclean hd
            have hfid : noDollarB sel.field_id.data = true := by
              have hmem := List.mem_of_find?_eq_some hfind
              have hid : field.id = sel.field_id := by
                have := List.find?_some hfind
                simpa using this
              rw [← hid]
              exact hfields field hmem
            have halias : noDollarB (get_field_alias sel.entity_id sel.field_id
                sel.aggregation).data = true :=
              get_field_alias_noDollar _ _ _ hkey hfid
            constructor
            · intro p hp
              rcases List.mem_cons.mp hp with rfl | hp
              · rw [String.data_append, String.data_append, noDollarB_append,
                  noDollarB_append, halias]
                have hexpr : noDollarB (match sel.aggregation with
                    | some agg => (build_aggregation field_name agg, ([] : List String))
                    | none =>
                      let in_group_by :=
                        match group_by with
                        | some gbs =>
                            has_aggregation && !gbs.isEmpty &&
                              gbs.any (fun g => g.entity_id = sel.entity_id &&
                                                g.field_id = sel.field_id)
                        | none => false
                      (field_name, if in_group_by then [field_name] else [])).1.data
                    = true := by
                  cases sel.aggregation with
                  | some agg => exact build_aggregation_noDollar _ _ hfn
                  | none => exact hfn
                rw [hexpr]
                decide
              · exact ihp p hp
            · intro g hg
              rcases List.mem_append.mp hg with hg | hg
              · have hgf : g = field_name := by
                  revert hg
                  cases sel.aggregation with
                  | some agg => intro hg; exact absurd hg (by simp)
                  | none =>
                    intro hg
                    exact mem_ite_singleton _ _ _ hg
                rw [hgf]
                exact hfn
              · exact ihg g hg

theorem build_join_steps_noDollar (reg : Registry) :
    ∀ (steps : List JoinStep) (joined : List String) (clauses joined' : List String),
    build_join_steps reg steps joined = .ok (clauses, joined') →
    ∀ c ∈ clauses, noDollarB c.data = true := by
  intro steps
  induction steps with
  | nil =>
    intro joined clauses joined' h
    rw [show build_join_steps reg [] joined = .ok ([], joined) from rfl,
      Except.ok.injEq, Prod.mk.injEq] at h
    obtain ⟨hc, hj⟩ := h
    subst hc
    simp
  | cons step rest ih =>
    intro joined clauses joined' h
    rw [show build_join_steps reg (step :: rest) joined =
      (if joined.contains step.to_entity then build_join_steps reg rest joined
       else match get_entity_r reg step.to_entity with
       | none => build_join_steps reg rest joined
       | some to_entity =>
         match get_entity_r reg step.from_entity with
         | none => build_join_steps reg rest joined
         | some from_entity =>
           let upper := pyUpper step.join_type
           let join_type_sql :=
             if upper = "INNER" || upper = "LEFT" || upper = "RIGHT" then upper
             else "LEFT"
           match sanitize_identifier to_entity.schema_name with
           | .error e => .error e
           | .ok target_schema =>
             match sanitize_identifier to_entity.table_name with
             | .error e => .error e
             | .ok target_table =>
               match sanitize_identifier from_entity.table_name with
               | .error e => .error e
               | .ok source_table =>
                 match sanitize_identifier step.from_field with
                 | .error e => .error e
                 | .ok source_field =>
                   match sanitize_identifier step.to_field with
                   | .error e => .error e
                   | .ok target_field =>
                     let condition := source_table ++ "." ++ source_field ++ " = " ++
                       target_table ++ "." ++ target_field
                     let clause := join_type_sql ++ " JOIN " ++ target_schema ++ "." ++
                       target_table ++ " ON " ++ condition
                     match build_join_steps reg rest (joined ++ [step.to_entity]) with
                     | .error e => .error e
                     | .ok (clauses, joined2) => .ok (clause :: clauses, joined2))
      from rfl] at h
    by_cases hmem : joined.contains step.to_entity
    · rw [if_pos hmem] at h
      exact ih joined clauses joined' h
    · rw [if_neg hmem] at h
      cases hto : get_entity_r reg step.to_entity with
      | none => simp only [hto] at h; exact ih joined clauses joined' h
      | some to_entity =>
        simp only [hto] at h
        cases hfrom : get_entity_r reg step.from_entity with
        | none => simp only [hfrom] at h; exact ih joined clauses joined' h
        | some from_entity =>
          simp only [hfrom] at h
          cases h1 : sanitize_identifier to_entity.schema_name with
          | error e => simp only [h1] at h; exact Except.noConfusion h
          | ok target_schema =>
            simp only [h1] at h
            cases h2 : sanitize_identifier to_entity.table_name with
            | error e => simp only [h2] at h; exact Except.noConfusion h
            | ok target_table =>
              simp only [h2] at h
              cases h3 : sanitize_identifier from_entity.table_name with
              | error e => simp only [h3] at h; exact Except.noConfusion h
              | ok source_table =>
                simp only [h3] at h
                cases h4 : sanitize_identifier step.from_field with
                | error e => simp only [h4] at h; exact Except.noConfusion h
                | ok source_field =>
                  simp only [h4] at h
                  cases h5 : sanitize_identifier step.to_field with
                  | error e => simp only [h5] at h; exact Except.noConfusion h
                  | ok target_field =>
                    simp only [h5] at h
                    cases hrest : build_join_steps reg rest
                        (joined ++ [step.to_entity]) with
                    | error e => simp only [hrest] at h; exact Except.noConfusion h
                    | ok cj =>
                      obtain ⟨clauses2, joined2⟩ := cj
                      simp only [hrest] at h
                      rw [Except.ok.injEq, Prod.mk.injEq] at h
                      obtain ⟨hc, hj⟩ := h
                      subst hc
                      intro c hc
                      rcases List.mem_cons.mp hc with rfl | hc
                      · have hts := regexMatch_noDollar _
                          ((sanitize_ok_iff _ _).mp h1).1
                        have htt := regexMatch_noDollar _
                          ((sanitize_ok_iff _ _).mp h2).1
                        have hst := regexMatch_noDollar _
                          ((sanitize_ok_iff _ _).mp h3).1
                        have hsf := regexMatch_noDollar _
                          ((sanitize_ok_iff _ _).mp h4).1
                        have htf := regexMatch_noDollar _
                          ((sanitize_ok_iff _ _).mp h5).1
                        obtain ⟨hts1, rfl⟩ := (sanitize_ok_iff _ _).mp h1
                        obtain ⟨htt1, rfl⟩ := (sanitize_ok_iff _ _).mp h2
                        obtain ⟨hst1, rfl⟩ := (sanitize_ok_iff _ _).mp h3
                        obtain ⟨hsf1, rfl⟩ := (sanitize_ok_iff _ _).mp h4
                        obtain ⟨htf1, rfl⟩ := (sanitize_ok_iff _ _).mp h5
                        have hjt : noDollarB (if pyUpper step.join_type = "INNER" ||
                            pyUpper step.join_type = "LEFT" ||
                            pyUpper step.join_type = "RIGHT" then
                            pyUpper step.join_type else "LEFT").data = true := by
                          by_cases hcond : pyUpper step.join_type = "INNER" ||
                              pyUpper step.join_type = "LEFT" ||
                              pyUpper step.join_type = "RIGHT"
                          · rw [if_pos hcond]
                            rcases Bool.or_eq_true _ _ |>.mp hcond with hx | hx
                            · rcases Bool.or_eq_true _ _ |>.mp hx with hy | hy
                              · rw [of_decide_eq_true hy]; decide
                              · rw [of_decide_eq_true hy]; decide
                            · rw [of_decide_eq_true hx]; decide
                          · rw [if_neg hcond]; decide
                        simp only [String.data_append, noDollarB_append, hjt,
                          hts, htt, hst, hsf, htf, Bool.and_true, Bool.true_and,
                          Bool.and_eq_true]
                        refine ⟨⟨⟨?_, ?_⟩, ?_⟩, ?_⟩ <;> decide
                      · exact ih (joined ++ [step.to_entity]) clauses2 joined2 hrest c hc

theorem build_joins_noDollar (reg : Registry) (primary_id : String) :
    ∀ (eids : List String) (joined : List String) (clauses joined' : List String),
    build_joins reg primary_id eids joined = .ok (clauses, joined') →
    ∀ c ∈ clauses, noDollarB c.data = true := by
  intro eids
  induction eids with
  | nil =>
    intro joined clauses joined' h
    rw [show build_joins reg primary_id [] joined = .ok ([], joined) from rfl,
      Except.ok.injEq, Prod.mk.injEq] at h
    obtain ⟨hc, hj⟩ := h
    subst hc
    simp
  | cons eid rest ih =>
    intro joined clauses joined' h
    rw [show build_joins reg primary_id (eid :: rest) joined =
      (if eid = primary_id then build_joins reg primary_id rest joined
       else match find_join_path reg primary_id eid [] with
       | none => .error ("Cannot join entity " ++ eid ++ " to primary entity " ++
           primary_id ++ ". No relationship path found. " ++
           "Please select fields from related entities only.")
       | some join_path =>
         match build_join_steps reg join_path joined with
         | .error e => .error e
         | .ok (clauses, joined2) =>
           match build_joins reg primary_id rest joined2 with
           | .error e => .error e
           | .ok (clauses2, joined3) => .ok (clauses ++ clauses2, joined3))
      from rfl] at h
    by_cases hp : eid = primary_id
    · rw [if_pos hp] at h
      exact ih joined clauses joined' h
    · rw [if_neg hp] at h
      cases hpath : find_join_path reg primary_id eid [] with
      | none => simp only [hpath] at h; exact Except.noConfusion h
      | some join_path =>
        simp only [hpath] at h
        cases hsteps : build_join_steps reg join_path joined with
        | error e => simp only [hsteps] at h; exact Except.noConfusion h
        | ok cj =>
          obtain ⟨clauses1, joined2⟩ := cj
          simp only [hsteps] at h
          cases hrest : build_joins reg primary_id rest joined2 with
          | error e => simp only [hrest] at h; exact Except.noConfusion h
          | ok cj2 =>
            obtain ⟨clauses2, joined3⟩ := cj2
            simp only [hrest] at h
            rw [Except.ok.injEq, Prod.mk.injEq] at h
            obtain ⟨hc, hj⟩ := h
            subst hc
            intro c hc
            rcases List.mem_append.mp hc with hc | hc
            · exact build_join_steps_noDollar reg join_path joined clauses1
                joined2 hsteps c hc
            · exact ih joined2 clauses2 joined3 hrest c hc

theorem build_order_parts_noDollar (used : List (String × Entity)) :
    ∀ (sorting : List SortConfig) (parts : List String),
    build_order_parts used sorting = .ok parts →
    ∀ p ∈ parts, noDollarB p.data = true := by
  intro sorting
  induction sorting with
  | nil =>
    intro parts h
    rw [show build_order_parts used [] = .ok [] from rfl, Except.ok.injEq] at h
    subst h
    simp
  | cons sort rest ih =>
    intro parts h
    rw [show build_order_parts used (sort :: rest) =
      (match dict_get used sort.entity_id with
       | none => build_order_parts used rest
       | some entity =>
         match entity.fields.find? (fun f => f.id = sort.field_id) with
         | none => build_order_parts used rest
         | some field =>
           match get_qualified_field_name entity field entity.table_name with
           | .error e => .error e
           | .ok field_name =>
             let direction := if pyLower sort.direction = "desc" then "DESC" else "ASC"
             match build_order_parts used rest with
             | .error e => .error e
             | .ok parts => .ok ((field_name ++ " " ++ direction) :: parts))
      from rfl] at h
    cases hd : dict_get used sort.entity_id with
    | none => simp only [hd] at h; exact ih parts h
    | some entity =>
      simp only [hd] at h
      cases hfind : entity.fields.find? (fun f => f.id = sort.field_id) with
      | none => simp only [hfind] at h; exact ih parts h
      | some field =>
        simp only [hfind] at h
        cases hq : get_qualified_field_name entity field entity.table_name with
        | error e => simp only [hq] at h; exact Except.noConfusion h
        | ok field_name =>
          simp only [hq] at h
          cases hrest : build_order_parts used rest with
          | error e => simp only [hrest] at h; exact Except.noConfusion h
          | ok parts2 =>
            simp only [hrest] at h
            rw [Except.ok.injEq] at h
            subst h
            intro p hp
            rcases List.mem_cons.mp hp with rfl | hp
            · have hfn := get_qualified_noDollar _ _ _ _ hq
              by_cases hdir : pyLower sort.direction = "desc"
              · rw [if_pos hdir]
                simp only [String.data_append, noDollarB_append, hfn,
                  Bool.true_and]
                decide
              · rw [if_neg hdir]
                simp only [String.data_append, noDollarB_append, hfn,
                  Bool.true_and]
                decide
            · exact ih parts2 hrest p hp

theorem mem_ite_nil_singleton {α : Type} (c : Prop) [Decidable c] (x g : α)
    (h : g ∈ (if c then ([] : List α) else [x])) : g = x := by
  by_cases hc : c
  · rw [if_pos hc] at h; exact absurd h (by simp)
  · rw [if_neg hc] at h; simpa using h

theorem build_query_frags (reg : Registry) (config : ReportConfig) (now : Int)
    (sql : String) (params : List PyVal) (hreg : regNoDollar reg = true)
    (h : build_query reg config now = .ok (sql, params)) :
    HasFragsL sql.data 1 params.length := by
  unfold build_query at h
  cases hpe : get_entity_r reg config.primary_entity with
  | none => simp only [hpe] at h; exact Except.noConfusion h
  | some primary_entity =>
    simp only [hpe] at h
    have hclean : usedClean (collect_used_entities reg config primary_entity) = true :=
      collect_used_entities_clean reg config primary_entity hreg hpe
    cases hsel : build_select_parts (collect_used_entities reg config primary_entity)
        (config.selected_fields.any (fun f => f.aggregation.isSome)) config.group_by
        config.selected_fields with
    | error e => simp only [hsel] at h; exact Except.noConfusion h
    | ok pg =>
      obtain ⟨select_parts, group_by_fields⟩ := pg
      simp only [hsel] at h
      by_cases hempty : select_parts.isEmpty
      · rw [if_pos hempty] at h; exact Except.noConfusion h
      · rw [if_neg hempty] at h
        cases hsc : sanitize_identifier primary_entity.schema_name with
        | error e => simp only [hsc] at h; exact Except.noConfusion h
        | ok schema_name =>
          simp only [hsc] at h
          cases htb : sanitize_identifier primary_entity.table_name with
          | error e => simp only [htb] at h; exact Except.noConfusion h
          | ok table_name =>
            simp only [htb] at h
            cases hj : build_joins reg config.primary_entity
                ((collect_used_entities reg config primary_entity).map Prod.fst)
                [config.primary_entity] with
            | error e => simp only [hj] at h; exact Except.noConfusion h
            | ok jj =>
              obtain ⟨join_clauses, joined_fin⟩ := jj
              simp only [hj] at h
              cases hwf : build_where_filters
                  (collect_used_entities reg config primary_entity)
                  config.filters [] 1 with
              | error e => simp only [hwf] at h; exact Except.noConfusion h
              | ok wf3 =>
                obtain ⟨filter_conds, params1, idx1⟩ := wf3
                simp only [hwf] at h
                cases htc : build_time_conditions reg config now params1 idx1 with
                | error e => simp only [htc] at h; exact Except.noConfusion h
                | ok tc3 =>
                  obtain ⟨time_conds, params2, idx2⟩ := tc3
                  simp only [htc] at h
                  cases hop : build_order_parts
                      (collect_used_entities reg config primary_entity)
                      config.sorting with
                  | error e => simp only [hop] at h; exact Except.noConfusion h
                  | ok order_parts =>
                    simp only [hop] at h
                    rw [Except.ok.injEq, Prod.mk.injEq] at h
                    obtain ⟨hsql, hparams⟩ := h
                    rw [← hsql, ← hparams]
                    obtain ⟨new1, hp1, hi1, hchain1⟩ :=
                      build_where_filters_spec _ _ _ _ _ _ _ hwf
                    obtain ⟨new2, hp2, hi2, hchain2⟩ :=
                      build_time_conditions_spec _ _ _ _ _ _ _ _ htc
                    rw [List.nil_append] at hp1
                    have hlen : params2.length = new1.length + new2.length := by
                      rw [hp2, hp1, List.length_append]
                    rw [hlen]
                    have hchain : CondsChain (filter_conds ++ time_conds) 1
                        (new1.length + new2.length) := by
                      refine condsChain_append _ _ 1 new1.length new2.length hchain1 ?_
                      rw [← hi1]
                      exact hchain2
                    obtain ⟨hsp, hgb⟩ := build_select_parts_noDollar _ _ _ hclean _ _ _ hsel
                    have hjnd : ∀ c ∈ join_clauses, noDollarB c.data = true :=
                      build_joins_noDollar _ _ _ _ _ _ hj
                    have hond : ∀ p ∈ order_parts, noDollarB p.data = true :=
                      build_order_parts_noDollar _ _ _ hop
                    have hselLine : noDollarB ("SELECT " ++ pyJoin ", " select_parts).data
                        = true := by
                      rw [String.data_append, noDollarB_append,
                        noDollar_pyJoin ", " select_parts (by rfl) hsp]
                      rfl
                    have hfromLine : noDollarB ("FROM " ++ (schema_name ++ "." ++
                        table_name)).data = true := by
                      obtain ⟨hm1, rfl⟩ := (sanitize_ok_iff _ _).mp hsc
                      obtain ⟨hm2, rfl⟩ := (sanitize_ok_iff _ _).mp htb
                      simp only [String.data_append, noDollarB_append,
                        regexMatch_noDollar _ hm1, regexMatch_noDollar _ hm2,
                        Bool.and_true, Bool.true_and, Bool.and_eq_true]
                      exact ⟨by decide, by decide⟩
                    have hgroupLine : ∀ p ∈ (if group_by_fields.isEmpty then []
                        else ["GROUP BY " ++ pyJoin ", " group_by_fields]),
                        noDollarB p.data = true := by
                      intro p hp
                      rw [mem_ite_nil_singleton _ _ _ hp, String.data_append,
                        noDollarB_append,
                        noDollar_pyJoin ", " group_by_fields (by rfl) hgb]
                      rfl
                    have horderLine : ∀ p ∈ (if order_parts.isEmpty then []
                        else ["ORDER BY " ++ pyJoin ", " order_parts]),
                        noDollarB p.data = true := by
                      intro p hp
                      rw [mem_ite_nil_singleton _ _ _ hp, String.data_append,
                        noDollarB_append,
                        noDollar_pyJoin ", " order_parts (by rfl) hond]
                      rfl
                    have hlimitLine : noDollarB ("LIMIT " ++
                        intRepr (min config.limit 10000)).data = true := by
                      rw [String.data_append, noDollarB_append, intRepr_noDollar]
                      rfl
                    unfold assemble_sql_parts
                    by_cases hwc : (filter_conds ++ time_conds).isEmpty
                    · have hzero : new1.length + new2.length = 0 := by
                        rcases List.isEmpty_iff.mp hwc with h0
                        rw [h0] at hchain
                        exact hchain
                      rw [hzero]
                      rw [if_pos hwc]
                      apply hasFragsL_lit
                      apply (noDollarB_iff _).mpr
                      intro c hc
                      have hnp : noDollarB (pyJoin "\n"
                          ((["SELECT " ++ pyJoin ", " select_parts,
                             "FROM " ++ (schema_name ++ "." ++ table_name)] ++
                            join_clauses ++ [] ++
                            (if group_by_fields.isEmpty then []
                             else ["GROUP BY " ++ pyJoin ", " group_by_fields]) ++
                            (if order_parts.isEmpty then []
                             else ["ORDER BY " ++ pyJoin ", " order_parts]) ++
                            ["LIMIT " ++ intRepr (min config.limit 10000)]))).data
                          = true := by
                        apply noDollar_pyJoin _ _ (by rfl)
                        intro p hp
                        rcases List.mem_append.mp hp with hp | hlim
                        · rcases List.mem_append.mp hp with hp | hopm
                          · rcases List.mem_append.mp hp with hp | hgpm
                            · rw [List.append_nil] at hp
                              rcases List.mem_append.mp hp with hp | hj2
                              · rcases List.mem_cons.mp hp with rfl | hp
                                · exact hselLine
                                · rcases List.mem_cons.mp hp with rfl | hp
                                  · exact hfromLine
                                  · exact absurd hp (List.not_mem_nil p)
                              · exact hjnd p hj2
                            · exact hgroupLine p hgpm
                          · exact horderLine p hopm
                        · rcases List.mem_singleton.mp hlim with rfl
                          exact hlimitLine
                      exact (noDollarB_iff _).mp hnp c hc
                    · rw [if_neg hwc]
                      have hlist : (["SELECT " ++ pyJoin ", " select_parts,
                            "FROM " ++ (schema_name ++ "." ++ table_name)] ++
                          join_clauses ++
                          ["WHERE " ++ pyJoin " AND " (filter_conds ++ time_conds)] ++
                          (if group_by_fields.isEmpty then []
                           else ["GROUP BY " ++ pyJoin ", " group_by_fields]) ++
                          (if order_parts.isEmpty then []
                           else ["ORDER BY " ++ pyJoin ", " order_parts]) ++
                          ["LIMIT " ++ intRepr (min config.limit 10000)]) =
                          (("SELECT " ++ pyJoin ", " select_parts) ::
                           ("FROM " ++ (schema_name ++ "." ++ table_name)) ::
                           join_clauses) ++
                          ("WHERE " ++ pyJoin " AND " (filter_conds ++ time_conds)) ::
                          ((if group_by_fields.isEmpty then []
                            else ["GROUP BY " ++ pyJoin ", " group_by_fields]) ++
                           (if order_parts.isEmpty then []
                            else ["ORDER BY " ++ pyJoin ", " order_parts]) ++
                           ["LIMIT " ++ intRepr (min config.limit 10000)]) := by
                        simp [List.append_assoc]
                      rw [hlist]
                      apply hasFrags_join_where
                      · intro p hp
                        rcases List.mem_cons.mp hp with rfl | hp
                        · exact hselLine
                        · rcases List.mem_cons.mp hp with rfl | hp
                          · exact hfromLine
                          · exact hjnd p hp
                      · intro p hp
                        rcases List.mem_append.mp hp with hp | hp
                        · rcases List.mem_append.mp hp with hp | hp
                          · exact hgroupLine p hp
                          · exact horderLine p hp
                        · rcases List.mem_singleton.mp hp with rfl
                          exact hlimitLine
                      · refine hasFragsS_cons_lit _ _ 1 (new1.length + new2.length)
                          (by rfl) ?_
                        exact hasFrags_pyJoin_and _ 1 _ hchain

/-- C2: for every configuration the builder accepts (over a registry whose
identifiers are free of the dollar character, as the shipped one is), the
placeholders occurring in the query text, scanned left to right, are exactly
the consecutive sequence 1, 2, ..., length(parameters): every placeholder
number k satisfies 1 <= k <= length(parameters), so each one references the
parameter at 0-based index k-1, and values reach the text only through these
placeholders. -/
theorem claim_C2_placeholder_alignment (reg : Registry) (config : ReportConfig)
    (now : Int) (sql : String) (params : List PyVal)
    (hreg : regNoDollar reg = true)
    (h : build_query reg config now = .ok (sql, params)) :
    scanPlaceholders sql.data = List.range' 1 params.length ∧
    ∀ k ∈ scanPlaceholders sql.data, 1 ≤ k ∧ k ≤ params.length := by
  obtain ⟨fs, hft, hwf, hphs⟩ := build_query_frags reg config now sql params hreg h
  have hscan : scanPlaceholders sql.data = List.range' 1 params.length := by
    rw [← hft, scan_fragsText fs hwf, hphs]
  refine ⟨hscan, ?_⟩
  intro k hk
  rw [hscan, List.mem_range'_1] at hk
  omega

set_option maxRecDepth 10000 in
theorem claim_C2_placeholder_alignment_witness :
    build_query ENTITIES configC2 0 = Except.ok
      ("SELECT objects.object_id AS objects_object_id\nFROM raw_business_data.objects\nWHERE objects.is_deleted = $1 AND objects.create_datetime >= $2 AND objects.create_datetime <= $3\nLIMIT 1000",
       [PyVal.vBool false, PyVal.vStr "-168", PyVal.vStr "0"]) ∧
    scanPlaceholders ("SELECT objects.object_id AS objects_object_id\nFROM raw_business_data.objects\nWHERE objects.is_deleted = $1 AND objects.create_datetime >= $2 AND objects.create_datetime <= $3\nLIMIT 1000").data
      = List.range' 1 3 :=
  ⟨rfl,
   (claim_C2_placeholder_alignment ENTITIES configC2 0 _
     [PyVal.vBool false, PyVal.vStr "-168", PyVal.vStr "0"] rfl rfl).1⟩

/-- C1 (corrected): the identifier gate accepts exactly the names matching
[a-zA-Z_][a-zA-Z0-9_]* optionally followed by ONE trailing newline character
(Python re: a dollar anchor also matches just before a final newline);
accepted names pass through completely unchanged, and every other name
raises the invalid-identifier error immediately. The original claim is
refuted by names with a trailing newline, which contain a character outside
[A-Za-z0-9_] yet are accepted and emitted into query text verbatim. -/
theorem claim_C1_identifier_check (s : String) :
    (sanitize_identifier s = .ok s ↔
      (validIdent s = true ∨
        (s.data.getLast? = some (Char.ofNat 10) ∧
         validIdentCore s.data.dropLast = true))) ∧
    (∀ t, sanitize_identifier s = .ok t → t = s) ∧
    (regexIdentMatch s = false →
      sanitize_identifier s = .error ("Invalid identifier: " ++ s)) := by
  refine ⟨?_, ?_, sanitize_error_of_not_match s⟩
  · rw [sanitize_ok_iff]
    simp only [and_true]
    unfold regexIdentMatch validIdent
    cases h : s.data.getLast? with
    | none =>
      simp only [Bool.or_eq_true]
      constructor
      · rintro (h1 | h1)
        · exact Or.inl h1
        · exact absurd h1 (by simp)
      · rintro (h1 | ⟨h2, h3⟩)
        · exact Or.inl h1
        · exact Option.noConfusion h2
    | some c =>
      simp only [Bool.or_eq_true, Bool.and_eq_true, decide_eq_true_eq,
        Option.some.injEq]
  · intro t ht
    exact ((sanitize_ok_iff s t).mp ht).2

theorem claim_C1_identifier_check_witness :
    sanitize_identifier "device_id" = Except.ok "device_id" ∧
    sanitize_identifier "9bad" = Except.error ("Invalid identifier: " ++ "9bad") :=
  ⟨((claim_C1_identifier_check "device_id").1).mpr (Or.inl rfl),
   (claim_C1_identifier_check "9bad").2.2 rfl⟩

set_option maxRecDepth 4000 in
theorem claim_C1_identifier_check_counterexample :
    ("bad\n").data.all isIdentChar = false ∧
    sanitize_identifier "bad\n" = Except.ok "bad\n" ∧
    build_query regC1 configC1 0 = Except.ok
      ("SELECT bad\n.f AS e_f\nFROM s.bad\n\nLIMIT 1000", []) :=
  ⟨rfl, rfl, rfl⟩

/-- C3 (corrected): a Selected Field, Filter Condition, or Sort Spec whose
(entity id, field id) pair does not resolve against the collected entities is
NOT rejected: the builder silently skips the unresolvable reference and
continues with the remaining ones, exactly as if it had not been written.
The original claim (hard rejection of any unresolvable reference) is refuted
by the counterexample configuration, which builds successfully with its
dangling filter dropped. -/
theorem claim_C3_unresolved_reference_skipped (used : List (String × Entity))
    (entity : Entity) :
    (∀ (sf : SelectedField) (rest : List SelectedField) (has_agg : Bool)
       (gb : Option (List SelectedField)),
      (dict_get used sf.entity_id = none ∨
        (dict_get used sf.entity_id = some entity ∧
         entity.fields.find? (fun f => f.id = sf.field_id) = none)) →
      build_select_parts used has_agg gb (sf :: rest) =
        build_select_parts used has_agg gb rest) ∧
    (∀ (fc : FilterCondition) (rest : List FilterCondition)
       (params : List PyVal) (idx : Nat),
      (dict_get used fc.entity_id = none ∨
        (dict_get used fc.entity_id = some entity ∧
         entity.fields.find? (fun f => f.id = fc.field_id) = none)) →
      build_where_filters used (fc :: rest) params idx =
        build_where_filters used rest params idx) ∧
    (∀ (sc : SortConfig) (rest : List SortConfig),
      (dict_get used sc.entity_id = none ∨
        (dict_get used sc.entity_id = some entity ∧
         entity.fields.find? (fun f => f.id = sc.field_id) = none)) →
      build_order_parts used (sc :: rest) = build_order_parts used rest) := by
  refine ⟨?_, ?_, ?_⟩
  · rintro sf rest has_agg gb (hno | ⟨he, hf⟩)
    · rw [build_select_parts_cons]
      simp only [hno]
    · rw [build_select_parts_cons]
      simp only [he, hf]
  · rintro fc rest params idx (hno | ⟨he, hf⟩)
    · rw [build_where_filters]
      simp only [hno]
    · rw [build_where_filters]
      simp only [he, hf]
  · rintro sc rest (hno | ⟨he, hf⟩)
    · rw [show build_order_parts used (sc :: rest) =
        (match dict_get used sc.entity_id with
         | none => build_order_parts used rest
         | some entity =>
           match entity.fields.find? (fun f => f.id = sc.field_id) with
           | none => build_order_parts used rest
           | some field =>
             match get_qualified_field_name entity field entity.table_name with
             | .error e => .error e
             | .ok field_name =>
               let direction :=
                 if pyLower sc.direction = "desc" then "DESC" else "ASC"
               match build_order_parts used rest with
               | .error e => .error e
               | .ok parts => .ok ((field_name ++ " " ++ direction) :: parts))
        from rfl]
      simp only [hno]
    · rw [show build_order_parts used (sc :: rest) =
        (match dict_get used sc.entity_id with
         | none => build_order_parts used rest
         | some entity =>
           match entity.fields.find? (fun f => f.id = sc.field_id) with
           | none => build_order_parts used rest
           | some field =>
             match get_qualified_field_name entity field entity.table_name with
             | .error e => .error e
             | .ok field_name =>
               let direction :=
                 if pyLower sc.direction = "desc" then "DESC" else "ASC"
               match build_order_parts used rest with
               | .error e => .error e
               | .ok parts => .ok ((field_name ++ " " ++ direction) :: parts))
        from rfl]
      simp only [he, hf]

theorem claim_C3_unresolved_reference_skipped_witness :
    dict_get ([] : List (String × Entity)) "nowhere" = none ∧
    build_where_filters [] [⟨"f1", "nowhere", "x", .EQUALS, .vInt 2, .vNone⟩] [] 1 =
      build_where_filters [] [] [] 1 :=
  ⟨rfl,
   (claim_C3_unresolved_reference_skipped [] entityC1).2.1
     ⟨"f1", "nowhere", "x", .EQUALS, .vInt 2, .vNone⟩ [] [] 1 (Or.inl rfl)⟩

set_option maxRecDepth 4000 in
theorem claim_C3_unresolved_reference_skipped_counterexample :
    get_entity_r ENTITIES "nowhere" = none ∧
    configC3.filters = [⟨"f1", "nowhere", "x", .EQUALS, .vInt 2, .vNone⟩] ∧
    build_query ENTITIES configC3 0 = Except.ok
      ("SELECT objects.object_id AS objects_object_id\nFROM raw_business_data.objects\nLIMIT 1000", []) :=
  ⟨rfl, rfl, rfl⟩

/-- C5 (corrected): for a relative time range the resolver returns the
inclusive pair (now - delta, now) with delta = count hours, count days,
count weeks, count x 30 days (months) or count x 365 days (years); an
ABSENT unit (None or empty) falls back to the unit "days", giving a
count-dependent delta of count days — not the fixed 7-day delta the spec
claims — while a present but unrecognized unit yields the fixed 7-day
delta regardless of count. -/
theorem claim_C5_relative_time_range (tr : TimeRange) (now : Int)
    (htype : ¬ tr.type = "absolute") :
    (tr.relative_unit = some "hours" →
      calculate_time_range tr now =
        .ok (some (now - pyOrInt tr.relative_value 0), some now)) ∧
    (tr.relative_unit = some "days" →
      calculate_time_range tr now =
        .ok (some (now - 24 * pyOrInt tr.relative_value 0), some now)) ∧
    (tr.relative_unit = some "weeks" →
      calculate_time_range tr now =
        .ok (some (now - 168 * pyOrInt tr.relative_value 0), some now)) ∧
    (tr.relative_unit = some "months" →
      calculate_time_range tr now =
        .ok (some (now - 24 * (pyOrInt tr.relative_value 0 * 30)), some now)) ∧
    (tr.relative_unit = some "years" →
      calculate_time_range tr now =
        .ok (some (now - 24 * (pyOrInt tr.relative_value 0 * 365)), some now)) ∧
    ((tr.relative_unit = none ∨ tr.relative_unit = some "") →
      calculate_time_range tr now =
        .ok (some (now - 24 * pyOrInt tr.relative_value 0), some now)) ∧
    (∀ u, tr.relative_unit = some u →
      ¬ u ∈ ["hours", "days", "weeks", "months", "years", ""] →
      calculate_time_range tr now = .ok (some (now - 24 * 7), some now)) := by
  refine ⟨?_, ?_, ?_, ?_, ?_, ?_, ?_⟩
  · intro h; unfold calculate_time_range; rw [if_neg htype, h]; rfl
  · intro h; unfold calculate_time_range; rw [if_neg htype, h]; rfl
  · intro h; unfold calculate_time_range; rw [if_neg htype, h]; rfl
  · intro h; unfold calculate_time_range; rw [if_neg htype, h]; rfl
  · intro h; unfold calculate_time_range; rw [if_neg htype, h]; rfl
  · rintro (h | h) <;> (unfold calculate_time_range; rw [if_neg htype, h]; rfl)
  · intro u hu hnotin
    have h1 : ¬ u = "hours" := fun h => hnotin (by rw [h]; simp)
    have h2 : ¬ u = "days" := fun h => hnotin (by rw [h]; simp)
    have h3 : ¬ u = "weeks" := fun h => hnotin (by rw [h]; simp)
    have h4 : ¬ u = "months" := fun h => hnotin (by rw [h]; simp)
    have h5 : ¬ u = "years" := fun h => hnotin (by rw [h]; simp)
    have h6 : ¬ u = "" := fun h => hnotin (by rw [h]; simp)
    unfold calculate_time_range
    rw [if_neg htype, hu]
    have hpu : pyOrStr (some u) "days" = u := by
      show (if u = "" then "days" else u) = u
      rw [if_neg h6]
    rw [hpu]
    split
    · exact absurd (by assumption) h1
    · exact absurd (by assumption) h2
    · exact absurd (by assumption) h3
    · exact absurd (by assumption) h4
    · exact absurd (by assumption) h5
    · rfl

theorem claim_C5_relative_time_range_witness :
    calculate_time_range ⟨"relative", some 5, some "hours", none, none⟩ 0 =
      Except.ok (some (-5), some 0) := by
  have h := (claim_C5_relative_time_range
    ⟨"relative", some 5, some "hours", none, none⟩ 0 (by decide)).1 rfl
  rw [h]
  rfl

theorem claim_C5_relative_time_range_counterexample :
    calculate_time_range ⟨"relative", some 3, none, none, none⟩ 0 =
      Except.ok (some (-72), some 0) ∧
    Except.ok (some (-72 : Int), some (0 : Int)) ≠
      (Except.ok (some (-168), some 0) : Except String (Option Int × Option Int)) :=
  ⟨rfl, by simp⟩

theorem build_select_parts_gb (used : List (String × Entity)) (has_agg : Bool)
    (gb : Option (List SelectedField)) :
    ∀ (sels : List SelectedField) (parts gbs : List String),
    build_select_parts used has_agg gb sels = .ok (parts, gbs) →
    gbs = sels.filterMap (group_by_term_spec used has_agg gb) := by
  intro sels
  induction sels with
  | nil =>
    intro parts gbs h
    rw [show build_select_parts used has_agg gb [] = .ok ([], []) from rfl,
      Except.ok.injEq, Prod.mk.injEq] at h
    obtain ⟨hp, hg⟩ := h
    subst hg
    rfl
  | cons sel rest ih =>
    intro parts gbs h
    rw [build_select_parts_cons] at h
    cases hd : dict_get used sel.entity_id with
    | none =>
      simp only [hd] at h
      have hspec : group_by_term_spec used has_agg gb sel = none := by
        unfold group_by_term_spec
        simp only [hd]
      rw [List.filterMap_cons, hspec]
      exact ih parts gbs h
    | some entity =>
      simp only [hd] at h
      cases hfind : entity.fields.find? (fun f => f.id = sel.field_id) with
      | none =>
        simp only [hfind] at h
        have hspec : group_by_term_spec used has_agg gb sel = none := by
          unfold group_by_term_spec
          simp only [hd, hfind]
        rw [List.filterMap_cons, hspec]
        exact ih parts gbs h
      | some field =>
        simp only [hfind] at h
        cases hq : get_qualified_field_name entity field entity.table_name with
        | error e => simp only [hq] at h; exact Except.noConfusion h
        | ok field_name =>
          simp only [hq] at h
          cases hrest : build_select_parts used has_agg gb rest with
          | error e => simp only [hrest] at h; exact Except.noConfusion h
          | ok pg =>
            obtain ⟨parts2, gbs2⟩ := pg
            simp only [hrest] at h
            rw [Except.ok.injEq, Prod.mk.injEq] at h
            obtain ⟨hp, hg⟩ := h
            subst hg
            have hihg := ih parts2 gbs2 hrest
            obtain ⟨hma, hmf, hfn⟩ :=
              get_qualified_ok entity field entity.table_name field_name hq
            rw [List.filterMap_cons]
            cases hagg : sel.aggregation with
            | some a =>
              have hspec : group_by_term_spec used has_agg gb sel = none := by
                unfold group_by_term_spec
                simp only [hd, hfind, hagg]
              rw [hspec]
              simp only [hagg, List.nil_append]
              exact hihg
            | none =>
              cases gb with
              | none =>
                have hspec : group_by_term_spec used has_agg none sel = none := by
                  unfold group_by_term_spec
                  simp only [hd, hfind, hagg]
                  simp
                rw [hspec]
                simp only [hagg]
                simp only [Bool.and_false, Bool.false_eq_true, if_false,
                  List.nil_append]
                exact hihg
              | some gbl =>
                by_cases hany : gbl.any (fun g => g.entity_id = sel.entity_id &&
                    g.field_id = sel.field_id) = true
                · have hne : gbl.isEmpty = false := by
                    cases gbl with
                    | nil => exact absurd hany (by simp)
                    | cons a l => rfl
                  cases has_agg with
                  | true =>
                    have hspec2 : group_by_term_spec used true (some gbl) sel =
                        some (entity.table_name ++ "." ++ field.name) := by
                      unfold group_by_term_spec
                      simp [hd, hfind, hagg, hany]
                    rw [hspec2]
                    simp [hagg, hany, hne, hfn, hihg]
                  | false =>
                    have hspec2 : group_by_term_spec used false (some gbl) sel =
                        none := by
                      unfold group_by_term_spec
                      simp [hd, hfind, hagg]
                    rw [hspec2]
                    simp [hagg, hihg]
                · have hany2 : gbl.any (fun g => g.entity_id = sel.entity_id &&
                      g.field_id = sel.field_id) = false :=
                    Bool.eq_false_iff.mpr hany
                  have hspec2 : group_by_term_spec used has_agg (some gbl) sel =
                      none := by
                    unfold group_by_term_spec
                    simp [hd, hfind, hagg, hany2]
                  rw [hspec2]
                  simp [hagg, hany2, hihg]

/-- C6: under an aggregated selection, GROUP BY terms come ONLY from the
explicit group-by list: the emitted group-by fields are exactly the
qualified names of the resolvable non-aggregated selected fields whose
(entity id, field id) identity appears in the explicit list, so an absent
or empty explicit list yields no group-by fields at all — and in the spec
scenario (vehicles model selected plainly beside MAX(max_speed), no
explicit list) the compiled text contains no GROUP BY clause. -/
theorem claim_C6_group_by_explicit_only (used : List (String × Entity))
    (has_agg : Bool) (gb : Option (List SelectedField))
    (sels : List SelectedField) (parts gbs : List String)
    (h : build_select_parts used has_agg gb sels = .ok (parts, gbs)) :
    gbs = sels.filterMap (group_by_term_spec used has_agg gb) ∧
    ((gb = none ∨ gb = some []) → gbs = []) ∧
    (∀ sql params, build_query ENTITIES configC6 0 = .ok (sql, params) →
      strInfix "GROUP BY" sql = false) := by
  have h1 := build_select_parts_gb used has_agg gb sels parts gbs h
  refine ⟨h1, ?_, ?_⟩
  · intro hgb
    rw [h1, List.filterMap_eq_nil]
    intro sel _
    unfold group_by_term_spec
    cases hd : dict_get used sel.entity_id with
    | none => simp only [hd]
    | some entity =>
      simp only [hd]
      cases hfind : entity.fields.find? (fun f => f.id = sel.field_id) with
      | none => simp only [hfind]
      | some field =>
        simp only [hfind]
        cases hagg : sel.aggregation with
        | some a => simp only [hagg]
        | none =>
          simp only [hagg]
          rcases hgb with rfl | rfl <;> simp
  · intro sql params hq
    have hc : build_query ENTITIES configC6 0 = .ok
        ("SELECT vehicles.model AS vehicles_model, MAX(vehicles.max_speed) AS max_vehicles_max_speed\nFROM raw_business_data.vehicles\nLIMIT 1000",
         []) := rfl
    rw [hc, Except.ok.injEq, Prod.mk.injEq] at hq
    obtain ⟨hsql, hparams⟩ := hq
    rw [← hsql]
    rfl

set_option maxRecDepth 10000 in
theorem claim_C6_group_by_explicit_only_witness :
    strInfix "GROUP BY"
      "SELECT vehicles.model AS vehicles_model, MAX(vehicles.max_speed) AS max_vehicles_max_speed\nFROM raw_business_data.vehicles\nLIMIT 1000" = false ∧
    build_query ENTITIES configC6gb 0 = Except.ok
      ("SELECT vehicles.model AS vehicles_model, MAX(vehicles.max_speed) AS max_vehicles_max_speed\nFROM raw_business_data.vehicles\nGROUP BY vehicles.model\nLIMIT 1000",
       []) :=
  ⟨(claim_C6_group_by_explicit_only [] false none [] [] [] rfl).2.2
    "SELECT vehicles.model AS vehicles_model, MAX(vehicles.max_speed) AS max_vehicles_max_speed\nFROM raw_business_data.vehicles\nLIMIT 1000"
    [] rfl, rfl⟩

theorem calculate_time_range_absolute_now_indep (tr : TimeRange)
    (now1 now2 : Int) (h : tr.type = "absolute") :
    calculate_time_range tr now1 = calculate_time_range tr now2 := by
  unfold calculate_time_range
  rw [if_pos h, if_pos h]

theorem build_time_conditions_now_indep (reg : Registry) (config : ReportConfig)
    (now1 now2 : Int) (params : List PyVal) (param_idx : Nat)
    (h : config.time_range = none ∨
      ∃ tr, config.time_range = some tr ∧ tr.type = "absolute") :
    build_time_conditions reg config now1 params param_idx =
      build_time_conditions reg config now2 params param_idx := by
  rcases h with h | ⟨tr, htr, habs⟩
  · unfold build_time_conditions
    rw [h]
  · unfold build_time_conditions
    rw [htr]
    cases htf : config.time_field with
    | none => rfl
    | some tf =>
      simp only [calculate_time_range_absolute_now_indep tr now1 now2 habs]

/-- C7 (corrected): with the clock reading made explicit, the builder is a
pure function of (registry, configuration, clock): byte-identical output for
identical inputs. Clock-independence — what two separate invocations of the
Python builder amount to — holds whenever the configuration has no time
range or an absolute one, but NOT for relative time ranges, whose bound
parameters move with the clock (see the counterexample). -/
theorem claim_C7_determinism (reg : Registry) (config : ReportConfig)
    (now1 now2 : Int)
    (h : config.time_range = none ∨
      ∃ tr, config.time_range = some tr ∧ tr.type = "absolute") :
    build_query reg config now1 = build_query reg config now2 := by
  have hbtc : ∀ (p : List PyVal) (i : Nat),
      build_time_conditions reg config now1 p i =
        build_time_conditions reg config now2 p i :=
    fun p i => build_time_conditions_now_indep reg config now1 now2 p i h
  unfold build_query
  simp only [hbtc]

set_option maxRecDepth 4000 in
theorem claim_C7_determinism_witness :
    build_query ENTITIES configC8 0 = build_query ENTITIES configC8 24 ∧
    configC8.time_range = some ⟨"absolute", none, none, some "100", some "200"⟩ :=
  ⟨claim_C7_determinism ENTITIES configC8 0 24
    (Or.inr ⟨⟨"absolute", none, none, some "100", some "200"⟩, rfl, rfl⟩),
   rfl⟩

set_option maxRecDepth 4000 in
theorem claim_C7_determinism_counterexample :
    build_query ENTITIES configC7 0 ≠ build_query ENTITIES configC7 24 := by
  rw [show build_query ENTITIES configC7 0 = Except.ok
      ("SELECT objects.object_id AS objects_object_id\nFROM raw_business_data.objects\nWHERE objects.create_datetime >= $1 AND objects.create_datetime <= $2\nLIMIT 1000",
       [PyVal.vStr "-1", PyVal.vStr "0"]) from rfl,
    show build_query ENTITIES configC7 24 = Except.ok
      ("SELECT objects.object_id AS objects_object_id\nFROM raw_business_data.objects\nWHERE objects.create_datetime >= $1 AND objects.create_datetime <= $2\nLIMIT 1000",
       [PyVal.vStr "23", PyVal.vStr "24"]) from rfl]
  simp

/-- C8 (code bug): a time-scope entity (devices) that is neither the primary
entity (objects) nor referenced by any selected field, filter, or sort spec
is NOT collected among the used entities, and no JOIN clause is produced for
it — even though a join path from the primary entity exists — yet the two
time-bound WHERE predicates still reference its table, so the compiled text
names a devices column while joining no devices table (invalid SQL). The
source comments its intent at query_builder.py lines 423-424 but only
records a table alias and never adds the entity to used_entities. -/
theorem claim_C8_time_entity_not_joined :
    build_query ENTITIES configC8 0 = Except.ok
      ("SELECT objects.object_id AS objects_object_id\nFROM raw_business_data.objects\nWHERE devices.created_at >= $1 AND devices.created_at <= $2\nLIMIT 1000",
       [PyVal.vStr "100", PyVal.vStr "200"]) ∧
    strInfix "JOIN"
      "SELECT objects.object_id AS objects_object_id\nFROM raw_business_data.objects\nWHERE devices.created_at >= $1 AND devices.created_at <= $2\nLIMIT 1000"
      = false ∧
    strInfix "devices.created_at >= $1"
      "SELECT objects.object_id AS objects_object_id\nFROM raw_business_data.objects\nWHERE devices.created_at >= $1 AND devices.created_at <= $2\nLIMIT 1000"
      = true ∧
    (collect_used_entities ENTITIES configC8 objectsEntity).map Prod.fst =
      ["objects"] ∧
    (find_join_path ENTITIES "objects" "devices" []).isSome = true := by
  refine ⟨?_, ?_, ?_, ?_, ?_⟩ <;> rfl

theorem mem_dedupKeys (l : List String) (a : String) : a ∈ dedupKeys l ↔ a ∈ l := by
  induction l with
  | nil => simp [dedupKeys]
  | cons x xs ih =>
    unfold dedupKeys
    by_cases hx : xs.contains x = true
    · rw [if_pos hx, ih]
      constructor
      · intro h
        exact List.mem_cons_of_mem x h
      · intro h
        rcases List.mem_cons.mp h with rfl | h
        · exact List.elem_iff.mp hx
        · exact h
    · rw [if_neg hx]
      simp [ih]

theorem get_entity_r_isSome_mem (reg : Registry) (s : String)
    (h : (get_entity_r reg s).isSome = true) : s ∈ reg.map Prod.fst := by
  unfold get_entity_r at h
  cases hf : reg.find? (fun p => p.1 = s) with
  | none => rw [hf] at h; exact absurd h (by simp)
  | some p =>
    have hmem := List.mem_of_find?_eq_some hf
    have hps : p.1 = s := by simpa using List.find?_some hf
    rw [← hps]
    exact List.mem_map_of_mem Prod.fst hmem

theorem numUnvisited_lt (reg : Registry) (s : String) (visited : List String)
    (hreg : s ∈ reg.map Prod.fst) (hnv : visited.contains s = false) :
    numUnvisited reg (s :: visited) < numUnvisited reg visited := by
  unfold numUnvisited
  have hsL : s ∈ dedupKeys (reg.map Prod.fst) := (mem_dedupKeys _ s).mpr hreg
  have hsub : List.Sublist
      ((dedupKeys (reg.map Prod.fst)).filter (fun i => !(s :: visited).contains i))
      ((dedupKeys (reg.map Prod.fst)).filter (fun i => !visited.contains i)) :=
    List.monotone_filter_right _ (fun a ha => by
      rw [Bool.not_eq_true'] at ha ⊢
      rw [List.contains_cons, Bool.or_eq_false_iff] at ha
      exact ha.2)
  have hs_in : s ∈ (dedupKeys (reg.map Prod.fst)).filter
      (fun i => !visited.contains i) := by
    rw [List.mem_filter]
    refine ⟨hsL, ?_⟩
    rw [Bool.not_eq_true']
    exact hnv
  have hs_out : s ∉ (dedupKeys (reg.map Prod.fst)).filter
      (fun i => !(s :: visited).contains i) := by
    rw [List.mem_filter]
    rintro ⟨-, hcon⟩
    rw [Bool.not_eq_true', List.contains_cons, Bool.or_eq_false_iff] at hcon
    exact absurd hcon.1 (by simp)
  have hle := hsub.length_le
  rcases Nat.lt_or_ge
    (((dedupKeys (reg.map Prod.fst)).filter (fun i => !(s :: visited).contains i)).length)
    (((dedupKeys (reg.map Prod.fst)).filter (fun i => !visited.contains i)).length)
    with h | hge
  · exact h
  · have heq := hsub.eq_of_length (Nat.le_antisymm hle hge)
    rw [heq] at hs_out
    exact absurd hs_in hs_out

theorem find_join_path_fuel_stable (reg : Registry) :
    ∀ (f1 f2 : Nat) (s t : String) (visited : List String),
    numUnvisited reg visited < f1 → numUnvisited reg visited < f2 →
    find_join_path_fuel reg f1 s t visited =
      find_join_path_fuel reg f2 s t visited := by
  intro f1
  induction f1 with
  | zero =>
    intro f2 s t visited h1 h2
    exact absurd h1 (Nat.not_lt_zero _)
  | succ f1 ih =>
    intro f2 s t visited h1 h2
    cases f2 with
    | zero => exact absurd h2 (Nat.not_lt_zero _)
    | succ f2 =>
      simp only [find_join_path_fuel]
      by_cases hst : s = t
      · rw [if_pos hst, if_pos hst]
      · rw [if_neg hst, if_neg hst]
        by_cases hv : visited.contains s = true
        · rw [if_pos hv, if_pos hv]
        · rw [if_neg hv, if_neg hv]
          cases he : get_entity_r reg s with
          | none => rfl
          | some fe =>
            have hvf : visited.contains s = false := by
              cases hc : visited.contains s with
              | false => rfl
              | true => exact absurd hc hv
            have hmem : s ∈ reg.map Prod.fst :=
              get_entity_r_isSome_mem reg s (by rw [he]; rfl)
            have hdec := numUnvisited_lt reg s visited hmem hvf
            have hrec : ∀ u : String,
                find_join_path_fuel reg f1 u t (s :: visited) =
                  find_join_path_fuel reg f2 u t (s :: visited) :=
              fun u => ih f2 u t (s :: visited) (by omega) (by omega)
            simp only [hrec]

theorem dedupKeys_length_le (l : List String) : (dedupKeys l).length ≤ l.length := by
  induction l with
  | nil => exact Nat.le_refl _
  | cons x xs ih =>
    unfold dedupKeys
    by_cases hx : xs.contains x = true
    · rw [if_pos hx]
      exact Nat.le_succ_of_le ih
    · rw [if_neg hx]
      exact Nat.succ_le_succ ih

theorem numUnvisited_le (reg : Registry) (visited : List String) :
    numUnvisited reg visited ≤ reg.length := by
  unfold numUnvisited
  calc ((dedupKeys (reg.map Prod.fst)).filter (fun i => !visited.contains i)).length
      ≤ (dedupKeys (reg.map Prod.fst)).length := List.length_filter_le _ _
    _ ≤ (reg.map Prod.fst).length := dedupKeys_length_le _
    _ = reg.length := List.length_map _ _

/-- C10: the join-path search terminates with recursion depth bounded by the
finite registry: each recursive call adds the (registered, unvisited) source
to the visited set, strictly shrinking the count of unvisited registered
ids, so ANY fuel exceeding that count — itself at most the number of
registry entries — yields the same result as the canonical search; the
bound holds even on the shipped registry, whose relationship graph is
cyclic (objects and vehicles reference each other). -/
theorem claim_C10_termination (reg : Registry) (s t : String)
    (visited : List String) (fuel : Nat)
    (h : numUnvisited reg visited < fuel) :
    find_join_path_fuel reg fuel s t visited = find_join_path reg s t visited ∧
    numUnvisited reg visited ≤ reg.length := by
  constructor
  · exact find_join_path_fuel_stable reg fuel (numUnvisited reg visited + 1)
      s t visited h (Nat.lt_succ_self _)
  · exact numUnvisited_le reg visited

theorem claim_C10_termination_witness :
    (hasFwdEdgeB ENTITIES "objects" "vehicles" = true ∧
     hasFwdEdgeB ENTITIES "vehicles" "objects" = true) ∧
    find_join_path_fuel ENTITIES 14 "vehicles" "devices" [] =
      find_join_path ENTITIES "vehicles" "devices" [] ∧
    numUnvisited ENTITIES [] ≤ ENTITIES.length :=
  ⟨⟨rfl, rfl⟩,
   claim_C10_termination ENTITIES "vehicles" "devices" [] 14 (by decide)⟩

theorem split_last_occ {α : Type} [DecidableEq α] (l : List α) (x : α)
    (h : x ∈ l) : ∃ pre suf, l = pre ++ x :: suf ∧ x ∉ suf := by
  induction l with
  | nil => cases h
  | cons a l ih =>
    by_cases hx : x ∈ l
    · obtain ⟨pre, suf, heq, hns⟩ := ih hx
      exact ⟨a :: pre, suf, by rw [heq]; rfl, hns⟩
    · rcases List.mem_cons.mp h with rfl | h2
      · exact ⟨[], l, rfl, hx⟩
      · exact absurd h2 hx

theorem split_first_occ {α : Type} [DecidableEq α] (l : List α) (x : α)
    (h : x ∈ l) : ∃ pre suf, l = pre ++ x :: suf ∧ x ∉ pre := by
  induction l with
  | nil => cases h
  | cons a l ih =>
    by_cases hax : a = x
    · subst hax
      exact ⟨[], l, rfl, by simp⟩
    · rcases List.mem_cons.mp h with rfl | h2
      · exact absurd rfl hax
      · obtain ⟨pre, suf, heq, hnp⟩ := ih h2
        refine ⟨a :: pre, suf, by rw [heq]; rfl, ?_⟩
        intro hm
        rcases List.mem_cons.mp hm with rfl | hm
        · exact hax rfl
        · exact hnp hm

theorem findSome?_isSome {α β : Type} (l : List α) (f : α → Option β) (x : α)
    (hx : x ∈ l) (hf : (f x).isSome = true) : (l.findSome? f).isSome = true := by
  induction l with
  | nil => cases hx
  | cons a l ih =>
    rw [List.findSome?_cons]
    cases hfa : f a with
    | some b => rfl
    | none =>
      rcases List.mem_cons.mp hx with rfl | hx2
      · rw [hfa] at hf
        exact absurd hf (by simp)
      · exact ih hx2

theorem forward_scan_eq (s t : String) (rels : List EntityRelationship) :
    rels.findSome? (fun rel => if rel.target_entity = t then
        some [(⟨s, t, rel.source_field, rel.target_field, rel.join_type⟩ : JoinStep)]
      else none)
      = (rels.find? (fun rel => rel.target_entity = t)).map
          (fun rel =>
            [(⟨s, t, rel.source_field, rel.target_field, rel.join_type⟩ : JoinStep)]) := by
  induction rels with
  | nil => rfl
  | cons r rels ih =>
    rw [List.findSome?_cons, List.find?_cons]
    by_cases hr : r.target_entity = t
    · simp [hr]
    · simp only [if_neg hr, hr, decide_False]
      exact ih

theorem reverse_inner_eq (s t : String) (rels : List EntityRelationship) :
    rels.findSome? (fun r => if r.target_entity = s && t = t then
        some [(⟨s, t, r.target_field, r.source_field, r.join_type⟩ : JoinStep)]
      else none)
      = (rels.find? (fun r => r.target_entity = s)).map
          (fun r =>
            [(⟨s, t, r.target_field, r.source_field, r.join_type⟩ : JoinStep)]) := by
  induction rels with
  | nil => rfl
  | cons r rels ih =>
    rw [List.findSome?_cons, List.find?_cons]
    by_cases hr : r.target_entity = s
    · simp [hr]
    · have hcond : ¬ ((r.target_entity = s && t = t) = true) := by simp [hr]
      rw [if_neg hcond]
      have hd : (decide (r.target_entity = s)) = false := by simp [hr]
      rw [hd]
      exact ih

theorem reverse_scan_some (s t : String) (visited2 : List String)
    (hvt : visited2.contains t = false) :
    ∀ (reg : Registry) (te : Entity) (rel : EntityRelationship),
    get_entity_r reg t = some te →
    te.relationships.find? (fun r => r.target_entity = s) = some rel →
    reg.findSome? (fun p =>
      if visited2.contains p.1 then none
      else p.2.relationships.findSome? (fun r =>
        if r.target_entity = s && p.1 = t then
          some [(⟨s, t, r.target_field, r.source_field, r.join_type⟩ : JoinStep)]
        else none)) =
      some [(⟨s, t, rel.target_field, rel.source_field, rel.join_type⟩ : JoinStep)] := by
  intro reg
  induction reg with
  | nil =>
    intro te rel hte hfind
    exact Option.noConfusion hte
  | cons q rest ih =>
    intro te rel hte hfind
    rw [List.findSome?_cons]
    by_cases hq : q.1 = t
    · have hq2 : q.2 = te := by
        unfold get_entity_r at hte
        rw [List.find?_cons] at hte
        have hdq : decide (q.1 = t) = true := by simp [hq]
        rw [hdq] at hte
        simp only [Option.map_some'] at hte
        exact Option.some.inj hte
      rw [hq, hvt]
      have hinner : q.2.relationships.findSome? (fun r =>
          if r.target_entity = s && t = t then
            some [(⟨s, t, r.target_field, r.source_field, r.join_type⟩ : JoinStep)]
          else none) =
          some [(⟨s, t, rel.target_field, rel.source_field, rel.join_type⟩ : JoinStep)] := by
        rw [hq2, reverse_inner_eq, hfind]
        rfl
      rw [hinner]
      rfl
    · have hte2 : get_entity_r rest t = some te := by
        unfold get_entity_r at hte ⊢
        rw [List.find?_cons] at hte
        have hdq : decide (q.1 = t) = false := by simp [hq]
        rw [hdq] at hte
        exact hte
      have hfq : (if visited2.contains q.1 then none
          else q.2.relationships.findSome? (fun r =>
            if r.target_entity = s && q.1 = t then
              some [(⟨s, t, r.target_field, r.source_field, r.join_type⟩ : JoinStep)]
            else none)) = (none : Option (List JoinStep)) := by
        by_cases hvq : visited2.contains q.1 = true
        · rw [if_pos hvq]
        · rw [if_neg hvq]
          apply List.findSome?_eq_none.mpr
          intro r hr
          rw [if_neg (by simp [hq])]
      rw [hfq]
      exact ih te rel hte2 hfind

theorem contains_cons_false (x a : String) (l : List String)
    (h1 : ¬ x = a) (h2 : l.contains x = false) : (a :: l).contains x = false := by
  rw [List.contains_cons, Bool.or_eq_false_iff]
  exact ⟨beq_eq_false_iff_ne.mpr h1, h2⟩

theorem hasFwdEdge_exists (reg : Registry) (u v : String)
    (h : hasFwdEdgeB reg u v = true) :
    ∃ e, get_entity_r reg u = some e ∧
      ∃ rel ∈ e.relationships, rel.target_entity = v := by
  unfold hasFwdEdgeB at h
  cases he : get_entity_r reg u with
  | none => rw [he] at h; exact absurd h (by simp)
  | some e =>
    rw [he] at h
    refine ⟨e, rfl, ?_⟩
    obtain ⟨rel, hmem, hrel⟩ := List.any_eq_true.mp h
    exact ⟨rel, hmem, of_decide_eq_true hrel⟩

theorem get_entity_r_entry (reg : Registry) (v : String) (e : Entity)
    (h : get_entity_r reg v = some e) : ∃ q ∈ reg, q.1 = v ∧ q.2 = e := by
  unfold get_entity_r at h
  cases hf : reg.find? (fun p => p.1 = v) with
  | none => rw [hf] at h; exact Option.noConfusion h
  | some q =>
    rw [hf, Option.map_some'] at h
    refine ⟨q, List.mem_of_find?_eq_some hf, ?_, Option.some.inj h⟩
    simpa using List.find?_some hf

theorem fjp_complete (reg : Registry) :
    ∀ (n : Nat) (nodes : List String) (s t : String) (visited : List String)
      (fuel : Nat),
    nodes.length < n →
    numUnvisited reg visited < fuel →
    visited.contains s = false →
    visited.contains t = false →
    (∀ u ∈ nodes, visited.contains u = false) →
    (∀ u ∈ s :: nodes, Registered reg u) →
    List.Chain' (fun u v => adjacentB reg u v = true) (s :: (nodes ++ [t])) →
    (find_join_path_fuel reg fuel s t visited).isSome = true := by
  intro n
  induction n using Nat.strong_induction_on with
  | _ n ih =>
    intro nodes s t visited fuel hlen hfuel hvs0 hvt hnvis hallreg hchain
    cases fuel with
    | zero => exact absurd hfuel (Nat.not_lt_zero _)
    | succ fuelM =>
      by_cases hst : s = t
      · simp only [find_join_path_fuel]
        rw [if_pos hst]
        rfl
      · by_cases hsn : s ∈ nodes
        · obtain ⟨pre, suf, heq, hnsuf⟩ := split_last_occ nodes s hsn
          have hsuffix : (s :: (suf ++ [t])) <:+ (s :: (nodes ++ [t])) :=
            ⟨s :: pre, by rw [heq]; simp⟩
          have hchain2 := hchain.suffix hsuffix
          refine ih (suf.length + 1) ?_ suf s t visited (fuelM + 1)
            (Nat.lt_succ_self _) hfuel hvs0 hvt ?_ ?_ hchain2
          · have hlen2 : nodes.length = pre.length + suf.length + 1 := by
              rw [heq]
              simp [List.length_append]
              omega
            omega
          · intro u hu
            exact hnvis u (by
              rw [heq]
              exact List.mem_append_right pre (List.mem_cons_of_mem s hu))
          · intro u hu
            rcases List.mem_cons.mp hu with rfl | hu2
            · exact hallreg u (List.mem_cons_self u nodes)
            · exact hallreg u (List.mem_cons_of_mem s (by
                rw [heq]
                exact List.mem_append_right pre (List.mem_cons_of_mem s hu2)))
        · by_cases htn : t ∈ nodes
          · obtain ⟨pre, suf, heq, hnpre⟩ := split_first_occ nodes t htn
            have hprefix : (s :: (pre ++ [t])) <+: (s :: (nodes ++ [t])) :=
              ⟨suf ++ [t], by rw [heq]; simp⟩
            have hchain2 := hchain.prefix hprefix
            refine ih (pre.length + 1) ?_ pre s t visited (fuelM + 1)
              (Nat.lt_succ_self _) hfuel hvs0 hvt ?_ ?_ hchain2
            · have hlen2 : nodes.length = pre.length + suf.length + 1 := by
                rw [heq]
                simp [List.length_append]
                omega
              omega
            · intro u hu
              exact hnvis u (by
                rw [heq]
                exact List.mem_append_left (t :: suf) hu)
            · intro u hu
              rcases List.mem_cons.mp hu with rfl | hu2
              · exact hallreg u (List.mem_cons_self u nodes)
              · exact hallreg u (List.mem_cons_of_mem s (by
                  rw [heq]
                  exact List.mem_append_left (t :: suf) hu2))
          · obtain ⟨fe, he⟩ := Option.isSome_iff_exists.mp
              (hallreg s (List.mem_cons_self s nodes))
            have hsmem : s ∈ reg.map Prod.fst :=
              get_entity_r_isSome_mem reg s (by rw [he]; rfl)
            have hdec := numUnvisited_lt reg s visited hsmem hvs0
            have hvt2 : (s :: visited).contains t = false :=
              contains_cons_false t s visited (fun h2 => hst h2.symm) hvt
            simp only [find_join_path_fuel]
            rw [if_neg hst, if_neg (by rw [hvs0]; exact Bool.false_ne_true)]
            simp only [he]
            cases hdf : fe.relationships.findSome? (fun rel =>
                if rel.target_entity = t then
                  some [(⟨s, t, rel.source_field, rel.target_field,
                    rel.join_type⟩ : JoinStep)]
                else none) with
            | some p => rfl
            | none =>
            cases hdr : reg.findSome? (fun p =>
                if (s :: visited).contains p.1 then none
                else p.2.relationships.findSome? (fun rel =>
                  if rel.target_entity = s && p.1 = t then
                    some [(⟨s, t, rel.target_field, rel.source_field,
                      rel.join_type⟩ : JoinStep)]
                  else none)) with
            | some p => rfl
            | none =>
            cases hmf : fe.relationships.findSome? (fun rel =>
                if (s :: visited).contains rel.target_entity then none
                else (find_join_path_fuel reg fuelM rel.target_entity t
                    (s :: visited)).map (fun sub =>
                  (⟨s, rel.target_entity, rel.source_field, rel.target_field,
                    rel.join_type⟩ : JoinStep) :: sub)) with
            | some p => rfl
            | none =>
            cases nodes with
            | nil =>
              simp only [List.nil_append] at hchain
              have hadj := (List.chain'_cons.mp hchain).1
              unfold adjacentB at hadj
              rw [Bool.or_eq_true] at hadj
              rcases hadj with hfwd | hrev
              · obtain ⟨e, he2, rel, hmem, hrel⟩ := hasFwdEdge_exists reg s t hfwd
                rw [he] at he2
                obtain rfl := Option.some.inj he2
                have hnone := List.findSome?_eq_none.mp hdf rel hmem
                rw [if_pos hrel] at hnone
                exact Option.noConfusion hnone
              · obtain ⟨te, hte, rel0, hmem0, hrel0⟩ :=
                  hasFwdEdge_exists reg t s hrev
                have hfs : (te.relationships.find?
                    (fun r => r.target_entity = s)).isSome = true :=
                  List.find?_isSome.mpr ⟨rel0, hmem0, decide_eq_true hrel0⟩
                obtain ⟨rel, hfind⟩ := Option.isSome_iff_exists.mp hfs
                have hsome := reverse_scan_some s t (s :: visited) hvt2 reg te
                  rel hte hfind
                rw [hsome] at hdr
                exact Option.noConfusion hdr
            | cons v rest =>
              simp only [List.cons_append] at hchain
              have hadj := (List.chain'_cons.mp hchain).1
              have hchainT := (List.chain'_cons.mp hchain).2
              have hvs : ¬ v = s := by
                intro h2
                exact hsn (by rw [← h2]; exact List.mem_cons_self v rest)
              have hvvis : visited.contains v = false :=
                hnvis v (List.mem_cons_self v rest)
              have hvisv2 : (s :: visited).contains v = false :=
                contains_cons_false v s visited hvs hvvis
              have hrec : (find_join_path_fuel reg fuelM v t
                  (s :: visited)).isSome = true := by
                refine ih (rest.length + 1) (by simp at hlen; omega) rest v t
                  (s :: visited) fuelM (Nat.lt_succ_self _) (by omega)
                  hvisv2 hvt2 ?_ ?_ hchainT
                · intro u hu
                  refine contains_cons_false u s visited ?_
                    (hnvis u (List.mem_cons_of_mem v hu))
                  intro h2
                  exact hsn (by rw [← h2]; exact List.mem_cons_of_mem v hu)
                · intro u hu
                  exact hallreg u (List.mem_cons_of_mem s hu)
              obtain ⟨path, hp⟩ := Option.isSome_iff_exists.mp hrec
              unfold adjacentB at hadj
              rw [Bool.or_eq_true] at hadj
              rcases hadj with hfwd | hrev
              · obtain ⟨e, he2, rel, hmem, hrel⟩ := hasFwdEdge_exists reg s v hfwd
                rw [he] at he2
                obtain rfl := Option.some.inj he2
                have hnone := List.findSome?_eq_none.mp hmf rel hmem
                rw [hrel, if_neg (by rw [hvisv2]; exact Bool.false_ne_true),
                  hp, Option.map_some'] at hnone
                exact Option.noConfusion hnone
              · obtain ⟨ve, hve, rel, hmem, hrel⟩ := hasFwdEdge_exists reg v s hrev
                obtain ⟨q, hqmem, hq1, hq2⟩ := get_entity_r_entry reg v ve hve
                refine findSome?_isSome _ _ q hqmem ?_
                rw [hq1, hq2, if_neg (by rw [hvisv2]; exact Bool.false_ne_true)]
                refine findSome?_isSome _ _ rel hmem ?_
                rw [if_pos hrel, hp, Option.map_some']
                rfl

/-- C4: the join-path resolver follows the declared priority order — equal
ids give the empty path; a visited source gives not-found; otherwise the
FIRST declared relationship of the source targeting the destination gives
that single forward step; failing that, the first matching relationship
declared by the (unvisited, registered) destination entity and targeting the
source gives the single reverse step with its fields swapped; and whenever
any chain of declared relationships (followed in either direction) connects
the source to the destination through registered entities, the search
returns some path. -/
theorem claim_C4_join_path_resolution (reg : Registry) (s t : String)
    (visited : List String) :
    (s = t → find_join_path reg s t visited = some []) ∧
    (¬ s = t → visited.contains s = true →
      find_join_path reg s t visited = none) ∧
    (∀ fe rel, ¬ s = t → visited.contains s = false →
      get_entity_r reg s = some fe →
      fe.relationships.find? (fun r => r.target_entity = t) = some rel →
      find_join_path reg s t visited =
        some [⟨s, t, rel.source_field, rel.target_field, rel.join_type⟩]) ∧
    (∀ fe te rel, ¬ s = t → visited.contains s = false →
      get_entity_r reg s = some fe →
      fe.relationships.find? (fun r => r.target_entity = t) = none →
      get_entity_r reg t = some te →
      (s :: visited).contains t = false →
      te.relationships.find? (fun r => r.target_entity = s) = some rel →
      find_join_path reg s t visited =
        some [⟨s, t, rel.target_field, rel.source_field, rel.join_type⟩]) ∧
    (∀ nodes : List String, visited = [] →
      (∀ u ∈ s :: nodes, Registered reg u) →
      List.Chain' (fun a b => adjacentB reg a b = true) (s :: (nodes ++ [t])) →
      (find_join_path reg s t visited).isSome = true) := by
  refine ⟨?_, ?_, ?_, ?_, ?_⟩
  · intro hst
    unfold find_join_path
    simp only [find_join_path_fuel]
    rw [if_pos hst]
  · intro hst hv
    unfold find_join_path
    simp only [find_join_path_fuel]
    rw [if_neg hst, if_pos hv]
  · intro fe rel hst hv he hfind
    unfold find_join_path
    simp only [find_join_path_fuel]
    rw [if_neg hst, if_neg (by rw [hv]; exact Bool.false_ne_true)]
    simp only [he]
    rw [forward_scan_eq, hfind]
    rfl
  · intro fe te rel hst hv he hfwdn hte hvt hfindr
    unfold find_join_path
    simp only [find_join_path_fuel]
    rw [if_neg hst, if_neg (by rw [hv]; exact Bool.false_ne_true)]
    simp only [he]
    rw [forward_scan_eq, hfwdn]
    rw [reverse_scan_some s t (s :: visited) hvt reg te rel hte hfindr]
    rfl
  · intro nodes hvis hreg2 hchain
    subst hvis
    unfold find_join_path
    exact fjp_complete reg (nodes.length + 1) nodes s t [] _
      (Nat.lt_succ_self _) (Nat.lt_succ_self _) rfl rfl
      (fun u hu => rfl) hreg2 hchain

set_option maxRecDepth 10000 in
theorem claim_C4_join_path_resolution_witness :
    (find_join_path ENTITIES "vehicles" "devices" []).isSome = true ∧
    find_join_path ENTITIES "objects" "objects" ["x"] = some [] :=
  ⟨(claim_C4_join_path_resolution ENTITIES "vehicles" "devices" []).2.2.2.2
     ["objects"] rfl
     (by
       intro u hu
       rcases List.mem_cons.mp hu with rfl | hu
       · rfl
       · rcases List.mem_cons.mp hu with rfl | hu
         · rfl
         · cases hu)
     (by
       refine List.chain'_cons.mpr ⟨rfl, ?_⟩
       refine List.chain'_cons.mpr ⟨rfl, ?_⟩
       exact List.chain'_singleton _),
   (claim_C4_join_path_resolution ENTITIES "objects" "objects" ["x"]).1 rfl⟩

theorem replaceAllF_stable (pat rep : List Char) :
    ∀ (f1 f2 : Nat) (s : List Char), s.length < f1 → s.length < f2 →
    replaceAllF f1 s pat rep = replaceAllF f2 s pat rep := by
  intro f1
  induction f1 with
  | zero =>
    intro f2 s h1 h2
    exact absurd h1 (Nat.not_lt_zero _)
  | succ f1 ih =>
    intro f2 s h1 h2
    cases f2 with
    | zero => exact absurd h2 (Nat.not_lt_zero _)
    | succ f2 =>
      cases s with
      | nil => simp only [replaceAllF]
      | cons c cs =>
        simp only [replaceAllF]
        by_cases hc : (pat ≠ [] && pat.isPrefixOf (c :: cs)) = true
        · rw [if_pos hc, if_pos hc]
          congr 1
          have hpat : pat ≠ [] := by
            intro h
            subst h
            simp at hc
          have hplen : 1 ≤ pat.length := List.length_pos.mpr hpat
          have hdl : ((c :: cs).drop pat.length).length =
              (c :: cs).length - pat.length := List.length_drop _ _
          apply ih
          · rw [hdl]
            simp only [List.length_cons] at h1 ⊢
            omega
          · rw [hdl]
            simp only [List.length_cons] at h2 ⊢
            omega
        · rw [if_neg hc, if_neg hc]
          congr 1
          apply ih
          · simp only [List.length_cons] at h1
            omega
          · simp only [List.length_cons] at h2
            omega

theorem replaceAllL_cons (c : Char) (cs pat rep : List Char) :
    replaceAllL (c :: cs) pat rep =
      if pat ≠ [] && pat.isPrefixOf (c :: cs) then
        rep ++ replaceAllL ((c :: cs).drop pat.length) pat rep
      else c :: replaceAllL cs pat rep := by
  rw [show replaceAllL (c :: cs) pat rep =
      (if pat ≠ [] && pat.isPrefixOf (c :: cs) then
        rep ++ replaceAllF (c :: cs).length ((c :: cs).drop pat.length) pat rep
      else c :: replaceAllF (c :: cs).length cs pat rep) from rfl]
  by_cases hc : (pat ≠ [] && pat.isPrefixOf (c :: cs)) = true
  · rw [if_pos hc, if_pos hc]
    congr 1
    have hpat : pat ≠ [] := by
      intro h
      subst h
      simp at hc
    have hplen : 1 ≤ pat.length := List.length_pos.mpr hpat
    have hdl : ((c :: cs).drop pat.length).length =
        (c :: cs).length - pat.length := List.length_drop _ _
    apply replaceAllF_stable
    · rw [hdl]
      simp only [List.length_cons]
      omega
    · exact Nat.lt_succ_self _
  · rw [if_neg hc, if_neg hc]
    rfl

theorem natDigits_single (k : Nat) (h1 : 1 ≤ k) (h9 : k ≤ 9) :
    natDigits k = [digitChar k] := by
  interval_cases k <;> rfl

theorem replaceAll_skip_lit (patTail rep : List Char) :
    ∀ (l rest : List Char), noDollarB l = true →
    replaceAllL (l ++ rest) ('$' :: patTail) rep =
      l ++ replaceAllL rest ('$' :: patTail) rep := by
  intro l
  induction l with
  | nil =>
    intro rest h
    simp
  | cons c l ih =>
    intro rest h
    have hc : ¬ c = '$' := (noDollarB_iff _).mp h c (List.mem_cons_self c l)
    rw [List.cons_append, replaceAllL_cons]
    have hpre : ('$' :: patTail).isPrefixOf (c :: (l ++ rest)) = false := by
      simp [List.isPrefixOf, beq_eq_false_iff_ne.mpr
        (show ('$' : Char) ≠ c from fun h2 => hc h2.symm)]
    rw [if_neg (by rw [hpre]; simp)]
    rw [ih rest ((noDollarB_iff _).mpr
      (fun c2 hc2 => (noDollarB_iff _).mp h c2 (List.mem_cons_of_mem c hc2)))]
    rfl

theorem replaceAll_frags (i : Nat) (hi1 : 1 ≤ i) (hi9 : i ≤ 9)
    (rep : List Char) :
    ∀ fs, fragsWF fs = true →
    (∀ k ∈ phs fs, 1 ≤ k ∧ k ≤ 9) →
    replaceAllL (fragsText fs) ('$' :: natDigits i) rep =
      fragsText (substOneFrag i rep fs) := by
  intro fs
  induction fs with
  | nil =>
    intro hwf hbnd
    rfl
  | cons f fs ih =>
    cases f with
    | lit l =>
      intro hwf hbnd
      rw [show fragsWF (Frag.lit l :: fs) = (noDollarB l && fragsWF fs) from rfl,
        Bool.and_eq_true] at hwf
      obtain ⟨hl, hwf2⟩ := hwf
      rw [show fragsText (Frag.lit l :: fs) = l ++ fragsText fs from rfl]
      rw [replaceAll_skip_lit _ _ l _ hl]
      rw [ih hwf2 (fun k hk => hbnd k hk)]
      rfl
    | ph k =>
      intro hwf hbnd
      obtain ⟨hk1, hk9⟩ := hbnd k (List.mem_cons_self k (phs fs))
      rw [show fragsWF (Frag.ph k :: fs) =
          (headNondigit (fragsText fs) && fragsWF fs) from rfl,
        Bool.and_eq_true] at hwf
      obtain ⟨hhd, hwf2⟩ := hwf
      have hbnd2 : ∀ k2 ∈ phs fs, 1 ≤ k2 ∧ k2 ≤ 9 :=
        fun k2 hk2 => hbnd k2 (List.mem_cons_of_mem k hk2)
      rw [show fragsText (Frag.ph k :: fs) =
          ('$' :: (natDigits k ++ fragsText fs)) from rfl]
      by_cases hki : k = i
      · subst hki
        rw [replaceAllL_cons]
        have hpre : ('$' :: natDigits k).isPrefixOf
            ('$' :: (natDigits k ++ fragsText fs)) = true := by
          rw [List.isPrefixOf_iff_prefix]
          exact ⟨fragsText fs, by simp⟩
        rw [if_pos (by rw [hpre]; simp)]
        have hdrop : ('$' :: (natDigits k ++ fragsText fs)).drop
            ('$' :: natDigits k).length = fragsText fs := by
          rw [show ('$' :: (natDigits k ++ fragsText fs)) =
            ('$' :: natDigits k) ++ fragsText fs from by simp]
          exact List.drop_left _ _
        rw [hdrop, ih hwf2 hbnd2]
        rw [show substOneFrag k rep (Frag.ph k :: fs) =
          ((if k = k then Frag.lit rep else Frag.ph k) ::
            substOneFrag k rep fs) from rfl, if_pos rfl]
        rfl
      · rw [natDigits_single k hk1 hk9, List.singleton_append]
        rw [replaceAllL_cons]
        have hne : digitChar i ≠ digitChar k := by
          intro h
          apply hki
          have h2 := congrArg Char.toNat h
          rw [digitChar_toNat i (by omega), digitChar_toNat k (by omega)] at h2
          omega
        have hpre : ('$' :: natDigits i).isPrefixOf
            ('$' :: (digitChar k :: fragsText fs)) = false := by
          rw [natDigits_single i hi1 hi9]
          simp [List.isPrefixOf, beq_eq_false_iff_ne.mpr hne]
        rw [if_neg (by rw [hpre]; simp)]
        rw [replaceAllL_cons]
        have hpre2 : ('$' :: natDigits i).isPrefixOf
            (digitChar k :: fragsText fs) = false := by
          simp [List.isPrefixOf, beq_eq_false_iff_ne.mpr
            (show ('$' : Char) ≠ digitChar k from
              fun h2 => digitChar_ne_dollar k (by omega) h2.symm)]
        rw [if_neg (by rw [hpre2]; simp)]
        rw [ih hwf2 hbnd2]
        rw [show substOneFrag i rep (Frag.ph k :: fs) =
          ((if k = i then Frag.lit rep else Frag.ph k) ::
            substOneFrag i rep fs) from rfl, if_neg hki]
        rw [show fragsText (Frag.ph k :: substOneFrag i rep fs) =
          ('$' :: (natDigits k ++ fragsText (substOneFrag i rep fs))) from rfl]
        rw [natDigits_single k hk1 hk9]
        rfl

theorem substOneFrag_id (i : Nat) (rep : List Char) :
    ∀ fs, i ∉ phs fs → substOneFrag i rep fs = fs := by
  intro fs
  induction fs with
  | nil => intro h; rfl
  | cons f fs ih =>
    cases f with
    | lit l =>
      intro h
      rw [show substOneFrag i rep (Frag.lit l :: fs) =
        Frag.lit l :: substOneFrag i rep fs from rfl, ih h]
    | ph k =>
      intro h
      have hk : ¬ k = i := by
        intro h2
        exact h (by rw [← h2]; exact List.mem_cons_self k (phs fs))
      rw [show substOneFrag i rep (Frag.ph k :: fs) =
        ((if k = i then Frag.lit rep else Frag.ph k) ::
          substOneFrag i rep fs) from rfl, if_neg hk,
        ih (fun h2 => h (List.mem_cons_of_mem k h2))]

theorem substOne_WF (i : Nat) (rep : List Char) (hrep : noDollarB rep = true) :
    ∀ fs m, fragsWF fs = true → phs fs = List.range' i m → 1 ≤ m →
    fragsWF (substOneFrag i rep fs) = true := by
  intro fs
  induction fs with
  | nil =>
    intro m hwf hphs hm
    cases m with
    | zero => exact absurd hm (by omega)
    | succ m2 => rw [List.range'_succ] at hphs; exact List.noConfusion hphs
  | cons f fs ih =>
    cases f with
    | lit l =>
      intro m hwf hphs hm
      rw [show fragsWF (Frag.lit l :: fs) = (noDollarB l && fragsWF fs) from rfl,
        Bool.and_eq_true] at hwf
      obtain ⟨hl, hwf2⟩ := hwf
      rw [show substOneFrag i rep (Frag.lit l :: fs) =
        Frag.lit l :: substOneFrag i rep fs from rfl]
      rw [show fragsWF (Frag.lit l :: substOneFrag i rep fs) =
        (noDollarB l && fragsWF (substOneFrag i rep fs)) from rfl,
        Bool.and_eq_true]
      exact ⟨hl, ih m hwf2 hphs hm⟩
    | ph k =>
      intro m hwf hphs hm
      rw [show fragsWF (Frag.ph k :: fs) =
        (headNondigit (fragsText fs) && fragsWF fs) from rfl,
        Bool.and_eq_true] at hwf
      obtain ⟨hhd, hwf2⟩ := hwf
      cases m with
      | zero => exact absurd hm (by omega)
      | succ m2 =>
        rw [List.range'_succ] at hphs
        rw [show phs (Frag.ph k :: fs) = k :: phs fs from rfl] at hphs
        have hki : k = i := (List.cons.inj hphs).1
        have htail : phs fs = List.range' (i + 1) m2 := (List.cons.inj hphs).2
        have hnot : i ∉ phs fs := by
          rw [htail]
          intro hmem
          have := (List.mem_range'_1.mp hmem).1
          omega
        subst hki
        rw [show substOneFrag k rep (Frag.ph k :: fs) =
          ((if k = k then Frag.lit rep else Frag.ph k) ::
            substOneFrag k rep fs) from rfl, if_pos rfl,
          substOneFrag_id k rep fs hnot]
        rw [show fragsWF (Frag.lit rep :: fs) =
          (noDollarB rep && fragsWF fs) from rfl, Bool.and_eq_true]
        exact ⟨hrep, hwf2⟩

theorem phs_substOne (i : Nat) (rep : List Char) :
    ∀ fs m, phs fs = List.range' i m → 1 ≤ m →
    phs (substOneFrag i rep fs) = List.range' (i + 1) (m - 1) := by
  intro fs
  induction fs with
  | nil =>
    intro m hphs hm
    cases m with
    | zero => exact absurd hm (by omega)
    | succ m2 => rw [List.range'_succ] at hphs; exact List.noConfusion hphs
  | cons f fs ih =>
    cases f with
    | lit l =>
      intro m hphs hm
      rw [show substOneFrag i rep (Frag.lit l :: fs) =
        Frag.lit l :: substOneFrag i rep fs from rfl]
      rw [show phs (Frag.lit l :: substOneFrag i rep fs) =
        phs (substOneFrag i rep fs) from rfl]
      exact ih m hphs hm
    | ph k =>
      intro m hphs hm
      cases m with
      | zero => exact absurd hm (by omega)
      | succ m2 =>
        rw [List.range'_succ] at hphs
        rw [show phs (Frag.ph k :: fs) = k :: phs fs from rfl] at hphs
        have hki : k = i := (List.cons.inj hphs).1
        have htail : phs fs = List.range' (i + 1) m2 := (List.cons.inj hphs).2
        have hnot : i ∉ phs fs := by
          rw [htail]
          intro hmem
          have := (List.mem_range'_1.mp hmem).1
          omega
        subst hki
        rw [show substOneFrag k rep (Frag.ph k :: fs) =
          ((if k = k then Frag.lit rep else Frag.ph k) ::
            substOneFrag k rep fs) from rfl, if_pos rfl,
          substOneFrag_id k rep fs hnot]
        rw [show phs (Frag.lit rep :: fs) = phs fs from rfl]
        rw [htail]
        rfl

theorem substFrags_substOne (i : Nat) (rep : List Char)
    (f g : Nat → List Char) (hfi : f i = rep) :
    ∀ fs, (∀ k ∈ phs fs, ¬ k = i → g k = f k) →
    substFrags g (substOneFrag i rep fs) = substFrags f fs := by
  intro fs
  induction fs with
  | nil => intro hfg; rfl
  | cons fr fs ih =>
    cases fr with
    | lit l =>
      intro hfg
      rw [show substOneFrag i rep (Frag.lit l :: fs) =
        Frag.lit l :: substOneFrag i rep fs from rfl]
      rw [show substFrags g (Frag.lit l :: substOneFrag i rep fs) =
        Frag.lit l :: substFrags g (substOneFrag i rep fs) from rfl]
      rw [show substFrags f (Frag.lit l :: fs) =
        Frag.lit l :: substFrags f fs from rfl]
      rw [ih hfg]
    | ph k =>
      intro hfg
      have hfg2 : ∀ k2 ∈ phs fs, ¬ k2 = i → g k2 = f k2 :=
        fun k2 hk2 => hfg k2 (List.mem_cons_of_mem k hk2)
      by_cases hk : k = i
      · subst hk
        rw [show substOneFrag k rep (Frag.ph k :: fs) =
          ((if k = k then Frag.lit rep else Frag.ph k) ::
            substOneFrag k rep fs) from rfl, if_pos rfl]
        rw [show substFrags g (Frag.lit rep :: substOneFrag k rep fs) =
          Frag.lit rep :: substFrags g (substOneFrag k rep fs) from rfl]
        rw [show substFrags f (Frag.ph k :: fs) =
          Frag.lit (f k) :: substFrags f fs from rfl]
        rw [ih hfg2, hfi]
      · rw [show substOneFrag i rep (Frag.ph k :: fs) =
          ((if k = i then Frag.lit rep else Frag.ph k) ::
            substOneFrag i rep fs) from rfl, if_neg hk]
        rw [show substFrags g (Frag.ph k :: substOneFrag i rep fs) =
          Frag.lit (g k) :: substFrags g (substOneFrag i rep fs) from rfl]
        rw [show substFrags f (Frag.ph k :: fs) =
          Frag.lit (f k) :: substFrags f fs from rfl]
        rw [ih hfg2, hfg k (List.mem_cons_self k (phs fs)) hk]

theorem substFrags_id (f : Nat → List Char) :
    ∀ fs, phs fs = [] → substFrags f fs = fs := by
  intro fs
  induction fs with
  | nil => intro h; rfl
  | cons fr fs ih =>
    cases fr with
    | lit l =>
      intro h
      rw [show substFrags f (Frag.lit l :: fs) =
        Frag.lit l :: substFrags f fs from rfl, ih h]
    | ph k =>
      intro h
      exact List.noConfusion h

theorem replace_params_frags :
    ∀ (ps : List PyVal) (i : Nat) (fs : List Frag),
    fragsWF fs = true →
    phs fs = List.range' i ps.length →
    1 ≤ i → i + ps.length ≤ 10 →
    (∀ p ∈ ps, noDollarB (render_preview_param p).data = true) →
    replace_params ⟨fragsText fs⟩ ps i =
      ⟨fragsText (substFrags
        (fun k => (render_preview_param (ps.getD (k - i) PyVal.vNone)).data)
        fs)⟩ := by
  intro ps
  induction ps with
  | nil =>
    intro i fs hwf hphs h1 h10 hrend
    rw [show replace_params ⟨fragsText fs⟩ [] i = ⟨fragsText fs⟩ from rfl]
    rw [substFrags_id _ fs (by rw [hphs]; rfl)]
  | cons p ps ih =>
    intro i fs hwf hphs h1 h10 hrend
    rw [show replace_params ⟨fragsText fs⟩ (p :: ps) i =
      replace_params ⟨replaceAllL (fragsText fs) ("$" ++ natRepr i).data
        (render_preview_param p).data⟩ ps (i + 1) from rfl]
    have hpat : ("$" ++ natRepr i).data = '$' :: natDigits i := by
      rw [String.data_append]
      rfl
    rw [hpat]
    rw [show (p :: ps).length = ps.length + 1 from rfl] at hphs h10
    have hbnd : ∀ k ∈ phs fs, 1 ≤ k ∧ k ≤ 9 := by
      intro k hk
      rw [hphs] at hk
      have := List.mem_range'_1.mp hk
      omega
    rw [replaceAll_frags i h1 (by omega) _ fs hwf hbnd]
    have hrp : noDollarB (render_preview_param p).data = true :=
      hrend p (List.mem_cons_self p ps)
    have hwf2 := substOne_WF i _ hrp fs (ps.length + 1) hwf hphs (by omega)
    have hphs2 := phs_substOne i (render_preview_param p).data fs
      (ps.length + 1) hphs (by omega)
    rw [show ps.length + 1 - 1 = ps.length from rfl] at hphs2
    rw [ih (i + 1) _ hwf2 hphs2 (by omega) (by omega)
      (fun q hq => hrend q (List.mem_cons_of_mem p hq))]
    congr 1
    congr 1
    apply substFrags_substOne
    · rw [show i - i = 0 from by omega]
      rfl
    · intro k hk hki
      rw [hphs] at hk
      have hkr := List.mem_range'_1.mp hk
      have hkge : i + 1 ≤ k := by omega
      rw [show k - i = (k - (i + 1)) + 1 from by omega, List.getD_cons_succ]

theorem subst_spec_skip_lit (params : List PyVal) :
    ∀ (l rest : List Char), noDollarB l = true →
    subst_spec params (l ++ rest) = l ++ subst_spec params rest := by
  intro l
  induction l with
  | nil =>
    intro rest h
    simp
  | cons c l ih =>
    intro rest h
    have hc : ¬ c = '$' := (noDollarB_iff _).mp h c (List.mem_cons_self c l)
    rw [List.cons_append, subst_spec, if_neg hc]
    rw [ih rest ((noDollarB_iff _).mpr
      (fun c2 hc2 => (noDollarB_iff _).mp h c2 (List.mem_cons_of_mem c hc2)))]
    rfl

theorem subst_spec_frags (params : List PyVal) :
    ∀ fs, fragsWF fs = true →
    (∀ k ∈ phs fs, 1 ≤ k ∧ k ≤ params.length) →
    subst_spec params (fragsText fs) =
      fragsText (substFrags
        (fun k => (render_preview_param (params.getD (k - 1) PyVal.vNone)).data)
        fs) := by
  intro fs
  induction fs with
  | nil =>
    intro hwf hbnd
    rw [show fragsText ([] : List Frag) = [] from rfl, subst_spec]
    rfl
  | cons f fs ih =>
    cases f with
    | lit l =>
      intro hwf hbnd
      rw [show fragsWF (Frag.lit l :: fs) = (noDollarB l && fragsWF fs) from rfl,
        Bool.and_eq_true] at hwf
      obtain ⟨hl, hwf2⟩ := hwf
      rw [show fragsText (Frag.lit l :: fs) = l ++ fragsText fs from rfl]
      rw [subst_spec_skip_lit params l _ hl]
      rw [ih hwf2 (fun k hk => hbnd k hk)]
      rfl
    | ph k =>
      intro hwf hbnd
      obtain ⟨hk1, hklen⟩ := hbnd k (List.mem_cons_self k (phs fs))
      rw [show fragsWF (Frag.ph k :: fs) =
          (headNondigit (fragsText fs) && fragsWF fs) from rfl,
        Bool.and_eq_true] at hwf
      obtain ⟨hhd, hwf2⟩ := hwf
      rw [show fragsText (Frag.ph k :: fs) =
          ('$' :: (natDigits k ++ fragsText fs)) from rfl]
      rw [subst_spec, if_pos rfl]
      have htake : (natDigits k ++ fragsText fs).takeWhile Char.isDigit =
          natDigits k := by
        rw [takeWhile_append_headNondigit _ _ hhd]
        exact List.takeWhile_eq_self_iff.mpr (natDigits_all_digit k)
      have hdrop : (natDigits k ++ fragsText fs).dropWhile Char.isDigit =
          fragsText fs := by
        rw [dropWhile_append_headNondigit _ _ hhd,
          List.dropWhile_eq_nil_iff.mpr (natDigits_all_digit k)]
        rfl
      rw [htake, hdrop]
      rw [if_neg (by
        rw [List.isEmpty_iff]
        exact natDigits_ne_nil k)]
      rw [parseNat_natDigits]
      rw [if_pos ⟨hk1, hklen⟩]
      rw [ih hwf2 (fun k2 hk2 => hbnd k2 (List.mem_cons_of_mem k hk2))]
      rfl

/-- C9 (corrected): the preview substitution is faithful only in a restricted
regime: when the compiled query has at most 9 parameters and no rendered
value contains a placeholder marker, the preview equals the query text with
every placeholder simultaneously replaced by the rendering of its own
parameter. The general claim is false: the loop textually replaces each
pattern in turn, so the pattern for parameter 1 also matches the prefix of a
two-digit placeholder (replacing part of it with the wrong value and
stranding the remaining digit, see the counterexample). -/
theorem claim_C9_preview_substitution (reg : Registry) (config : ReportConfig)
    (now : Int) (sql preview : String) (params : List PyVal)
    (hreg : regNoDollar reg = true)
    (hq : build_query reg config now = .ok (sql, params))
    (hp : generate_preview_sql reg config now = .ok preview)
    (hlen : params.length ≤ 9)
    (hrend : ∀ p ∈ params, noDollarB (render_preview_param p).data = true) :
    preview.data = subst_spec params sql.data := by
  unfold generate_preview_sql at hp
  rw [hq, Except.ok.injEq] at hp
  obtain ⟨fs, hft, hwf, hphs⟩ :=
    build_query_frags reg config now sql params hreg hq
  have hsql : sql = ⟨fragsText fs⟩ := by rw [hft]
  rw [hsql] at hp
  rw [replace_params_frags params 1 fs hwf (by rw [hphs]) (Nat.le_refl 1)
    (by omega) hrend] at hp
  rw [← hp]
  rw [show sql.data = fragsText fs from hft.symm]
  rw [subst_spec_frags params fs hwf (by
    intro k hk
    rw [hphs] at hk
    have := List.mem_range'_1.mp hk
    omega)]

set_option maxRecDepth 10000 in
theorem claim_C9_preview_substitution_witness :
    generate_preview_sql ENTITIES configC9ok 0 = Except.ok
      "SELECT objects.object_id AS objects_object_id\nFROM raw_business_data.objects\nWHERE objects.object_label = \x27truck\x27 AND objects.model ILIKE \x27%GT%\x27\nLIMIT 1000" ∧
    ("SELECT objects.object_id AS objects_object_id\nFROM raw_business_data.objects\nWHERE objects.object_label = \x27truck\x27 AND objects.model ILIKE \x27%GT%\x27\nLIMIT 1000").data
      = subst_spec [PyVal.vStr "truck", PyVal.vStr "%GT%"]
          ("SELECT objects.object_id AS objects_object_id\nFROM raw_business_data.objects\nWHERE objects.object_label = $1 AND objects.model ILIKE $2\nLIMIT 1000").data :=
  ⟨rfl,
   claim_C9_preview_substitution ENTITIES configC9ok 0
     "SELECT objects.object_id AS objects_object_id\nFROM raw_business_data.objects\nWHERE objects.object_label = $1 AND objects.model ILIKE $2\nLIMIT 1000"
     "SELECT objects.object_id AS objects_object_id\nFROM raw_business_data.objects\nWHERE objects.object_label = \x27truck\x27 AND objects.model ILIKE \x27%GT%\x27\nLIMIT 1000"
     [PyVal.vStr "truck", PyVal.vStr "%GT%"]
     rfl rfl rfl (by decide)
     (by
       intro p hp
       rcases List.mem_cons.mp hp with rfl | hp
       · rfl
       · rcases List.mem_cons.mp hp with rfl | hp
         · rfl
         · cases hp)⟩

set_option maxRecDepth 10000 in
theorem claim_C9_preview_substitution_counterexample :
    build_query ENTITIES configC9 0 = Except.ok
      ("SELECT objects.object_id AS objects_object_id\nFROM raw_business_data.objects\nWHERE objects.object_label IN ($1, $2, $3, $4, $5, $6, $7, $8, $9, $10)\nLIMIT 1000",
       [PyVal.vStr "a1", PyVal.vStr "a2", PyVal.vStr "a3", PyVal.vStr "a4",
        PyVal.vStr "a5", PyVal.vStr "a6", PyVal.vStr "a7", PyVal.vStr "a8",
        PyVal.vStr "a9", PyVal.vStr "b"]) ∧
    generate_preview_sql ENTITIES configC9 0 = Except.ok
      "SELECT objects.object_id AS objects_object_id\nFROM raw_business_data.objects\nWHERE objects.object_label IN (\x27a1\x27, \x27a2\x27, \x27a3\x27, \x27a4\x27, \x27a5\x27, \x27a6\x27, \x27a7\x27, \x27a8\x27, \x27a9\x27, \x27a1\x270)\nLIMIT 1000" ∧
    strInfix "$10"
      "SELECT objects.object_id AS objects_object_id\nFROM raw_business_data.objects\nWHERE objects.object_label IN ($1, $2, $3, $4, $5, $6, $7, $8, $9, $10)\nLIMIT 1000"
      = true ∧
    strInfix "\x27b\x27"
      "SELECT objects.object_id AS objects_object_id\nFROM raw_business_data.objects\nWHERE objects.object_label IN (\x27a1\x27, \x27a2\x27, \x27a3\x27, \x27a4\x27, \x27a5\x27, \x27a6\x27, \x27a7\x27, \x27a8\x27, \x27a9\x27, \x27a1\x270)\nLIMIT 1000"
      = false ∧
    strInfix "\x27a1\x270"
      "SELECT objects.object_id AS objects_object_id\nFROM raw_business_data.objects\nWHERE objects.object_label IN (\x27a1\x27, \x27a2\x27, \x27a3\x27, \x27a4\x27, \x27a5\x27, \x27a6\x27, \x27a7\x27, \x27a8\x27, \x27a9\x27, \x27a1\x270)\nLIMIT 1000"
      = true :=
  ⟨rfl, rfl, rfl, rfl, rfl⟩
